import Mathlib

/-!
# The POA mediator of MICO (`daemon/poamediator.cc`)

A shallow embedding of `POAMediatorImpl`: the per-server records (`svmap`), the
correlation map (`requests`), the request queue (`invqueue`) and the operations
that act on them.  Calls into the ORB, the implementation repository and the
process objects are recorded, in program order, in a trace of `Event`s.

Conventions
* byte strings (`std::string`, object keys) are `List Nat`;
* an operation returns `none` when the C++ code stops on a failed `assert`, calls
  through the nil repository reference, or reads an object key outside its
  bounds; otherwise `some (result, state)`;
* what the code asks of its collaborators (repository contents, clock, the
  outcome of `run()` and `finished()`) is passed in as an `Env`.
-/

namespace POAMediator

/-! ## Data model -/

/-- The `std::string` server identifier. -/
abbrev SvId := List Nat

/-- Process state of a server record (`pstate`). -/
inductive PState where
  | Inactive
  | Started
  | Active
  | Holding
  | Stopped
  | Failed
  deriving DecidableEq, Repr

/-- The part of a `CORBA::IOR` the mediator looks at: `addr ()` may be null. -/
structure IOR where
  addr : Option Nat
  deriving DecidableEq, Repr

/-- Record `SvInf`; the constructor of the source sets `pstate = Inactive` and
`proc = NULL`, the other members are default-constructed. -/
structure SvInf where
  pstate : PState
  proc : Option Nat
  ior : IOR
  failed : Int
  deriving DecidableEq, Repr

/-- The record built by `SvInf::SvInf ()`. -/
def SvInf.new : SvInf :=
  { pstate := PState.Inactive, proc := none, ior := { addr := none }, failed := 0 }

/-- An object reference as far as the mediator reads it: object key and object id. -/
structure ObjRef where
  key : List Nat
  objid : Nat
  deriving DecidableEq, Repr

/-- The reference built in `invoke`: template IOR of the server, key and id of the target. -/
structure RemoteRef where
  ior : IOR
  key : List Nat
  objid : Nat
  deriving DecidableEq, Repr

/-- Values of `CORBA::InvokeStatus`. -/
inductive InvokeStatus where
  | InvokeOk
  | InvokeForward
  | InvokeSysEx
  | InvokeUsrEx
  | InvokeAddrDisp
  deriving DecidableEq, Repr

/-- Values of `CORBA::LocateStatus`. -/
inductive LocateStatus where
  | LocateUnknown
  | LocateHere
  | LocateForward
  | LocateAddrDisp
  deriving DecidableEq, Repr

/-- System exceptions the mediator raises. -/
inductive SysEx where
  | OBJECT_NOT_EXIST
  deriving DecidableEq, Repr

/-- A queued request (`MICO::ReqQueueRec`): an invocation or a bind. -/
inductive ReqQueueRec where
  | invoke (id : Nat) (req : Nat) (obj : ObjRef) (pr : Nat) (response_exp : Bool)
  | bind (id : Nat) (repoid : Nat) (tag : Nat)
  deriving DecidableEq, Repr

/-- Calls made by the mediator, in program order.  `requests_set` records the
assignment `requests[orbid] = id`, so that its position relative to the
asynchronous calls can be read off the trace.  `perform_work` is a call of
`orb->perform_work ()`; `cerr_cannot_be_stopped` is the message
`*** server cannot be stopped:` of `stop` and `shutdown_server`. -/
inductive Event where
  | set_out_args (req : Nat) (ex : SysEx)
  | answer_invoke (id : Nat) (stat : InvokeStatus) (obj : Option RemoteRef) (req : Nat)
  | answer_bind (id : Nat) (stat : LocateStatus) (obj : Option Nat)
  | answer_locate (id : Nat) (stat : LocateStatus)
  | orb_cancel (orbid : Nat)
  | requests_set (orbid : Nat) (id : Nat)
  | invoke_async (target : RemoteRef) (req : Nat) (pr : Nat) (response_exp : Bool) (orbid : Nat)
  | bind_async (repoid : Nat) (tag : Nat) (addr : Nat) (orbid : Nat)
  | proc_new (p : Nat) (svid : SvId) (command : List Nat)
  | proc_run (p : Nat)
  | proc_terminate (p : Nat)
  | proc_detach (p : Nat)
  | proc_delete (p : Nat)
  | exec_later
  | imr_create (svid : SvId)
  | perform_work
  | cerr_cannot_be_stopped (svid : SvId)
  deriving DecidableEq, Repr

/-- Activation mode of a repository entry; only `ActivatePOA` entries are managed here. -/
inductive ActivationMode where
  | ActivatePOA
  | ActivateOther
  deriving DecidableEq, Repr

/-- A repository entry (`CORBA::ImplementationDef`): `name ()`, `command ()`, `mode ()`. -/
structure ImplementationDef where
  name : SvId
  command : List Nat
  mode : ActivationMode
  deriving DecidableEq, Repr

/-- The implementation repository as the mediator queries it. -/
structure ImplRepository where
  find_by_name : SvId → List ImplementationDef
  find_by_repoid_tag : Nat → Nat → List ImplementationDef

/-- What the surroundings answer during one operation: the build flag
`HAVE_THREADS`, the repository reference (`none` when nil), the clock
(`OSMisc::gettime ().tv_sec`), `proc->finished ()` and the result of `proc->run ()`. -/
structure Env where
  haveThreads : Bool
  imr : Option ImplRepository
  now : Int
  finished : Nat → Bool
  run : Nat → Bool

/-- State of a `POAMediatorImpl`.  `svmap` and `requests` are the two `std::map`s,
kept as association lists in key order; `next_msgid` and `next_proc` number the
objects handed out by `orb->new_orbid (orb->new_msgid ())` and by
`new MICO::UnixProcess`. -/
structure Mediator where
  forward : Bool
  svmap : List (SvId × SvInf)
  requests : List (Nat × Nat)
  invqueue : List ReqQueueRec
  next_msgid : Nat
  next_proc : Nat
  trace : List Event
  deriving DecidableEq

/-- A mediator right after construction. -/
def Mediator.init (forward : Bool) : Mediator :=
  { forward := forward, svmap := [], requests := [], invqueue := [],
    next_msgid := 0, next_proc := 0, trace := [] }

/-! ## The two maps -/

/-- Lexicographic order of `std::string`, by which `svmap` is sorted. -/
def keyLt : SvId → SvId → Bool
  | [], [] => false
  | [], _ :: _ => true
  | _ :: _, [] => false
  | a :: as, b :: bs => if a < b then true else if b < a then false else keyLt as bs

/-- The function `svmap.find (svid)`. -/
def svmap_find : List (SvId × SvInf) → SvId → Option SvInf
  | [], _ => none
  | (k, v) :: rest, svid => if k = svid then some v else svmap_find rest svid

/-- Insertion of a new key at its place in key order. -/
def svmap_insert : List (SvId × SvInf) → SvId → SvInf → List (SvId × SvInf)
  | [], svid, inf => [(svid, inf)]
  | (k, v) :: rest, svid, inf =>
    if keyLt svid k then (svid, inf) :: (k, v) :: rest
    else (k, v) :: svmap_insert rest svid inf

/-- The map after evaluating `svmap[svid]`: a missing record is created by `SvInf ()`. -/
def svmap_index (svmap : List (SvId × SvInf)) (svid : SvId) : List (SvId × SvInf) :=
  match svmap_find svmap svid with
  | some _ => svmap
  | none => svmap_insert svmap svid SvInf.new

/-- The record `svmap[svid]` refers to. -/
def svmap_at (svmap : List (SvId × SvInf)) (svid : SvId) : SvInf :=
  match svmap_find svmap svid with
  | some inf => inf
  | none => SvInf.new

/-- Assignment to the members of the record of `svid` (which exists). -/
def svmap_set : List (SvId × SvInf) → SvId → SvInf → List (SvId × SvInf)
  | [], _, _ => []
  | (k, v) :: rest, svid, inf =>
    if k = svid then (k, inf) :: rest else (k, v) :: svmap_set rest svid inf

/-- The function `requests.find (id)`. -/
def requests_find : List (Nat × Nat) → Nat → Option Nat
  | [], _ => none
  | (k, v) :: rest, id => if k = id then some v else requests_find rest id

/-- The assignment `requests[orbid] = id`: overwrite, or insert in key order. -/
def requests_assign : List (Nat × Nat) → Nat → Nat → List (Nat × Nat)
  | [], orbid, id => [(orbid, id)]
  | (k, v) :: rest, orbid, id =>
    if k = orbid then (k, id) :: rest
    else if orbid < k then (orbid, id) :: (k, v) :: rest
    else (k, v) :: requests_assign rest orbid id

/-- The call `requests.erase (i)` for the iterator at key `orbid`. -/
def requests_erase : List (Nat × Nat) → Nat → List (Nat × Nat)
  | [], _ => []
  | (k, v) :: rest, orbid => if k = orbid then rest else (k, v) :: requests_erase rest orbid

/-- Modelled from the spec: `invqueue.add` of `MICO::RequestQueue` (not part of this
file of the source): "appends to the tail, no bound". -/
def invqueue_add (q : List ReqQueueRec) (r : ReqQueueRec) : List ReqQueueRec :=
  q ++ [r]

/-- Append calls to the trace. -/
def Mediator.emit (m : Mediator) (es : List Event) : Mediator :=
  { m with trace := m.trace ++ es }

/-! ## Server id of an object key -/

/-- The character `'\\'`. -/
def backslash : Nat := 92

/-- The character `'/'`. -/
def slash : Nat := 47

/-- First loop of `invoke` and `has_object`, entered with index `i` and backslash
counter `j`: `for (...; i<length; i++)`, leaving `i` at the first slash that follows
an even number of backslashes, or at `length`.  `fuel` bounds the iterations.
The counters are `CORBA::Long`; they stay below `length`, so they do not wrap. -/
def scan_loop (key : List Nat) : Nat → Nat → Nat → Nat
  | 0, i, _ => i
  | fuel + 1, i, j =>
    match key[i]? with
    | none => i
    | some c =>
      if c = backslash then scan_loop key fuel (i + 1) (j + 1)
      else if c = slash ∧ j % 2 = 0 then i
      else scan_loop key fuel (i + 1) 0

/-- Second loop, `for (j=0; j<i; j++)`: a backslash is skipped and the octet after
it is appended to `svid`.  A read of `key[j]` at or beyond `length` gives `none`. -/
def unescape_loop (key : List Nat) (i : Nat) : Nat → Nat → List Nat → Option (List Nat)
  | 0, _, svid => some svid
  | fuel + 1, j, svid =>
    if j < i then
      match key[j]? with
      | none => none
      | some c =>
        let j1 := if c = backslash then j + 1 else j
        match key[j1]? with
        | none => none
        | some d => unescape_loop key i fuel (j1 + 1) (svid ++ [d])
    else some svid

/-- Both loops: the server id that `invoke` and `has_object` take from an object key. -/
def extract_svid (key : List Nat) : Option SvId :=
  let i := scan_loop key key.length 0 0
  unescape_loop key i i 0 []

/-- The conversion `svid.c_str ()` read back as a string: it ends at the first NUL. -/
def c_str (svid : SvId) : SvId :=
  svid.takeWhile (fun c => c != 0)

/-! ## Starting a server -/

/-- The function `POAMediatorImpl::create_server`.  Of the command line only the
repository command and the server id are kept in the trace; the option strings
appended to it come from the ORB. -/
def create_server (env : Env) (m : Mediator) (svid : SvId) : Option (Bool × Mediator) :=
  let svmap1 := svmap_index m.svmap svid
  let inf := svmap_at svmap1 svid
  let m1 := { m with svmap := svmap1 }
  if inf.pstate = PState.Started ∨ inf.pstate = PState.Active then
    some (true, m1)
  else if inf.pstate = PState.Failed ∧ env.now - inf.failed < 30 then
    some (false, m1)
  else
    let inf1 := if inf.pstate = PState.Failed then { inf with pstate := PState.Inactive } else inf
    let m2 := { m1 with svmap := svmap_set svmap1 svid inf1 }
    if inf1.pstate ≠ PState.Inactive then
      none
    else
      match env.imr with
      | none => some (false, m2)
      | some imr =>
        match imr.find_by_name svid with
        | [] => some (false, m2)
        | idv :: _ =>
          if idv.command.length = 0 then
            some (false, m2)
          else
            let gc : List Event :=
              match inf1.proc with
              | some old => if env.finished old then [Event.proc_delete old] else []
              | none => []
            let p := m2.next_proc
            let inf2 := { inf1 with pstate := PState.Started, proc := some p }
            some (env.run p,
              { m2 with svmap := svmap_set svmap1 svid inf2, next_proc := p + 1,
                        trace := m2.trace ++ gc ++
                          [Event.proc_new p svid idv.command, Event.proc_run p] })

/-! ## Administrative interface -/

/-- The function `POAMediatorImpl::create_impl`. -/
def create_impl (env : Env) (m : Mediator) (svid : SvId) (ior : IOR) : Option Mediator :=
  match env.imr with
  | none => none
  | some imr =>
    let m1 := if (imr.find_by_name svid).length = 0 then m.emit [Event.imr_create svid] else m
    let svmap1 := svmap_index m1.svmap svid
    some { m1 with svmap := svmap_set svmap1 svid { svmap_at svmap1 svid with ior := ior } }

/-- The function `POAMediatorImpl::activate_impl`. -/
def activate_impl (m : Mediator) (svid : SvId) : Mediator :=
  let svmap1 := svmap_index m.svmap svid
  let inf := svmap_at svmap1 svid
  if inf.pstate = PState.Stopped ∨ inf.pstate = PState.Holding then
    { m with svmap := svmap1 }
  else
    { m with svmap := svmap_set svmap1 svid { inf with pstate := PState.Active },
             trace := m.trace ++ [Event.exec_later] }

/-- The function `POAMediatorImpl::deactivate_impl`. -/
def deactivate_impl (env : Env) (m : Mediator) (svid : SvId) : Option Mediator :=
  let svmap1 := svmap_index m.svmap svid
  let inf := svmap_at svmap1 svid
  if ¬ (inf.pstate = PState.Stopped ∨ inf.proc ≠ none) then
    none
  else
    let st : Option PState :=
      match inf.pstate with
      | PState.Inactive => none
      | PState.Started => none
      | PState.Failed => none
      | PState.Active => some PState.Inactive
      | PState.Holding => some PState.Stopped
      | PState.Stopped => some PState.Stopped
    match st with
    | none => none
    | some s =>
      match inf.proc with
      | none => some { m with svmap := svmap_set svmap1 svid { inf with pstate := s } }
      | some p =>
        if env.haveThreads then
          some { m with svmap := svmap_set svmap1 svid { inf with pstate := s },
                        trace := m.trace ++ [Event.proc_detach p] }
        else
          some { m with svmap := svmap_set svmap1 svid { inf with pstate := s, proc := none },
                        trace := m.trace ++ [Event.proc_detach p, Event.proc_delete p] }

/-- The function `POAMediatorImpl::force_activation`; `svid` is `impl->name ()`. -/
def force_activation (env : Env) (m : Mediator) (svid : SvId) : Option (Bool × Mediator) :=
  let svmap1 := svmap_index m.svmap svid
  let inf := svmap_at svmap1 svid
  let m1 := { m with svmap := svmap1 }
  match inf.pstate with
  | PState.Inactive => create_server env m1 svid
  | PState.Started => some (true, m1)
  | PState.Active => some (true, m1)
  | PState.Holding =>
    some (true, { m1 with svmap := svmap_set svmap1 svid { inf with pstate := PState.Active } })
  | PState.Stopped =>
    if inf.proc ≠ none then
      some (false, m1)
    else
      create_server env
        { m1 with svmap := svmap_set svmap1 svid { inf with pstate := PState.Inactive } } svid
  | PState.Failed =>
    create_server env
      { m1 with svmap := svmap_set svmap1 svid { inf with pstate := PState.Inactive } } svid

/-- The function `POAMediatorImpl::hold`. -/
def hold (m : Mediator) (svid : SvId) : Bool × Mediator :=
  let svmap1 := svmap_index m.svmap svid
  let inf := svmap_at svmap1 svid
  match inf.pstate with
  | PState.Stopped => (true, { m with svmap := svmap1 })
  | _ => (true, { m with svmap := svmap_set svmap1 svid { inf with pstate := PState.Holding } })

/-- First block of `POAMediatorImpl::stop`, executed under the locks: the state
switch and the termination signal.  The result is `some b` when `stop` returns
`b` from inside the block, and `none` when it goes on to wait for the exit. -/
def stop_signal (m : Mediator) (svid : SvId) : Option (Option Bool × Mediator) :=
  let svmap1 := svmap_index m.svmap svid
  let inf := svmap_at svmap1 svid
  let stopped := { m with svmap := svmap_set svmap1 svid { inf with pstate := PState.Stopped } }
  match inf.pstate with
  | PState.Inactive => some (some true, stopped)
  | PState.Failed => some (some true, stopped)
  | PState.Stopped => some (some true, stopped)
  | _ =>
    match inf.proc with
    | none => none
    | some p => some (none, stopped.emit [Event.proc_terminate p])

/-- The function `POAMediatorImpl::_cxx_continue`. -/
def cxx_continue (m : Mediator) (svid : SvId) : Bool × Mediator :=
  let svmap1 := svmap_index m.svmap svid
  let inf := svmap_at svmap1 svid
  match inf.pstate with
  | PState.Inactive => (true, { m with svmap := svmap1 })
  | PState.Started => (true, { m with svmap := svmap1 })
  | PState.Active => (true, { m with svmap := svmap1 })
  | _ =>
    (true, { m with svmap := svmap_set svmap1 svid { inf with pstate := PState.Inactive },
                    trace := m.trace ++ [Event.exec_later] })

/-! ## Object adapter interface -/

/-- The function `POAMediatorImpl::has_object`; `obj` is `none` when the reference
is nil, has no IOR or profile, or has no key. -/
def has_object (env : Env) (m : Mediator) (obj : Option ObjRef) : Option (Bool × Mediator) :=
  match obj with
  | none => some (false, m)
  | some o =>
    match extract_svid o.key with
    | none => none
    | some svid =>
      match svmap_find m.svmap svid with
      | some _ => some (true, m)
      | none =>
        match env.imr with
        | none => none
        | some imr =>
          if (imr.find_by_name (c_str svid)).length = 0 then
            some (false, m)
          else
            let svmap1 := svmap_index m.svmap svid
            some (true, { m with svmap := svmap_set svmap1 svid
                                   { svmap_at svmap1 svid with pstate := PState.Inactive } })

/-- The two calls that answer an invocation with `CORBA::OBJECT_NOT_EXIST`. -/
def answer_not_exist (id req : Nat) : List Event :=
  [Event.set_out_args req SysEx.OBJECT_NOT_EXIST,
   Event.answer_invoke id InvokeStatus.InvokeSysEx none req]

/-- The function `POAMediatorImpl::invoke`.  The reference `obj` has an IOR, a profile
and a key, as the two assertions at the head of the function require. -/
def invoke (env : Env) (m : Mediator) (id : Nat) (obj : ObjRef) (req pr : Nat)
    (response_exp : Bool) : Option (Bool × Mediator) :=
  match extract_svid obj.key with
  | none => none
  | some svid =>
    match svmap_find m.svmap svid with
    | none => some (true, m.emit (answer_not_exist id req))
    | some inf =>
      if inf.pstate = PState.Stopped ∨ inf.pstate = PState.Holding then
        let q := invqueue_add m.invqueue (ReqQueueRec.invoke id req obj pr response_exp)
        some (true, { m with invqueue := q })
      else if inf.pstate ≠ PState.Active then
        match create_server env m (c_str svid) with
        | none => none
        | some (false, m1) => some (true, m1.emit (answer_not_exist id req))
        | some (true, m1) =>
          let q := invqueue_add m1.invqueue (ReqQueueRec.invoke id req obj pr response_exp)
          some (true, { m1 with invqueue := q })
      else
        let remote_ref : RemoteRef := { ior := inf.ior, key := obj.key, objid := obj.objid }
        if response_exp && m.forward then
          some (true, m.emit [Event.answer_invoke id InvokeStatus.InvokeForward
                                (some remote_ref) req])
        else
          let orbid := m.next_msgid
          let m1 := { m with next_msgid := orbid + 1 }
          if response_exp then
            if (requests_find m1.requests orbid).isSome then
              none
            else
              some (true,
                { m1 with requests := requests_assign m1.requests orbid id,
                          trace := m1.trace ++ [Event.requests_set orbid id,
                            Event.invoke_async remote_ref req pr response_exp orbid] })
          else
            some (true, m1.emit [Event.invoke_async remote_ref req pr response_exp orbid])

/-- Outcome of the first loop of `bind`: either the request was answered
(`create_server` failed), or the loop ran to its end with `count` and `queue`. -/
inductive BindScan where
  | answered (m : Mediator)
  | done (m : Mediator) (count : Nat) (queue : Bool)

/-- First loop of `bind`, over the repository entries `ims`. -/
def bind_scan (env : Env) (id : Nat) :
    List ImplementationDef → Mediator → Nat → Bool → Option BindScan
  | [], m, count, queue => some (BindScan.done m count queue)
  | im :: rest, m, count, queue =>
    if im.mode ≠ ActivationMode.ActivatePOA then
      bind_scan env id rest m count queue
    else
      let svmap1 := svmap_index m.svmap im.name
      let inf := svmap_at svmap1 im.name
      let m1 := { m with svmap := svmap1 }
      if inf.pstate ≠ PState.Active ∧ inf.pstate ≠ PState.Stopped ∧
          inf.pstate ≠ PState.Holding then
        match create_server env m1 im.name with
        | none => none
        | some (false, m2) =>
          some (BindScan.answered (m2.emit [Event.answer_bind id LocateStatus.LocateUnknown none]))
        | some (true, m2) => bind_scan env id rest m2 (count + 1) true
      else
        bind_scan env id rest m1 (count + 1) queue

/-- Second loop of `bind`: one fresh id per `Active` record of `svmap`, pushed on
`msgids` and entered in `requests`. -/
def bind_alloc (id : Nat) : List (SvId × SvInf) → Mediator → List Nat → Mediator × List Nat
  | [], m, msgids => (m, msgids)
  | (_, inf) :: rest, m, msgids =>
    if inf.pstate ≠ PState.Active then
      bind_alloc id rest m msgids
    else
      let orbid := m.next_msgid
      bind_alloc id rest
        { m with next_msgid := orbid + 1, requests := requests_assign m.requests orbid id,
                 trace := m.trace ++ [Event.requests_set orbid id] }
        (msgids ++ [orbid])

/-- Third loop of `bind`: one `bind_async` per `Active` record, with the ids taken
from the back of `msgids`.  The ORB is taken to return a non-null id from
`bind_async`, as the last assertion of the loop requires. -/
def bind_send (repoid tag : Nat) : List (SvId × SvInf) → Mediator → List Nat → Option Mediator
  | [], m, _ => some m
  | (_, inf) :: rest, m, msgids =>
    if inf.pstate ≠ PState.Active then
      bind_send repoid tag rest m msgids
    else
      match inf.ior.addr with
      | none => none
      | some addr =>
        match msgids.getLast? with
        | none => none
        | some orbid =>
          bind_send repoid tag rest (m.emit [Event.bind_async repoid tag addr orbid])
            msgids.dropLast

/-- The function `POAMediatorImpl::bind`; `addr` is `none` for a null address and
otherwise carries `addr->is_local ()`. -/
def bind (env : Env) (m : Mediator) (id repoid tag : Nat) (addr : Option Bool) :
    Option (Bool × Mediator) :=
  if addr = some false then
    some (false, m)
  else
    match env.imr with
    | none => none
    | some imr =>
      match bind_scan env id (imr.find_by_repoid_tag repoid tag) m 0 false with
      | none => none
      | some (BindScan.answered m1) => some (true, m1)
      | some (BindScan.done m1 count queue) =>
        if count = 0 then
          some (false, m1)
        else if queue then
          some (true,
            { m1 with invqueue := invqueue_add m1.invqueue (ReqQueueRec.bind id repoid tag) })
        else
          let r := bind_alloc id m1.svmap m1 []
          match bind_send repoid tag m1.svmap r.1 r.2 with
          | none => none
          | some m2 => some (true, m2)

/-- The function `POAMediatorImpl::locate`. -/
def locate (m : Mediator) (id : Nat) : Bool × Mediator :=
  (true, m.emit [Event.answer_locate id LocateStatus.LocateHere])

/-- The loop of `POAMediatorImpl::cancel`: each round scans `requests` for the first
entry whose value is `id`, cancels its key at the ORB and erases it; the loop is
left by the round that finds none.  `none` when `fuel` rounds do not suffice. -/
def cancel_loop (id : Nat) : Nat → Mediator → Option Mediator
  | 0, _ => none
  | fuel + 1, m =>
    match m.requests.find? (fun e => e.2 = id) with
    | none => some m
    | some e =>
      cancel_loop id fuel
        { m with requests := m.requests.eraseP (fun e => e.2 = id),
                 trace := m.trace ++ [Event.orb_cancel e.1] }

/-- The function `POAMediatorImpl::cancel`. -/
def cancel (m : Mediator) (id : Nat) : Option Mediator :=
  cancel_loop id (m.requests.length + 1) m

/-- The reply the ORB holds for a finished request, as read through
`get_invoke_reply` or `get_bind_reply` in `notify`; `other` is any other callback event. -/
inductive Reply where
  | invoke (stat : InvokeStatus) (obj : Option RemoteRef) (req : Nat)
  | bind (stat : LocateStatus) (obj : Option Nat)
  | other

/-- The function `POAMediatorImpl::notify`. -/
def notify (m : Mediator) (id : Nat) (ev : Reply) : Option Mediator :=
  match ev with
  | Reply.invoke stat obj req =>
    match requests_find m.requests id with
    | none => none
    | some id2 =>
      some { m with requests := requests_erase m.requests id,
                    trace := m.trace ++ [Event.answer_invoke id2 stat obj req] }
  | Reply.bind stat obj =>
    match requests_find m.requests id with
    | none => some (m.emit [Event.orb_cancel id])
    | some id2 =>
      let m1 := { m with requests := requests_erase m.requests id }
      if stat = LocateStatus.LocateHere then
        cancel (m1.emit [Event.answer_bind id2 stat obj]) id2
      else
        match m1.requests.find? (fun e => e.2 = id2) with
        | none => some (m1.emit [Event.answer_bind id2 stat obj])
        | some _ => some m1
  | Reply.other => none

/-! ## Process callback -/

/-- The loop under `HAVE_THREADS` at the head of `callback`: finished process
objects are deleted and their records set to `proc = 0`. -/
def callback_gc (env : Env) : List (SvId × SvInf) → List (SvId × SvInf) × List Event
  | [] => ([], [])
  | (k, inf) :: rest =>
    let r := callback_gc env rest
    match inf.proc with
    | none => ((k, inf) :: r.1, r.2)
    | some p =>
      if env.finished p then ((k, { inf with proc := none }) :: r.1, Event.proc_delete p :: r.2)
      else ((k, inf) :: r.1, r.2)

/-- The search loop of `callback`: the first record whose `proc` is the one given. -/
def callback_find : List (SvId × SvInf) → Nat → Option (SvId × SvInf)
  | [], _ => none
  | (k, inf) :: rest, proc => if inf.proc = some proc then some (k, inf) else callback_find rest proc

/-- The function `POAMediatorImpl::callback`; `exited` says whether the event is
`MICO::ProcessCallback::Exited`. -/
def callback (env : Env) (m : Mediator) (proc : Nat) (exited : Bool) : Option Mediator :=
  let m0 :=
    if env.haveThreads then
      { m with svmap := (callback_gc env m.svmap).1,
               trace := m.trace ++ (callback_gc env m.svmap).2 }
    else m
  match callback_find m0.svmap proc with
  | none => none
  | some (k, inf) =>
    if ¬ exited then
      none
    else
      match inf.pstate with
      | PState.Active =>
        if env.haveThreads then
          some { m0 with svmap := svmap_set m0.svmap k { inf with pstate := PState.Inactive } }
        else
          some { m0 with svmap := svmap_set m0.svmap k
                                    { inf with pstate := PState.Inactive, proc := none },
                         trace := m0.trace ++ [Event.proc_delete proc] }
      | PState.Started =>
        some { m0 with svmap := svmap_set m0.svmap k
                                  { inf with pstate := PState.Failed, failed := env.now },
                       trace := m0.trace ++ [Event.exec_later] }
      | PState.Stopped =>
        if env.haveThreads then
          some m0
        else
          some { m0 with svmap := svmap_set m0.svmap k { inf with proc := none },
                         trace := m0.trace ++ [Event.proc_delete proc] }
      | PState.Holding =>
        if env.haveThreads then
          some { m0 with svmap := svmap_set m0.svmap k { inf with pstate := PState.Stopped } }
        else
          some { m0 with svmap := svmap_set m0.svmap k
                                    { inf with pstate := PState.Stopped, proc := none },
                         trace := m0.trace ++ [Event.proc_delete proc] }
      | PState.Inactive => none
      | PState.Failed => none

/-! ## Sequences of entries into the mediator -/

/-- One entry into the mediator: an administrative command, a call of the object
adapter interface, an ORB callback, or the exit callback of a process.  `stop`
stands for the first block of `POAMediatorImpl::stop` (`stop_signal`); while `stop`
waits it only reads `proc`, and what `orb->perform_work ()` runs meanwhile are
further entries of the sequence. -/
inductive Op where
  | create_impl (svid : SvId) (ior : IOR)
  | activate_impl (svid : SvId)
  | deactivate_impl (svid : SvId)
  | force_activation (svid : SvId)
  | hold (svid : SvId)
  | stop (svid : SvId)
  | cxx_continue (svid : SvId)
  | create_server (svid : SvId)
  | has_object (obj : Option ObjRef)
  | invoke (id : Nat) (obj : ObjRef) (req pr : Nat) (response_exp : Bool)
  | bind (id repoid tag : Nat) (addr : Option Bool)
  | cancel (id : Nat)
  | notify (id : Nat) (ev : Reply)
  | callback (proc : Nat)

/-- The mediator after one entry; `none` when the entry stops on an assertion. -/
def step (env : Env) (m : Mediator) : Op → Option Mediator
  | Op.create_impl svid ior => create_impl env m svid ior
  | Op.activate_impl svid => some (activate_impl m svid)
  | Op.deactivate_impl svid => deactivate_impl env m svid
  | Op.force_activation svid => (force_activation env m svid).map Prod.snd
  | Op.hold svid => some (hold m svid).2
  | Op.stop svid => (stop_signal m svid).map Prod.snd
  | Op.cxx_continue svid => some (cxx_continue m svid).2
  | Op.create_server svid => (create_server env m svid).map Prod.snd
  | Op.has_object obj => (has_object env m obj).map Prod.snd
  | Op.invoke id obj req pr response_exp =>
    (invoke env m id obj req pr response_exp).map Prod.snd
  | Op.bind id repoid tag addr => (bind env m id repoid tag addr).map Prod.snd
  | Op.cancel id => cancel m id
  | Op.notify id ev => notify m id ev
  | Op.callback proc => callback env m proc true

/-- The mediator after a sequence of entries, each with the answers of its surroundings. -/
def run : Mediator → List (Env × Op) → Option Mediator
  | m, [] => some m
  | m, (env, op) :: rest =>
    match step env m op with
    | none => none
    | some m1 => run m1 rest

/-- Modelled from the spec: `CORBA::Timeout` (its class is not part of this file of
the source).  `t.done ()` of a timeout of `limit` milliseconds holds once `limit`
milliseconds have passed since its construction ("a bounded wait, default 5
seconds"). -/
def timeout_done (limit elapsed : Nat) : Bool :=
  decide (limit ≤ elapsed)

/-- The loop `while (!finish)` of `POAMediatorImpl::stop`.  Each element of the list
is one iteration as the surroundings shape it: the milliseconds passed since the
timeout was built, read by `t.done ()`, and the entries that `orb->perform_work ()`
runs.  `none` when the list ends before the loop does, or when an entry run by
`perform_work` stops on an assertion. -/
def stop_wait (svid : SvId) : List (Nat × List (Env × Op)) → Mediator → Option Mediator
  | [], _ => none
  | (elapsed, work) :: rest, m =>
    let svmap1 := svmap_index m.svmap svid
    let finish := timeout_done 5000 elapsed || decide ((svmap_at svmap1 svid).proc = none)
    match run { m with svmap := svmap1, trace := m.trace ++ [Event.perform_work] } work with
    | none => none
    | some m1 => if finish then some m1 else stop_wait svid rest m1

/-- The function `POAMediatorImpl::stop`: the first block (`stop_signal`), the waiting
loop (`stop_wait`) and the last block, which reports a process handle that is
still there. -/
def stop (m : Mediator) (svid : SvId) (rounds : List (Nat × List (Env × Op))) :
    Option (Bool × Mediator) :=
  match stop_signal m svid with
  | none => none
  | some (some b, m1) => some (b, m1)
  | some (none, m1) =>
    match stop_wait svid rounds m1 with
    | none => none
    | some m2 =>
      let svmap2 := svmap_index m2.svmap svid
      if (svmap_at svmap2 svid).proc ≠ none then
        some (false, { m2 with svmap := svmap2,
                               trace := m2.trace ++ [Event.cerr_cannot_be_stopped svid] })
      else
        some (true, { m2 with svmap := svmap2 })

/-- First loop of `shutdown_server`: `terminate ()` for every record with `proc != 0`. -/
def shutdown_signals : List (SvId × SvInf) → List Event
  | [] => []
  | (_, inf) :: rest =>
    match inf.proc with
    | some p => Event.proc_terminate p :: shutdown_signals rest
    | none => shutdown_signals rest

/-- The test of the waiting loop and of the report loop of `shutdown_server`:
`proc != 0` without threads, `proc != 0 && !proc->finished ()` with threads. -/
def shutdown_pending (env : Env) (inf : SvInf) : Bool :=
  match inf.proc with
  | none => false
  | some p => if env.haveThreads then !env.finished p else true

/-- The loop `do ... while (waiting && (t2.tv_sec - t1.tv_sec < 60))` of
`shutdown_server`.  Each element of the list is one iteration: the surroundings
during it (`finished ()` for the scan, `now` for `t2`) and the entries that
`orb->perform_work ()` runs. -/
def shutdown_wait (t1 : Int) : List (Env × List (Env × Op)) → Mediator → Option Mediator
  | [], _ => none
  | (env, work) :: rest, m =>
    if m.svmap.any (fun e => shutdown_pending env e.2) then
      match run (m.emit [Event.perform_work]) work with
      | none => none
      | some m1 => if env.now - t1 < 60 then shutdown_wait t1 rest m1 else some m1
    else
      some m

/-- Last loop of `shutdown_server`: the message for every record that is still pending. -/
def shutdown_report (env : Env) : List (SvId × SvInf) → List Event
  | [] => []
  | (k, inf) :: rest =>
    if shutdown_pending env inf then Event.cerr_cannot_be_stopped k :: shutdown_report env rest
    else shutdown_report env rest

/-- The function `POAMediatorImpl::shutdown_server`; `env.now` is `t1`, `last` are the
surroundings during the report loop. -/
def shutdown_server (env : Env) (m : Mediator) (rounds : List (Env × List (Env × Op)))
    (last : Env) : Option Mediator :=
  match shutdown_wait env.now rounds (m.emit (shutdown_signals m.svmap)) with
  | none => none
  | some m2 => some (m2.emit (shutdown_report last m2.svmap))

/-! ## Definitions used to state the properties -/

/-- The encoding of a server id in an object key: a backslash is put before each
backslash and each slash. -/
def escape_id : List Nat → List Nat
  | [] => []
  | c :: s =>
    if c = backslash ∨ c = slash then backslash :: c :: escape_id s else c :: escape_id s

/-- A repository with one entry: the server `a`, started by the command `x`. -/
def sample_imr : ImplRepository :=
  { find_by_name := fun n =>
      if n = [97] then [{ name := [97], command := [120], mode := ActivationMode.ActivatePOA }]
      else [],
    find_by_repoid_tag := fun _ _ =>
      [{ name := [97], command := [120], mode := ActivationMode.ActivatePOA }] }

/-- Surroundings for the examples: no process has finished, every `run ()` succeeds. -/
def sample_env (haveThreads : Bool) (now : Int) : Env :=
  { haveThreads := haveThreads, imr := some sample_imr, now := now,
    finished := fun _ => false, run := fun _ => true }

/-- A mediator with the single record `a`, in the given state and with the given process. -/
def sample_mediator (st : PState) (proc : Option Nat) : Mediator :=
  { forward := false,
    svmap := [([97], { pstate := st, proc := proc, ior := { addr := some 5 }, failed := 0 })],
    requests := [], invqueue := [], next_msgid := 0, next_proc := 1, trace := [] }

/-- The object key `a/x`. -/
def sample_obj : ObjRef := { key := [97, 47, 120], objid := 9 }

/-- A mediator whose correlation map holds three legs of request 7 and one entry of request 8. -/
def sample_requests : Mediator :=
  { forward := false, svmap := [], requests := [(1, 7), (2, 8), (3, 7), (4, 7)],
    invqueue := [], next_msgid := 5, next_proc := 0, trace := [] }

/-- The ids carried by the `bind_async` calls of a trace, in the order of the calls. -/
def bind_leg_ids (tr : List Event) : List Nat :=
  tr.filterMap (fun e =>
    match e with
    | Event.bind_async _ _ _ orbid => some orbid
    | _ => none)

/-- Number of records of `svmap` in state `Active`. -/
def active_records (svmap : List (SvId × SvInf)) : Nat :=
  (svmap.filter (fun e => e.2.pstate = PState.Active)).length

/-- The candidates of a bind: the repository entries with mode `ActivatePOA`. -/
def bind_candidates (ims : List ImplementationDef) : List ImplementationDef :=
  ims.filter (fun im => im.mode = ActivationMode.ActivatePOA)

/-- Number of candidate servers whose record is in state `Active`. -/
def active_candidates (svmap : List (SvId × SvInf)) (ims : List ImplementationDef) : Nat :=
  ((((bind_candidates ims).map (fun im => im.name)).dedup).filter
    (fun n => (svmap_find svmap n).map (fun inf => inf.pstate) = some PState.Active)).length

/-- A mediator with two `Active` records, `a` and `b`; only `a` is in `sample_imr`. -/
def sample_two_active : Mediator :=
  { forward := false,
    svmap := [([97], { pstate := PState.Active, proc := some 0, ior := { addr := some 5 },
                       failed := 0 }),
              ([98], { pstate := PState.Active, proc := some 1, ior := { addr := some 6 },
                       failed := 0 })],
    requests := [], invqueue := [], next_msgid := 0, next_proc := 2, trace := [] }

/-- Delivery of bind replies to `notify`, one call per reply, in the order of the list;
a reply is the id of the finished sub-request with the status and object of
`get_bind_reply`. -/
def notify_binds : Mediator → List (Nat × LocateStatus × Option Nat) → Option Mediator
  | m, [] => some m
  | m, (k, stat, obj) :: rest =>
    match notify m k (Reply.bind stat obj) with
    | none => none
    | some m1 => notify_binds m1 rest

/-- The `answer_bind` calls for request `r` in a trace. -/
def bind_answers (r : Nat) (tr : List Event) : List Event :=
  tr.filter (fun e =>
    match e with
    | Event.answer_bind i _ _ => i = r
    | _ => false)

/-- The keys of `requests` that are mapped to `r`: the pending legs of request `r`. -/
def pending_legs (requests : List (Nat × Nat)) (r : Nat) : List Nat :=
  (requests.filter (fun e => e.2 = r)).map Prod.fst


/-- The mediator that `callback` searches: under `HAVE_THREADS` the map after the
collection pass at its head, with the `delete` calls of that pass in the trace;
the mediator as it is otherwise. -/
def callback_collected (env : Env) (m : Mediator) : Mediator :=
  if env.haveThreads then
    { m with svmap := (callback_gc env m.svmap).1,
             trace := m.trace ++ (callback_gc env m.svmap).2 }
  else m





/-! ## Lock events of the operations -/

/-- The mutexes of the mediator: `svmap_lock_`, `requests_lock_` and the member `lock`
of the record of a server.  All of them are built as `MICOMT::Mutex::Recursive`. -/
inductive Lock where
  | svmap_lock
  | requests_lock
  | record (svid : SvId)
  deriving DecidableEq, Repr

/-- A lock event of one thread. -/
inductive LockEv where
  | acquire (l : Lock)
  | release (l : Lock)
  deriving DecidableEq, Repr

/-- The events of a scope that opens with `MICOMT::AutoLock l (lock)`: the lock is
acquired, the body runs, and the lock is released when the scope is left;
`leaves` is false when the body stops on an assertion. -/
def auto_lock (l : Lock) (body : List LockEv) (leaves : Bool) : List LockEv :=
  LockEv.acquire l :: (body ++ if leaves then [LockEv.release l] else [])

/-- A block `{ AutoLock l (svmap_lock_); AutoLock l2 (svmap[svid].lock); ... }` whose
body takes no further lock. -/
def record_block (svid : SvId) (leaves : Bool) : List LockEv :=
  auto_lock Lock.svmap_lock (auto_lock (Lock.record svid) [] leaves) leaves

/-- A loop over the records with the keys given whose body opens with
`AutoLock l2 ((*it).second.lock)` and takes no further lock. -/
def scan_locks : List SvId → List LockEv
  | [] => []
  | k :: rest => LockEv.acquire (Lock.record k) :: LockEv.release (Lock.record k) :: scan_locks rest

/-- Lock events of `create_server`: `svmap_lock_.lock ()`, `svmap_lock_.unlock ()`, then
the scope of `AutoLock l2 (inf.lock)`. -/
def create_server_locks (env : Env) (m : Mediator) (svid : SvId) : List LockEv :=
  [LockEv.acquire Lock.svmap_lock, LockEv.release Lock.svmap_lock]
    ++ auto_lock (Lock.record svid) [] (create_server env m svid).isSome

/-- Lock events of `create_impl`; the repository is used before the locks are taken. -/
def create_impl_locks (env : Env) (svid : SvId) : List LockEv :=
  match env.imr with
  | none => []
  | some _ => record_block svid true

/-- Lock events of `activate_impl`. -/
def activate_impl_locks (svid : SvId) : List LockEv :=
  record_block svid true

/-- Lock events of `deactivate_impl`. -/
def deactivate_impl_locks (env : Env) (m : Mediator) (svid : SvId) : List LockEv :=
  record_block svid (deactivate_impl env m svid).isSome

/-- Lock events of `force_activation`: `create_server` is called inside the scopes of
both locks. -/
def force_activation_locks (env : Env) (m : Mediator) (svid : SvId) : List LockEv :=
  let svmap1 := svmap_index m.svmap svid
  let inf := svmap_at svmap1 svid
  let m1 := { m with svmap := svmap1 }
  let leaves := (force_activation env m svid).isSome
  let body : List LockEv :=
    match inf.pstate with
    | PState.Inactive => create_server_locks env m1 svid
    | PState.Started => []
    | PState.Active => []
    | PState.Holding => []
    | PState.Stopped =>
      if inf.proc ≠ none then []
      else
        create_server_locks env
          { m1 with svmap := svmap_set svmap1 svid { inf with pstate := PState.Inactive } } svid
    | PState.Failed =>
      create_server_locks env
        { m1 with svmap := svmap_set svmap1 svid { inf with pstate := PState.Inactive } } svid
  auto_lock Lock.svmap_lock (auto_lock (Lock.record svid) body leaves) leaves

/-- Lock events of `hold`. -/
def hold_locks (svid : SvId) : List LockEv :=
  record_block svid true

/-- Lock events of the first block of `stop`. -/
def stop_signal_locks (m : Mediator) (svid : SvId) : List LockEv :=
  record_block svid (stop_signal m svid).isSome

/-- The blocks of the given number of iterations of the waiting loop of `stop`. -/
def stop_wait_locks (svid : SvId) : Nat → List LockEv
  | 0 => []
  | n + 1 => record_block svid true ++ stop_wait_locks svid n

/-- Lock events of `stop` itself when its waiting loop makes `n` iterations: the first
block, one block per iteration, and the last block.  What `orb->perform_work ()`
runs between the blocks are operations of their own. -/
def stop_locks (m : Mediator) (svid : SvId) (n : Nat) : List LockEv :=
  match stop_signal m svid with
  | some (none, _) =>
    stop_signal_locks m svid ++ stop_wait_locks svid n ++ record_block svid true
  | _ => stop_signal_locks m svid

/-- Lock events of `_cxx_continue`. -/
def cxx_continue_locks (svid : SvId) : List LockEv :=
  record_block svid true

/-- Lock events of `has_object`. -/
def has_object_locks (env : Env) (m : Mediator) (obj : Option ObjRef) : List LockEv :=
  match obj with
  | none => []
  | some o =>
    match extract_svid o.key with
    | none => []
    | some svid =>
      match svmap_find m.svmap svid with
      | some _ => auto_lock Lock.svmap_lock [] true
      | none =>
        match env.imr with
        | none => auto_lock Lock.svmap_lock [] false
        | some imr =>
          if (imr.find_by_name (c_str svid)).length = 0 then
            auto_lock Lock.svmap_lock [] true
          else
            record_block svid true

/-- Lock events of `invoke`. -/
def invoke_locks (env : Env) (m : Mediator) (id : Nat) (obj : ObjRef) (req pr : Nat)
    (response_exp : Bool) : List LockEv :=
  match extract_svid obj.key with
  | none => []
  | some svid =>
    match svmap_find m.svmap svid with
    | none => auto_lock Lock.svmap_lock [] true
    | some inf =>
      let leaves := (invoke env m id obj req pr response_exp).isSome
      let body : List LockEv :=
        if inf.pstate = PState.Stopped ∨ inf.pstate = PState.Holding then []
        else if inf.pstate ≠ PState.Active then create_server_locks env m (c_str svid)
        else if response_exp && m.forward then []
        else if response_exp then auto_lock Lock.requests_lock [] leaves
        else []
      auto_lock Lock.svmap_lock (auto_lock (Lock.record svid) body leaves) leaves

/-- Lock events of the first loop of `bind`: each iteration for an `ActivatePOA` entry
holds the lock of its record, and `create_server` is called inside that scope.
The loop is left when `create_server` returns `FALSE` (the lock is released by the
`return`) or stops on an assertion (it is not). -/
def bind_scan_locks (env : Env) (id : Nat) :
    List ImplementationDef → Mediator → Nat → Bool → List LockEv
  | [], _, _, _ => []
  | im :: rest, m, count, queue =>
    if im.mode ≠ ActivationMode.ActivatePOA then
      bind_scan_locks env id rest m count queue
    else
      let svmap1 := svmap_index m.svmap im.name
      let inf := svmap_at svmap1 im.name
      let m1 := { m with svmap := svmap1 }
      if inf.pstate ≠ PState.Active ∧ inf.pstate ≠ PState.Stopped ∧
          inf.pstate ≠ PState.Holding then
        match create_server env m1 im.name with
        | none =>
          LockEv.acquire (Lock.record im.name) :: create_server_locks env m1 im.name
        | some (false, _) =>
          auto_lock (Lock.record im.name) (create_server_locks env m1 im.name) true
        | some (true, m2) =>
          auto_lock (Lock.record im.name) (create_server_locks env m1 im.name) true
            ++ bind_scan_locks env id rest m2 (count + 1) true
      else
        auto_lock (Lock.record im.name) [] true
          ++ bind_scan_locks env id rest m1 (count + 1) queue

/-- Lock events of the second loop of `bind`. -/
def bind_alloc_locks : List (SvId × SvInf) → List LockEv
  | [] => []
  | (k, inf) :: rest =>
    (if inf.pstate ≠ PState.Active then auto_lock (Lock.record k) [] true
     else auto_lock (Lock.record k) (auto_lock Lock.requests_lock [] true) true)
      ++ bind_alloc_locks rest

/-- Lock events of the third loop of `bind`. -/
def bind_send_locks : List (SvId × SvInf) → List Nat → List LockEv
  | [], _ => []
  | (k, inf) :: rest, msgids =>
    if inf.pstate ≠ PState.Active then
      auto_lock (Lock.record k) [] true ++ bind_send_locks rest msgids
    else
      match inf.ior.addr with
      | none => auto_lock (Lock.record k) [] false
      | some _ =>
        match msgids.getLast? with
        | none => auto_lock (Lock.record k) [] false
        | some _ => auto_lock (Lock.record k) [] true ++ bind_send_locks rest msgids.dropLast

/-- Lock events of `bind`; the repository is queried before `svmap_lock_` is taken. -/
def bind_locks (env : Env) (m : Mediator) (id repoid tag : Nat) (addr : Option Bool) :
    List LockEv :=
  if addr = some false then
    []
  else
    match env.imr with
    | none => []
    | some imr =>
      let ims := imr.find_by_repoid_tag repoid tag
      let leaves := (bind env m id repoid tag addr).isSome
      let loops : List LockEv :=
        match bind_scan env id ims m 0 false with
        | some (BindScan.done m1 count queue) =>
          if count = 0 then []
          else if queue then []
          else
            bind_alloc_locks m1.svmap
              ++ bind_send_locks m1.svmap (bind_alloc id m1.svmap m1 []).2
        | _ => []
      auto_lock Lock.svmap_lock (bind_scan_locks env id ims m 0 false ++ loops) leaves

/-- Lock events of `cancel`. -/
def cancel_locks : List LockEv :=
  auto_lock Lock.requests_lock [] true

/-- Lock events of `notify`: `cancel` is called inside the scope of `requests_lock_`. -/
def notify_locks (m : Mediator) (id : Nat) (ev : Reply) : List LockEv :=
  match ev with
  | Reply.invoke _ _ _ =>
    auto_lock Lock.requests_lock [] (requests_find m.requests id).isSome
  | Reply.bind stat _ =>
    match requests_find m.requests id with
    | none => auto_lock Lock.requests_lock [] true
    | some _ =>
      if stat = LocateStatus.LocateHere then auto_lock Lock.requests_lock cancel_locks true
      else auto_lock Lock.requests_lock [] true
  | Reply.other => auto_lock Lock.requests_lock [] false

/-- Lock events of the search loop of `callback`: the lock of each record up to the one
found, which is released by the `break`. -/
def callback_find_locks : List (SvId × SvInf) → Nat → List LockEv
  | [], _ => []
  | (k, inf) :: rest, proc =>
    LockEv.acquire (Lock.record k) :: LockEv.release (Lock.record k) ::
      (if inf.proc = some proc then [] else callback_find_locks rest proc)

/-- Lock events of `callback`. -/
def callback_locks (env : Env) (m : Mediator) (proc : Nat) (exited : Bool) : List LockEv :=
  let leaves := (callback env m proc exited).isSome
  let gc : List LockEv :=
    if env.haveThreads then scan_locks (m.svmap.map Prod.fst) else []
  let m0 := callback_collected env m
  let found : List LockEv :=
    match callback_find m0.svmap proc with
    | none => []
    | some (k, _) => auto_lock (Lock.record k) [] leaves
  auto_lock Lock.svmap_lock (gc ++ callback_find_locks m0.svmap proc ++ found) leaves

/-- Lock events of `shutdown_server` itself; each element of `scans` holds the keys of
`svmap` during one of its loops over the map: the signalling loop, the scan of
each iteration of the waiting loop, and the report loop. -/
def shutdown_server_locks : List (List SvId) → List LockEv
  | [] => []
  | keys :: rest => auto_lock Lock.svmap_lock (scan_locks keys) true ++ shutdown_server_locks rest

/-- Lock events of one entry into the mediator. -/
def step_locks (env : Env) (m : Mediator) : Op → List LockEv
  | Op.create_impl svid _ => create_impl_locks env svid
  | Op.activate_impl svid => activate_impl_locks svid
  | Op.deactivate_impl svid => deactivate_impl_locks env m svid
  | Op.force_activation svid => force_activation_locks env m svid
  | Op.hold svid => hold_locks svid
  | Op.stop svid => stop_signal_locks m svid
  | Op.cxx_continue svid => cxx_continue_locks svid
  | Op.create_server svid => create_server_locks env m svid
  | Op.has_object obj => has_object_locks env m obj
  | Op.invoke id obj req pr response_exp => invoke_locks env m id obj req pr response_exp
  | Op.bind id repoid tag addr => bind_locks env m id repoid tag addr
  | Op.cancel _ => cancel_locks
  | Op.notify id ev => notify_locks m id ev
  | Op.callback proc => callback_locks env m proc true

/-- The locks held after a sequence of events, the most recent first; the mutexes
are recursive, so a lock is listed once per acquisition. -/
def held_after : List Lock → List LockEv → List Lock
  | h, [] => h
  | h, LockEv.acquire l :: rest => held_after (l :: h) rest
  | h, LockEv.release l :: rest => held_after (h.erase l) rest

/-- Whether a record lock is among the locks held. -/
def holds_record : List Lock → Bool
  | [] => false
  | Lock.record _ :: _ => true
  | _ :: rest => holds_record rest

/-- The lock order as the specification words it, checked along a sequence of events
that starts with the locks `h` held: `requests_lock_` is not acquired while a
record lock is held, a record lock is not acquired while `requests_lock_` is
held, and `svmap_lock_` is not acquired while a record lock is held. -/
def spec_lock_order : List Lock → List LockEv → Bool
  | _, [] => true
  | h, LockEv.acquire l :: rest =>
    (match l with
      | Lock.requests_lock => !holds_record h
      | Lock.record _ => !h.contains Lock.requests_lock
      | Lock.svmap_lock => !holds_record h)
    && spec_lock_order (l :: h) rest
  | h, LockEv.release l :: rest => spec_lock_order (h.erase l) rest

/-- The lock order the operations keep: while `requests_lock_` is held, no other lock
is acquired; `svmap_lock_` and `requests_lock_` are acquired while a record lock
is held only when `svmap_lock_` is held already. -/
def code_lock_order : List Lock → List LockEv → Bool
  | _, [] => true
  | h, LockEv.acquire l :: rest =>
    (match l with
      | Lock.requests_lock => !holds_record h || h.contains Lock.svmap_lock
      | Lock.record _ => !h.contains Lock.requests_lock
      | Lock.svmap_lock =>
        !h.contains Lock.requests_lock && (!holds_record h || h.contains Lock.svmap_lock))
    && code_lock_order (l :: h) rest
  | h, LockEv.release l :: rest => code_lock_order (h.erase l) rest





/-! ## Lemmas on the maps and on the key loops -/

theorem getElem?_at_length (pre : List Nat) (c : Nat) (rest : List Nat) :
    (pre ++ c :: rest)[pre.length]? = some c := by
  rw [List.getElem?_append_right (le_refl _)]
  simp

theorem scan_loop_escape (s tail : List Nat) (htail : tail = [] ∨ ∃ r, tail = slash :: r) :
    ∀ (pre : List Nat) (fuel j : Nat), j % 2 = 0 →
      (escape_id s ++ tail).length ≤ fuel →
      scan_loop (pre ++ (escape_id s ++ tail)) fuel pre.length j
        = pre.length + (escape_id s).length := by
  induction s with
  | nil =>
    intro pre fuel j hj hfuel
    rcases htail with h | ⟨r, h⟩
    · subst h
      cases fuel with
      | zero => simp [scan_loop, escape_id]
      | succ n => simp [scan_loop, escape_id]
    · subst h
      cases fuel with
      | zero => simp [escape_id] at hfuel
      | succ n =>
        have g := getElem?_at_length pre slash r
        have hne : ¬ (slash = backslash) := by decide
        simp only [scan_loop, escape_id, List.nil_append, g, hne, if_false, hj, and_self,
          if_true, List.length_nil, Nat.add_zero]
  | cons c s ih =>
    intro pre fuel j hj hfuel
    by_cases hb : c = backslash
    · subst hb
      have he : escape_id (backslash :: s) = backslash :: backslash :: escape_id s := by
        simp [escape_id]
      rw [he] at hfuel ⊢
      obtain ⟨n, rfl⟩ : ∃ n, fuel = n + 2 := ⟨fuel - 2, by simp at hfuel; omega⟩
      have h1 := ih (pre ++ [backslash, backslash]) n (j + 1 + 1) (by omega)
        (by simp at hfuel ⊢; omega)
      simp only [List.append_assoc, List.cons_append, List.nil_append, List.length_append,
        List.length_cons, List.length_nil] at h1
      have g1 : (pre ++ backslash :: backslash :: (escape_id s ++ tail))[pre.length]?
          = some backslash := getElem?_at_length _ _ _
      have g2 : (pre ++ backslash :: backslash :: (escape_id s ++ tail))[pre.length + 1]?
          = some backslash := by
        have := getElem?_at_length (pre ++ [backslash]) backslash (escape_id s ++ tail)
        simpa using this
      simp only [List.cons_append, scan_loop, g1, g2, if_true, List.length_cons]
      rw [h1]; omega
    · by_cases hs : c = slash
      · subst hs
        have he : escape_id (slash :: s) = backslash :: slash :: escape_id s := by
          simp [escape_id]
        rw [he] at hfuel ⊢
        obtain ⟨n, rfl⟩ : ∃ n, fuel = n + 2 := ⟨fuel - 2, by simp at hfuel; omega⟩
        have h1 := ih (pre ++ [backslash, slash]) n 0 (by omega) (by simp at hfuel ⊢; omega)
        simp only [List.append_assoc, List.cons_append, List.nil_append, List.length_append,
          List.length_cons, List.length_nil] at h1
        have g1 : (pre ++ backslash :: slash :: (escape_id s ++ tail))[pre.length]?
            = some backslash := getElem?_at_length _ _ _
        have g2 : (pre ++ backslash :: slash :: (escape_id s ++ tail))[pre.length + 1]?
            = some slash := by
          have := getElem?_at_length (pre ++ [backslash]) slash (escape_id s ++ tail)
          simpa using this
        have hodd : ¬ ((j + 1) % 2 = 0) := by omega
        have hne : ¬ (slash = backslash) := by decide
        simp only [List.cons_append, scan_loop, g1, g2, if_true, List.length_cons, hne,
          if_false, hodd, and_false]
        rw [h1]; omega
      · have he : escape_id (c :: s) = c :: escape_id s := by
          simp [escape_id, hb, hs]
        rw [he] at hfuel ⊢
        obtain ⟨n, rfl⟩ : ∃ n, fuel = n + 1 := ⟨fuel - 1, by simp at hfuel; omega⟩
        have h1 := ih (pre ++ [c]) n 0 (by omega) (by simp at hfuel ⊢; omega)
        simp only [List.append_assoc, List.cons_append, List.nil_append, List.length_append,
          List.length_cons, List.length_nil] at h1
        have g1 : (pre ++ c :: (escape_id s ++ tail))[pre.length]? = some c :=
          getElem?_at_length _ _ _
        simp only [List.cons_append, scan_loop, g1, hb, hs, if_false, false_and,
          List.length_cons]
        rw [h1]; omega

theorem unescape_loop_escape (s tail : List Nat) :
    ∀ (pre : List Nat) (fuel : Nat) (svid : List Nat),
      (escape_id s).length ≤ fuel →
      unescape_loop (pre ++ (escape_id s ++ tail)) (pre.length + (escape_id s).length)
        fuel pre.length svid = some (svid ++ s) := by
  induction s with
  | nil =>
    intro pre fuel svid _
    cases fuel with
    | zero => simp [unescape_loop]
    | succ n => simp [unescape_loop, escape_id]
  | cons c s ih =>
    intro pre fuel svid hfuel
    by_cases hb : c = backslash
    · subst hb
      have he : escape_id (backslash :: s) = backslash :: backslash :: escape_id s := by
        simp [escape_id]
      rw [he] at hfuel ⊢
      obtain ⟨n, rfl⟩ : ∃ n, fuel = n + 1 := ⟨fuel - 1, by simp at hfuel; omega⟩
      have h1 := ih (pre ++ [backslash, backslash]) n (svid ++ [backslash])
        (by simp at hfuel ⊢; omega)
      simp only [List.append_assoc, List.cons_append, List.nil_append, List.length_append,
        List.length_cons, List.length_nil] at h1
      have g1 : (pre ++ backslash :: backslash :: (escape_id s ++ tail))[pre.length]?
          = some backslash := getElem?_at_length _ _ _
      have g2 : (pre ++ backslash :: backslash :: (escape_id s ++ tail))[pre.length + 1]?
          = some backslash := by
        have := getElem?_at_length (pre ++ [backslash]) backslash (escape_id s ++ tail)
        simpa using this
      have hlt : pre.length < pre.length + (escape_id s).length.succ.succ := by omega
      have hi : pre.length + (escape_id s).length.succ.succ
          = pre.length + (0 + 1 + 1) + (escape_id s).length := by omega
      simp only [List.cons_append, unescape_loop, List.length_cons, Nat.succ_eq_add_one,
        hlt, if_true, g1, g2]
      rw [show pre.length + 1 + 1 = pre.length + (0 + 1 + 1) by omega,
        show pre.length + ((escape_id s).length + 1 + 1)
          = pre.length + (0 + 1 + 1) + (escape_id s).length by omega, h1]
    · by_cases hs : c = slash
      · subst hs
        have he : escape_id (slash :: s) = backslash :: slash :: escape_id s := by
          simp [escape_id]
        rw [he] at hfuel ⊢
        obtain ⟨n, rfl⟩ : ∃ n, fuel = n + 1 := ⟨fuel - 1, by simp at hfuel; omega⟩
        have h1 := ih (pre ++ [backslash, slash]) n (svid ++ [slash])
          (by simp at hfuel ⊢; omega)
        simp only [List.append_assoc, List.cons_append, List.nil_append, List.length_append,
          List.length_cons, List.length_nil] at h1
        have g1 : (pre ++ backslash :: slash :: (escape_id s ++ tail))[pre.length]?
            = some backslash := getElem?_at_length _ _ _
        have g2 : (pre ++ backslash :: slash :: (escape_id s ++ tail))[pre.length + 1]?
            = some slash := by
          have := getElem?_at_length (pre ++ [backslash]) slash (escape_id s ++ tail)
          simpa using this
        have hlt : pre.length < pre.length + (escape_id s).length.succ.succ := by omega
        simp only [List.cons_append, unescape_loop, List.length_cons, Nat.succ_eq_add_one,
          hlt, if_true, g1, g2]
        rw [show pre.length + 1 + 1 = pre.length + (0 + 1 + 1) by omega,
          show pre.length + ((escape_id s).length + 1 + 1)
            = pre.length + (0 + 1 + 1) + (escape_id s).length by omega, h1]
      · have he : escape_id (c :: s) = c :: escape_id s := by
          simp [escape_id, hb, hs]
        rw [he] at hfuel ⊢
        obtain ⟨n, rfl⟩ : ∃ n, fuel = n + 1 := ⟨fuel - 1, by simp at hfuel; omega⟩
        have h1 := ih (pre ++ [c]) n (svid ++ [c]) (by simp at hfuel ⊢; omega)
        simp only [List.append_assoc, List.cons_append, List.nil_append, List.length_append,
          List.length_cons, List.length_nil] at h1
        have g1 : (pre ++ c :: (escape_id s ++ tail))[pre.length]? = some c :=
          getElem?_at_length _ _ _
        have hlt : pre.length < pre.length + (escape_id s).length.succ := by omega
        simp only [List.cons_append, unescape_loop, List.length_cons, Nat.succ_eq_add_one,
          hlt, if_true, g1, hb, if_false]
        rw [show pre.length + ((escape_id s).length + 1)
            = pre.length + (0 + 1) + (escape_id s).length by omega, h1]

theorem svmap_find_mem_keys (l : List (SvId × SvInf)) (k : SvId) (v : SvInf)
    (h : svmap_find l k = some v) : k ∈ l.map Prod.fst := by
  induction l with
  | nil => simp [svmap_find] at h
  | cons e rest ih =>
    obtain ⟨k0, v0⟩ := e
    by_cases hk : k0 = k
    · simp [hk]
    · simp only [svmap_find, hk, if_false] at h
      simp [ih h]

theorem svmap_index_of_find (l : List (SvId × SvInf)) (k : SvId) (v : SvInf)
    (h : svmap_find l k = some v) : svmap_index l k = l := by
  simp [svmap_index, h]

theorem svmap_at_of_find (l : List (SvId × SvInf)) (k : SvId) (v : SvInf)
    (h : svmap_find l k = some v) : svmap_at l k = v := by
  simp [svmap_at, h]

theorem svmap_find_set_same (l : List (SvId × SvInf)) (k : SvId) (v w : SvInf)
    (h : svmap_find l k = some v) : svmap_find (svmap_set l k w) k = some w := by
  induction l with
  | nil => simp [svmap_find] at h
  | cons e rest ih =>
    obtain ⟨k0, v0⟩ := e
    by_cases hk : k0 = k
    · simp [svmap_set, svmap_find, hk]
    · simp only [svmap_find, hk, if_false] at h
      simp [svmap_set, svmap_find, hk, ih h]

theorem svmap_find_set_other (l : List (SvId × SvInf)) (k k2 : SvId) (w : SvInf)
    (hne : k2 ≠ k) : svmap_find (svmap_set l k w) k2 = svmap_find l k2 := by
  induction l with
  | nil => simp [svmap_set, svmap_find]
  | cons e rest ih =>
    obtain ⟨k0, v0⟩ := e
    by_cases hk : k0 = k
    · subst hk
      have : ¬ (k0 = k2) := fun h => hne h.symm
      simp [svmap_set, svmap_find, this]
    · by_cases hk2 : k0 = k2
      · subst hk2
        simp [svmap_set, svmap_find, hk]
      · simp [svmap_set, svmap_find, hk, hk2, ih]

theorem svmap_set_set (l : List (SvId × SvInf)) (k : SvId) (v w : SvInf) :
    svmap_set (svmap_set l k v) k w = svmap_set l k w := by
  induction l with
  | nil => simp [svmap_set]
  | cons e rest ih =>
    obtain ⟨k0, v0⟩ := e
    by_cases hk : k0 = k
    · simp [svmap_set, hk]
    · simp [svmap_set, hk, ih]

theorem callback_find_proc (l : List (SvId × SvInf)) (p : Nat) (k : SvId) (inf : SvInf)
    (h : callback_find l p = some (k, inf)) : inf.proc = some p := by
  induction l with
  | nil => simp [callback_find] at h
  | cons e rest ih =>
    obtain ⟨k0, v0⟩ := e
    by_cases hp : v0.proc = some p
    · simp only [callback_find, hp, if_true, Option.some.injEq, Prod.mk.injEq] at h
      rw [← h.2]; exact hp
    · simp only [callback_find, hp, if_false] at h
      exact ih h

theorem callback_find_key (l : List (SvId × SvInf)) (p : Nat) (k : SvId) (inf : SvInf)
    (hkeys : (l.map Prod.fst).Nodup) (h : callback_find l p = some (k, inf)) :
    svmap_find l k = some inf := by
  induction l with
  | nil => simp [callback_find] at h
  | cons e rest ih =>
    obtain ⟨k0, v0⟩ := e
    simp only [List.map_cons, List.nodup_cons] at hkeys
    by_cases hp : v0.proc = some p
    · simp only [callback_find, hp, if_true, Option.some.injEq, Prod.mk.injEq] at h
      simp [svmap_find, h.1, h.2]
    · simp only [callback_find, hp, if_false] at h
      have h1 := ih hkeys.2 h
      have hmem := svmap_find_mem_keys rest k inf h1
      have hne : ¬ (k0 = k) := fun heq => hkeys.1 (heq ▸ hmem)
      simp [svmap_find, hne, h1]

theorem callback_gc_find (env : Env) (l : List (SvId × SvInf)) (p : Nat) (k : SvId)
    (inf : SvInf) (hlive : env.finished p = false)
    (h : callback_find l p = some (k, inf)) :
    callback_find (callback_gc env l).1 p = some (k, inf) := by
  induction l with
  | nil => simp [callback_find] at h
  | cons e rest ih =>
    obtain ⟨k0, v0⟩ := e
    by_cases hp : v0.proc = some p
    · simp only [callback_find, hp, if_true, Option.some.injEq, Prod.mk.injEq] at h
      obtain ⟨h1, h2⟩ := h
      subst h1
      subst h2
      simp [callback_gc, hp, hlive, callback_find]
    · simp only [callback_find, hp, if_false] at h
      have h1 := ih h
      cases hq : v0.proc with
      | none => simp [callback_gc, hq, callback_find, h1]
      | some q =>
        by_cases hf : env.finished q = true
        · simp [callback_gc, hq, hf, callback_find, h1]
        · simp only [Bool.not_eq_true] at hf
          have hqp : ¬ (q = p) := fun heq => hp (by rw [hq, heq])
          simp [callback_gc, hq, hf, callback_find, h1, hqp]

theorem callback_gc_keys (env : Env) (l : List (SvId × SvInf)) :
    (callback_gc env l).1.map Prod.fst = l.map Prod.fst := by
  induction l with
  | nil => simp [callback_gc]
  | cons e rest ih =>
    obtain ⟨k0, v0⟩ := e
    cases hq : v0.proc with
    | none => simp [callback_gc, hq, ih]
    | some q =>
      by_cases hf : env.finished q = true
      · simp [callback_gc, hq, hf, ih]
      · simp only [Bool.not_eq_true] at hf
        simp [callback_gc, hq, hf, ih]

/-! ### The correlation map -/

theorem find_none_filter (l : List (Nat × Nat)) (id : Nat)
    (h : l.find? (fun e => e.2 = id) = none) :
    l.filter (fun e => e.2 ≠ id) = l ∧ l.filter (fun e => e.2 = id) = [] := by
  induction l with
  | nil => simp
  | cons e rest ih =>
    by_cases he : e.2 = id
    · simp [List.find?, he] at h
    · simp only [List.find?, he, decide_False] at h
      obtain ⟨h1, h2⟩ := ih h
      constructor
      · rw [List.filter_cons_of_pos (by simpa using he), h1]
      · rw [List.filter_cons_of_neg (by simpa using he), h2]

theorem find_some_filter (l : List (Nat × Nat)) (id : Nat) (e : Nat × Nat)
    (h : l.find? (fun e => e.2 = id) = some e) :
    l.filter (fun e => e.2 = id) = e :: (l.eraseP (fun e => e.2 = id)).filter (fun e => e.2 = id) ∧
    (l.eraseP (fun e => e.2 = id)).filter (fun e => e.2 ≠ id) = l.filter (fun e => e.2 ≠ id) := by
  induction l with
  | nil => simp at h
  | cons a rest ih =>
    by_cases ha : a.2 = id
    · simp only [List.find?, ha, decide_True, Option.some.injEq] at h
      subst h
      simp [List.filter, ha]
    · simp only [List.find?, ha, decide_False] at h
      obtain ⟨h1, h2⟩ := ih h
      rw [List.eraseP_cons_of_neg (by simpa using ha)]
      constructor
      · rw [List.filter_cons_of_neg (by simpa using ha), h1,
          List.filter_cons_of_neg (by simpa using ha)]
      · rw [List.filter_cons_of_pos (by simpa using ha),
          List.filter_cons_of_pos (by simpa using ha), h2]

theorem cancel_loop_spec (id : Nat) :
    ∀ (fuel : Nat) (m : Mediator),
      (m.requests.filter (fun e => e.2 = id)).length < fuel →
      cancel_loop id fuel m
        = some { m with requests := m.requests.filter (fun e => e.2 ≠ id),
                        trace := m.trace ++
                          (m.requests.filter (fun e => e.2 = id)).map
                            (fun e => Event.orb_cancel e.1) } := by
  intro fuel
  induction fuel with
  | zero => intro m h; omega
  | succ n ih =>
    intro m h
    cases hf : m.requests.find? (fun e => e.2 = id) with
    | none =>
      have := find_none_filter m.requests id hf
      simp only [cancel_loop, hf, this.1, this.2, List.map_nil, List.append_nil]
    | some e =>
      have hfs := find_some_filter m.requests id e hf
      rw [hfs.1] at h
      simp only [List.length_cons, Nat.add_lt_add_iff_right] at h
      simp only [cancel_loop, hf]
      rw [ih _ h]
      simp only [hfs.2, hfs.1, List.map_cons, List.append_assoc, List.singleton_append]

theorem cancel_spec (m : Mediator) (id : Nat) :
    cancel m id
      = some { m with requests := m.requests.filter (fun e => e.2 ≠ id),
                      trace := m.trace ++
                        (m.requests.filter (fun e => e.2 = id)).map
                          (fun e => Event.orb_cancel e.1) } := by
  apply cancel_loop_spec
  have := List.length_filter_le (fun e : Nat × Nat => decide (e.2 = id)) m.requests
  omega

theorem requests_find_assign_same (l : List (Nat × Nat)) (k v : Nat) :
    requests_find (requests_assign l k v) k = some v := by
  induction l with
  | nil => simp [requests_assign, requests_find]
  | cons e rest ih =>
    obtain ⟨k0, v0⟩ := e
    by_cases h1 : k0 = k
    · simp [requests_assign, requests_find, h1]
    · by_cases h2 : k < k0
      · simp [requests_assign, requests_find, h1, h2]
      · simp [requests_assign, requests_find, h1, h2, ih]

theorem requests_find_assign_other (l : List (Nat × Nat)) (k k2 v : Nat) (hne : k2 ≠ k) :
    requests_find (requests_assign l k v) k2 = requests_find l k2 := by
  induction l with
  | nil =>
    have : ¬ (k = k2) := fun h => hne h.symm
    simp [requests_assign, requests_find, this]
  | cons e rest ih =>
    obtain ⟨k0, v0⟩ := e
    have hkk : ¬ (k = k2) := fun h => hne h.symm
    by_cases h1 : k0 = k
    · subst h1
      simp [requests_assign, requests_find, hkk]
    · by_cases h2 : k < k0
      · simp [requests_assign, requests_find, h1, h2, hkk]
      · by_cases h3 : k0 = k2
        · subst h3
          simp [requests_assign, requests_find, h1, h2]
        · simp [requests_assign, requests_find, h1, h2, h3, ih]

theorem requests_find_none_of_lt (l : List (Nat × Nat)) (n : Nat)
    (h : ∀ e ∈ l, e.1 < n) : requests_find l n = none := by
  induction l with
  | nil => simp [requests_find]
  | cons e rest ih =>
    obtain ⟨k0, v0⟩ := e
    have h0 : k0 < n := h (k0, v0) (List.mem_cons_self _ _)
    have hne : ¬ (k0 = n) := by omega
    simp only [requests_find, hne, if_false]
    exact ih (fun e he => h e (List.mem_cons_of_mem _ he))

theorem requests_assign_length (l : List (Nat × Nat)) (k v : Nat)
    (h : requests_find l k = none) : (requests_assign l k v).length = l.length + 1 := by
  induction l with
  | nil => simp [requests_assign]
  | cons e rest ih =>
    obtain ⟨k0, v0⟩ := e
    by_cases h1 : k0 = k
    · simp [requests_find, h1] at h
    · simp only [requests_find, h1, if_false] at h
      by_cases h2 : k < k0
      · simp [requests_assign, h1, h2]
      · simp [requests_assign, h1, h2, ih h]

theorem requests_assign_mem (l : List (Nat × Nat)) (k v : Nat) (e : Nat × Nat)
    (h : e ∈ requests_assign l k v) : e = (k, v) ∨ e ∈ l := by
  induction l with
  | nil => simpa [requests_assign] using h
  | cons a rest ih =>
    obtain ⟨k0, v0⟩ := a
    by_cases h1 : k0 = k
    · simp only [requests_assign, h1, if_true, List.mem_cons] at h
      rcases h with h | h
      · exact Or.inl h
      · exact Or.inr (List.mem_cons_of_mem _ h)
    · by_cases h2 : k < k0
      · simp only [requests_assign, h1, h2, if_false, if_true, List.mem_cons] at h
        rcases h with h | h | h
        · exact Or.inl h
        · exact Or.inr (by simp [h])
        · exact Or.inr (List.mem_cons_of_mem _ h)
      · simp only [requests_assign, h1, h2, if_false, List.mem_cons] at h
        rcases h with h | h
        · exact Or.inr (by simp [h])
        · rcases ih h with h | h
          · exact Or.inl h
          · exact Or.inr (List.mem_cons_of_mem _ h)

theorem bind_leg_ids_append (a b : List Event) :
    bind_leg_ids (a ++ b) = bind_leg_ids a ++ bind_leg_ids b := by
  simp [bind_leg_ids, List.filterMap_append]

/-! ### The loops of `bind` -/

theorem active_records_cons_active (k : SvId) (inf : SvInf) (rest : List (SvId × SvInf))
    (h : inf.pstate = PState.Active) :
    active_records ((k, inf) :: rest) = active_records rest + 1 := by
  simp [active_records, List.filter, h]

theorem active_records_cons_other (k : SvId) (inf : SvInf) (rest : List (SvId × SvInf))
    (h : inf.pstate ≠ PState.Active) :
    active_records ((k, inf) :: rest) = active_records rest := by
  simp [active_records, List.filter, h]

theorem bind_scan_ready (env : Env) (id : Nat) (m : Mediator) :
    ∀ (ims : List ImplementationDef) (count : Nat) (queue : Bool),
      (∀ im ∈ ims, im.mode = ActivationMode.ActivatePOA →
        ∃ inf, svmap_find m.svmap im.name = some inf ∧
          (inf.pstate = PState.Active ∨ inf.pstate = PState.Stopped ∨
            inf.pstate = PState.Holding)) →
      bind_scan env id ims m count queue
        = some (BindScan.done m (count + (bind_candidates ims).length) queue) := by
  intro ims
  induction ims with
  | nil => intro count queue _; simp [bind_scan, bind_candidates]
  | cons im rest ih =>
    intro count queue h
    have hrest : ∀ im ∈ rest, im.mode = ActivationMode.ActivatePOA →
        ∃ inf, svmap_find m.svmap im.name = some inf ∧
          (inf.pstate = PState.Active ∨ inf.pstate = PState.Stopped ∨
            inf.pstate = PState.Holding) :=
      fun x hx => h x (List.mem_cons_of_mem _ hx)
    by_cases hmode : im.mode = ActivationMode.ActivatePOA
    · obtain ⟨inf, hfind, hst⟩ := h im (List.mem_cons_self _ _) hmode
      have hno : ¬ (inf.pstate ≠ PState.Active ∧ inf.pstate ≠ PState.Stopped ∧
          inf.pstate ≠ PState.Holding) := by
        rcases hst with h1 | h1 | h1 <;> simp [h1]
      have hm : { m with svmap := m.svmap } = m := rfl
      simp only [bind_scan, hmode, ne_eq, not_true_eq_false, if_false,
        svmap_index_of_find _ _ _ hfind, svmap_at_of_find _ _ _ hfind, hno, hm]
      rw [ih (count + 1) queue hrest]
      simp only [bind_candidates, List.filter, hmode, decide_True, List.length_cons]
      congr 2
      omega
    · simp only [bind_scan, ne_eq, hmode, not_false_eq_true, if_true]
      rw [ih count queue hrest]
      simp [bind_candidates, List.filter, hmode]

theorem bind_alloc_spec (id : Nat) :
    ∀ (l : List (SvId × SvInf)) (m : Mediator) (ms : List Nat),
      (∀ e ∈ m.requests, e.1 < m.next_msgid) →
      ∃ reqs : List (Nat × Nat),
        bind_alloc id l m ms
          = ({ m with next_msgid := m.next_msgid + active_records l, requests := reqs,
                      trace := m.trace ++ (List.range' m.next_msgid (active_records l)).map
                        (fun k => Event.requests_set k id) },
             ms ++ List.range' m.next_msgid (active_records l)) ∧
        reqs.length = m.requests.length + active_records l ∧
        (∀ k, requests_find reqs k
            = if m.next_msgid ≤ k ∧ k < m.next_msgid + active_records l then some id
              else requests_find m.requests k) ∧
        (∀ e ∈ reqs, e.1 < m.next_msgid + active_records l) := by
  intro l
  induction l with
  | nil =>
    intro m ms h
    refine ⟨m.requests, ?_, ?_, ?_, ?_⟩
    · simp [bind_alloc, active_records]
    · simp [active_records]
    · intro k
      have : ¬ (m.next_msgid ≤ k ∧ k < m.next_msgid + active_records []) := by
        simp [active_records]
      simp [this]
    · simpa [active_records] using h
  | cons e rest ih =>
    intro m ms h
    obtain ⟨k0, inf⟩ := e
    by_cases hst : inf.pstate = PState.Active
    · have hfresh := requests_find_none_of_lt m.requests m.next_msgid h
      have hbound : ∀ e ∈ requests_assign m.requests m.next_msgid id,
          e.1 < m.next_msgid + 1 := by
        intro e he
        rcases requests_assign_mem _ _ _ _ he with h1 | h1
        · rw [h1]; simp
        · have := h e h1; omega
      obtain ⟨reqs, h1, h2, h3, h4⟩ := ih
        { m with next_msgid := m.next_msgid + 1,
                 requests := requests_assign m.requests m.next_msgid id,
                 trace := m.trace ++ [Event.requests_set m.next_msgid id] }
        (ms ++ [m.next_msgid]) hbound
      refine ⟨reqs, ?_, ?_, ?_, ?_⟩
      · simp only [bind_alloc, hst, ne_eq, not_true_eq_false, if_false, h1,
          active_records_cons_active _ _ _ hst, List.range'_succ, List.map_cons,
          List.append_assoc, List.singleton_append, Nat.add_assoc]
        simp [Nat.add_comm 1]
      · simp only [requests_assign_length _ _ _ hfresh] at h2
        rw [h2, active_records_cons_active _ _ _ hst]; omega
      · intro k
        rw [h3 k, active_records_cons_active _ _ _ hst]
        simp only
        by_cases hk : k = m.next_msgid
        · subst hk
          have c1 : ¬ (m.next_msgid + 1 ≤ m.next_msgid ∧
              m.next_msgid < m.next_msgid + 1 + active_records rest) := by omega
          have c2 : m.next_msgid ≤ m.next_msgid ∧
              m.next_msgid < m.next_msgid + (active_records rest + 1) := by omega
          simp only [c1, c2, if_false, and_self, if_true, requests_find_assign_same]
        · rw [requests_find_assign_other _ _ _ _ hk]
          by_cases c : m.next_msgid + 1 ≤ k ∧ k < m.next_msgid + 1 + active_records rest
          · have c2 : m.next_msgid ≤ k ∧ k < m.next_msgid + (active_records rest + 1) := by
              omega
            simp only [c, c2, and_self, if_true]
          · have c2 : ¬ (m.next_msgid ≤ k ∧
                k < m.next_msgid + (active_records rest + 1)) := by omega
            simp only [c, c2, if_false]
      · intro e he
        have := h4 e he
        rw [active_records_cons_active _ _ _ hst]
        simp only at this
        omega
    · obtain ⟨reqs, h1, h2, h3, h4⟩ := ih m ms h
      refine ⟨reqs, ?_, ?_, ?_, ?_⟩
      · simp only [bind_alloc, hst, ne_eq, not_false_eq_true, if_true, h1,
          active_records_cons_other _ _ _ hst]
      · rw [h2, active_records_cons_other _ _ _ hst]
      · intro k; rw [h3 k, active_records_cons_other _ _ _ hst]
      · intro e he; rw [active_records_cons_other _ _ _ hst]; exact h4 e he

theorem bind_send_spec (repoid tag : Nat) :
    ∀ (l : List (SvId × SvInf)) (m : Mediator) (ms : List Nat),
      active_records l ≤ ms.length →
      (∀ e ∈ l, e.2.pstate = PState.Active → e.2.ior.addr ≠ none) →
      ∃ new, bind_send repoid tag l m ms = some { m with trace := m.trace ++ new } ∧
        bind_leg_ids new = ms.reverse.take (active_records l) ∧
        new.length = active_records l := by
  intro l
  induction l with
  | nil =>
    intro m ms _ _
    exact ⟨[], by simp [bind_send], by simp [bind_leg_ids, active_records],
      by simp [active_records]⟩
  | cons e rest ih =>
    intro m ms hlen haddr
    obtain ⟨k0, inf⟩ := e
    have haddr_rest : ∀ e ∈ rest, e.2.pstate = PState.Active → e.2.ior.addr ≠ none :=
      fun e he => haddr e (List.mem_cons_of_mem _ he)
    by_cases hst : inf.pstate = PState.Active
    · rw [active_records_cons_active _ _ _ hst] at hlen ⊢
      have ha := haddr (k0, inf) (List.mem_cons_self _ _) hst
      obtain ⟨a, hsome⟩ := Option.ne_none_iff_exists'.mp ha
      simp only at hsome
      rcases List.eq_nil_or_concat ms with hnil | ⟨L, b, hcat⟩
      · subst hnil; simp at hlen
      · rw [List.concat_eq_append] at hcat
        subst hcat
        have hlen2 : active_records rest ≤ L.length := by
          simp at hlen; omega
        obtain ⟨new, h1, h2, h3⟩ := ih (m.emit [Event.bind_async repoid tag a b]) L hlen2
          haddr_rest
        simp only [Mediator.emit, List.append_assoc, List.singleton_append] at h1
        refine ⟨Event.bind_async repoid tag a b :: new, ?_, ?_, ?_⟩
        · have hl : (L ++ [b]).getLast? = some b := by simp
          have hd : (L ++ [b]).dropLast = L := by simp
          simp only [bind_send, hst, ne_eq, not_true_eq_false, if_false, hsome, hl, hd,
            Mediator.emit, h1]
        · simp only [bind_leg_ids, List.filterMap_cons, List.reverse_append,
            List.reverse_cons, List.reverse_nil, List.nil_append, List.singleton_append,
            List.take_succ_cons]
          have := h2
          simp only [bind_leg_ids] at this
          rw [this]
        · simp [h3]
    · rw [active_records_cons_other _ _ _ hst] at hlen ⊢
      obtain ⟨new, h1, h2, h3⟩ := ih m ms hlen haddr_rest
      exact ⟨new, by simp only [bind_send, hst, ne_eq, not_false_eq_true, if_true, h1], h2, h3⟩

/-! ### Replies to the legs of a bind -/

theorem requests_find_none_of_not_mem (l : List (Nat × Nat)) (k : Nat)
    (h : k ∉ l.map Prod.fst) : requests_find l k = none := by
  induction l with
  | nil => simp [requests_find]
  | cons e rest ih =>
    obtain ⟨k0, v0⟩ := e
    simp only [List.map_cons, List.mem_cons, not_or] at h
    have hne : ¬ (k0 = k) := fun heq => h.1 heq.symm
    simp only [requests_find, hne, if_false]
    exact ih h.2

theorem requests_find_of_mem (l : List (Nat × Nat)) (k v : Nat)
    (hkeys : (l.map Prod.fst).Nodup) (h : (k, v) ∈ l) : requests_find l k = some v := by
  induction l with
  | nil => simp at h
  | cons e rest ih =>
    obtain ⟨k0, v0⟩ := e
    simp only [List.map_cons, List.nodup_cons] at hkeys
    simp only [List.mem_cons, Prod.mk.injEq] at h
    rcases h with ⟨h1, h2⟩ | h
    · simp [requests_find, h1, h2]
    · have hmem : k ∈ rest.map Prod.fst := List.mem_map.mpr ⟨(k, v), h, rfl⟩
      have hne : ¬ (k0 = k) := fun heq => hkeys.1 (heq ▸ hmem)
      simp only [requests_find, hne, if_false]
      exact ih hkeys.2 h

theorem requests_mem_of_find (l : List (Nat × Nat)) (k v : Nat)
    (h : requests_find l k = some v) : (k, v) ∈ l := by
  induction l with
  | nil => simp [requests_find] at h
  | cons e rest ih =>
    obtain ⟨k0, v0⟩ := e
    by_cases hk : k0 = k
    · simp only [requests_find, hk, if_true, Option.some.injEq] at h
      simp [hk, h]
    · simp only [requests_find, hk, if_false] at h
      exact List.mem_cons_of_mem _ (ih h)

theorem requests_erase_eq_filter (l : List (Nat × Nat)) (k : Nat)
    (hkeys : (l.map Prod.fst).Nodup) :
    requests_erase l k = l.filter (fun e => e.1 ≠ k) := by
  induction l with
  | nil => simp [requests_erase]
  | cons e rest ih =>
    obtain ⟨k0, v0⟩ := e
    simp only [List.map_cons, List.nodup_cons] at hkeys
    by_cases hk : k0 = k
    · subst hk
      have hself : rest.filter (fun e => e.1 ≠ k0) = rest := by
        apply List.filter_eq_self.mpr
        intro a ha
        have : a.1 ≠ k0 := fun heq => hkeys.1 (heq ▸ List.mem_map.mpr ⟨a, ha, rfl⟩)
        simpa using this
      rw [List.filter_cons_of_neg (by simp), hself]
      simp [requests_erase]
    · rw [List.filter_cons_of_pos (by simpa using hk)]
      simp only [requests_erase, hk, if_false]
      rw [ih hkeys.2]

theorem nodup_keys_filter (l : List (Nat × Nat)) (q : Nat × Nat → Bool)
    (hkeys : (l.map Prod.fst).Nodup) : ((l.filter q).map Prod.fst).Nodup :=
  List.Nodup.sublist (List.Sublist.map _ (List.filter_sublist _)) hkeys

theorem mem_pending_legs (l : List (Nat × Nat)) (r k : Nat) :
    k ∈ pending_legs l r ↔ (k, r) ∈ l := by
  simp only [pending_legs, List.mem_map, List.mem_filter, decide_eq_true_eq]
  constructor
  · rintro ⟨⟨a, b⟩, ⟨hin, hb⟩, hk⟩
    simp only at hb hk
    subst hk
    subst hb
    exact hin
  · intro hin
    exact ⟨(k, r), ⟨hin, rfl⟩, rfl⟩

theorem notify_binds_append (a b : List (Nat × LocateStatus × Option Nat)) :
    ∀ m : Mediator, notify_binds m (a ++ b)
      = match notify_binds m a with
        | none => none
        | some m1 => notify_binds m1 b := by
  induction a with
  | nil => intro m; simp [notify_binds]
  | cons x rest ih =>
    intro m
    obtain ⟨k, stat, obj⟩ := x
    simp only [List.cons_append, notify_binds]
    cases notify m k (Reply.bind stat obj) with
    | none => rfl
    | some m1 => exact ih m1

theorem notify_bind_silent (m : Mediator) (k r : Nat) (stat : LocateStatus) (obj : Option Nat)
    (hfind : requests_find m.requests k = some r) (hstat : stat ≠ LocateStatus.LocateHere)
    (hmore : ∃ e ∈ requests_erase m.requests k, e.2 = r) :
    notify m k (Reply.bind stat obj)
      = some { m with requests := requests_erase m.requests k } := by
  obtain ⟨e, he, her⟩ := hmore
  have hsome : ((requests_erase m.requests k).find? (fun e => e.2 = r)).isSome := by
    rw [List.find?_isSome]
    exact ⟨e, he, by simpa using her⟩
  obtain ⟨x, hx⟩ := Option.isSome_iff_exists.mp hsome
  simp only [notify, hfind, hstat, if_false, hx]

theorem notify_bind_last (m : Mediator) (k r : Nat) (stat : LocateStatus) (obj : Option Nat)
    (hfind : requests_find m.requests k = some r) (hstat : stat ≠ LocateStatus.LocateHere)
    (hnone : ∀ e ∈ requests_erase m.requests k, e.2 ≠ r) :
    notify m k (Reply.bind stat obj)
      = some { m with requests := requests_erase m.requests k,
                      trace := m.trace ++ [Event.answer_bind r stat obj] } := by
  have hx : (requests_erase m.requests k).find? (fun e => e.2 = r) = none := by
    rw [List.find?_eq_none]
    intro e he
    simpa using hnone e he
  simp only [notify, hfind, hstat, if_false, hx, Mediator.emit]

theorem notify_bind_here (m : Mediator) (k r : Nat) (obj : Option Nat)
    (hfind : requests_find m.requests k = some r) :
    notify m k (Reply.bind LocateStatus.LocateHere obj)
      = some { m with requests := (requests_erase m.requests k).filter (fun e => e.2 ≠ r),
                      trace := m.trace ++ [Event.answer_bind r LocateStatus.LocateHere obj]
                        ++ ((requests_erase m.requests k).filter (fun e => e.2 = r)).map
                            (fun e => Event.orb_cancel e.1) } := by
  simp only [notify, hfind, if_true, cancel_spec, Mediator.emit]

theorem notify_bind_unknown (m : Mediator) (k : Nat) (stat : LocateStatus) (obj : Option Nat)
    (hfind : requests_find m.requests k = none) :
    notify m k (Reply.bind stat obj)
      = some { m with trace := m.trace ++ [Event.orb_cancel k] } := by
  simp only [notify, hfind, Mediator.emit]

theorem pending_legs_nodup (l : List (Nat × Nat)) (r : Nat)
    (hkeys : (l.map Prod.fst).Nodup) : (pending_legs l r).Nodup :=
  nodup_keys_filter l _ hkeys

theorem value_of_leg_key (l : List (Nat × Nat)) (r : Nat) (e : Nat × Nat)
    (hkeys : (l.map Prod.fst).Nodup) (he : e ∈ l) (hk : (e.1, r) ∈ l) : e.2 = r := by
  have h1 := requests_find_of_mem l e.1 r hkeys hk
  have h2 := requests_find_of_mem l e.1 e.2 hkeys he
  rw [h1] at h2
  exact (Option.some.inj h2).symm

theorem notify_binds_silent (r : Nat) :
    ∀ (pre : List (Nat × LocateStatus × Option Nat)) (m : Mediator),
      (m.requests.map Prod.fst).Nodup →
      (∀ x ∈ pre, x.2.1 ≠ LocateStatus.LocateHere) →
      (∀ x ∈ pre, (x.1, r) ∈ m.requests) →
      (pre.map (fun x => x.1)).Nodup →
      (∃ k0, (k0, r) ∈ m.requests ∧ k0 ∉ pre.map (fun x => x.1)) →
      notify_binds m pre
        = some { m with requests :=
            m.requests.filter (fun e => e.1 ∉ pre.map (fun x => x.1)) } := by
  intro pre
  induction pre with
  | nil =>
    intro m _ _ _ _ _
    have : m.requests.filter (fun e => e.1 ∉ ([] : List (Nat × LocateStatus × Option Nat)).map
        (fun x => x.1)) = m.requests := by
      apply List.filter_eq_self.mpr
      intro a _
      simp
    simp only [notify_binds, this]
  | cons x rest ih =>
    intro m hkeys hneg hmem hnd hk0
    obtain ⟨k, stat, obj⟩ := x
    obtain ⟨k0, hk0mem, hk0not⟩ := hk0
    simp only [List.map_cons, List.nodup_cons] at hnd
    simp only [List.map_cons, List.mem_cons, not_or] at hk0not
    have hfind := requests_find_of_mem m.requests k r hkeys
      (hmem (k, stat, obj) (List.mem_cons_self _ _))
    have hstat : stat ≠ LocateStatus.LocateHere := hneg (k, stat, obj) (List.mem_cons_self _ _)
    have herase := requests_erase_eq_filter m.requests k hkeys
    have hmore : ∃ e ∈ requests_erase m.requests k, e.2 = r := by
      refine ⟨(k0, r), ?_, rfl⟩
      rw [herase, List.mem_filter]
      exact ⟨hk0mem, by simpa using hk0not.1⟩
    simp only [notify_binds, notify_bind_silent m k r stat obj hfind hstat hmore]
    rw [ih { m with requests := requests_erase m.requests k }]
    · simp only [herase, List.filter_filter, List.map_cons, List.mem_cons, not_or]
      congr 2
      apply List.filter_congr
      intro a _
      by_cases h1 : a.1 = k <;> by_cases h2 : a.1 ∈ rest.map (fun x => x.1) <;>
        simp [h1, h2]
    · simp only [herase]
      exact nodup_keys_filter _ _ hkeys
    · exact fun y hy => hneg y (List.mem_cons_of_mem _ hy)
    · intro y hy
      simp only [herase, List.mem_filter]
      refine ⟨hmem y (List.mem_cons_of_mem _ hy), ?_⟩
      have : y.1 ≠ k := fun heq => hnd.1 (heq ▸ List.mem_map.mpr ⟨y, hy, rfl⟩)
      simpa using this
    · exact hnd.2
    · refine ⟨k0, ?_, hk0not.2⟩
      simp only [herase, List.mem_filter]
      exact ⟨hk0mem, by simpa using hk0not.1⟩

theorem notify_binds_unknown :
    ∀ (post : List (Nat × LocateStatus × Option Nat)) (m : Mediator),
      (∀ x ∈ post, requests_find m.requests x.1 = none) →
      notify_binds m post
        = some { m with trace := m.trace ++ post.map (fun x => Event.orb_cancel x.1) } := by
  intro post
  induction post with
  | nil => intro m _; simp [notify_binds]
  | cons x rest ih =>
    intro m h
    obtain ⟨k, stat, obj⟩ := x
    have hk := h (k, stat, obj) (List.mem_cons_self _ _)
    simp only at hk
    simp only [notify_binds, notify_bind_unknown m k stat obj hk]
    have hrest := ih { m with trace := m.trace ++ [Event.orb_cancel k] }
      (fun y hy => h y (List.mem_cons_of_mem _ hy))
    rw [hrest]
    simp

theorem legs_facts (l : List (Nat × Nat)) (r : Nat) (keys : List Nat)
    (hkeys : (l.map Prod.fst).Nodup) (hperm : keys.Perm (pending_legs l r)) :
    keys.Nodup ∧ (∀ k ∈ keys, (k, r) ∈ l) ∧ (∀ e ∈ l, (e.2 = r ↔ e.1 ∈ keys)) := by
  refine ⟨hperm.nodup_iff.mpr (pending_legs_nodup l r hkeys), ?_, ?_⟩
  · intro k hk
    exact (mem_pending_legs l r k).mp (hperm.mem_iff.mp hk)
  · intro e he
    constructor
    · intro h
      apply hperm.mem_iff.mpr
      apply (mem_pending_legs l r e.1).mpr
      rw [← h]
      exact he
    · intro h
      exact value_of_leg_key l r e hkeys he
        ((mem_pending_legs l r e.1).mp (hperm.mem_iff.mp h))

theorem notify_binds_all_negative (m : Mediator) (r : Nat)
    (pre : List (Nat × LocateStatus × Option Nat)) (k : Nat) (stat : LocateStatus)
    (obj : Option Nat)
    (hkeys : (m.requests.map Prod.fst).Nodup)
    (hperm : ((pre ++ [(k, stat, obj)]).map (fun x => x.1)).Perm (pending_legs m.requests r))
    (hneg : ∀ x ∈ pre ++ [(k, stat, obj)], x.2.1 ≠ LocateStatus.LocateHere) :
    notify_binds m pre
      = some { m with requests :=
          m.requests.filter (fun e => e.1 ∉ pre.map (fun x => x.1)) } ∧
    notify_binds m (pre ++ [(k, stat, obj)])
      = some { m with requests := m.requests.filter (fun e => e.2 ≠ r),
                      trace := m.trace ++ [Event.answer_bind r stat obj] } := by
  obtain ⟨hnd, hmem, hiff⟩ := legs_facts m.requests r _ hkeys hperm
  simp only [List.map_append, List.map_cons, List.map_nil] at hnd hmem hiff
  have hnd2 := List.nodup_append.mp hnd
  have hkpre : k ∉ pre.map (fun x => x.1) := by
    intro hin
    exact hnd2.2.2 hin (List.mem_singleton_self k)
  have hsilent := notify_binds_silent r pre m hkeys
    (fun x hx => hneg x (List.mem_append_left _ hx))
    (fun x hx => hmem x.1 (List.mem_append_left _ (List.mem_map.mpr ⟨x, hx, rfl⟩)))
    hnd2.1
    ⟨k, hmem k (List.mem_append_right _ (List.mem_singleton_self k)), hkpre⟩
  have hkeys1 := nodup_keys_filter m.requests
    (fun e => e.1 ∉ pre.map (fun x => x.1)) hkeys
  have hkr : (k, r) ∈ m.requests :=
    hmem k (List.mem_append_right _ (List.mem_singleton_self k))
  have hfind : requests_find (m.requests.filter (fun e => e.1 ∉ pre.map (fun x => x.1))) k
      = some r := by
    apply requests_find_of_mem _ _ _ hkeys1
    rw [List.mem_filter]
    exact ⟨hkr, by simpa using hkpre⟩
  have herase := requests_erase_eq_filter _ k hkeys1
  have hstat : stat ≠ LocateStatus.LocateHere :=
    hneg (k, stat, obj) (List.mem_append_right _ (List.mem_singleton_self _))
  have hfinal : (m.requests.filter (fun e => e.1 ∉ pre.map (fun x => x.1))).filter
      (fun e => e.1 ≠ k) = m.requests.filter (fun e => e.2 ≠ r) := by
    rw [List.filter_filter]
    apply List.filter_congr
    intro e he
    have hi := hiff e he
    simp only [List.mem_append, List.mem_singleton] at hi
    rw [Bool.eq_iff_iff]
    simp only [Bool.and_eq_true, decide_eq_true_eq, ne_eq, decide_not, Bool.not_eq_true',
      decide_eq_false_iff_not]
    tauto
  have hnone : ∀ e ∈ requests_erase
      (m.requests.filter (fun e => e.1 ∉ pre.map (fun x => x.1))) k, e.2 ≠ r := by
    intro e he
    rw [herase, hfinal, List.mem_filter] at he
    simpa using he.2
  refine ⟨hsilent, ?_⟩
  rw [notify_binds_append, hsilent]
  simp only [notify_binds]
  rw [notify_bind_last _ k r stat obj hfind hstat hnone]
  simp only [herase, hfinal]

theorem notify_binds_first_positive (m : Mediator) (r : Nat)
    (pre : List (Nat × LocateStatus × Option Nat)) (k : Nat) (obj : Option Nat)
    (post : List (Nat × LocateStatus × Option Nat))
    (hkeys : (m.requests.map Prod.fst).Nodup)
    (hperm : ((pre ++ (k, LocateStatus.LocateHere, obj) :: post).map (fun x => x.1)).Perm
      (pending_legs m.requests r))
    (hneg : ∀ x ∈ pre, x.2.1 ≠ LocateStatus.LocateHere) :
    notify_binds m (pre ++ [(k, LocateStatus.LocateHere, obj)])
      = some { m with
          requests := m.requests.filter (fun e => e.2 ≠ r),
          trace := m.trace ++ [Event.answer_bind r LocateStatus.LocateHere obj]
            ++ (m.requests.filter
                  (fun e => e.2 = r ∧ e.1 ∈ post.map (fun x => x.1))).map
                (fun e => Event.orb_cancel e.1) } ∧
    notify_binds m (pre ++ (k, LocateStatus.LocateHere, obj) :: post)
      = some { m with
          requests := m.requests.filter (fun e => e.2 ≠ r),
          trace := m.trace ++ [Event.answer_bind r LocateStatus.LocateHere obj]
            ++ (m.requests.filter
                  (fun e => e.2 = r ∧ e.1 ∈ post.map (fun x => x.1))).map
                (fun e => Event.orb_cancel e.1)
            ++ post.map (fun x => Event.orb_cancel x.1) } := by
  obtain ⟨hnd, hmem, hiff⟩ := legs_facts m.requests r _ hkeys hperm
  simp only [List.map_append, List.map_cons] at hnd hmem hiff
  have hnd2 := List.nodup_append.mp hnd
  have hnd3 := List.nodup_cons.mp hnd2.2.1
  have hkpre : k ∉ pre.map (fun x => x.1) := by
    intro hin
    exact hnd2.2.2 hin (List.mem_cons_self k _)
  have hpostpre : ∀ a ∈ post.map (fun x => x.1), a ∉ pre.map (fun x => x.1) := by
    intro a ha hin
    exact hnd2.2.2 hin (List.mem_cons_of_mem _ ha)
  have hkr : (k, r) ∈ m.requests :=
    hmem k (List.mem_append_right _ (List.mem_cons_self k _))
  have hsilent := notify_binds_silent r pre m hkeys hneg
    (fun x hx => hmem x.1 (List.mem_append_left _ (List.mem_map.mpr ⟨x, hx, rfl⟩)))
    hnd2.1 ⟨k, hkr, hkpre⟩
  have hkeys1 := nodup_keys_filter m.requests
    (fun e => e.1 ∉ pre.map (fun x => x.1)) hkeys
  have hfind : requests_find (m.requests.filter (fun e => e.1 ∉ pre.map (fun x => x.1))) k
      = some r := by
    apply requests_find_of_mem _ _ _ hkeys1
    rw [List.mem_filter]
    exact ⟨hkr, by simpa using hkpre⟩
  have herase := requests_erase_eq_filter _ k hkeys1
  have hrest : ((m.requests.filter (fun e => e.1 ∉ pre.map (fun x => x.1))).filter
      (fun e => e.1 ≠ k)).filter (fun e => e.2 ≠ r)
        = m.requests.filter (fun e => e.2 ≠ r) := by
    rw [List.filter_filter, List.filter_filter]
    apply List.filter_congr
    intro e he
    have hi := hiff e he
    simp only [List.mem_append, List.mem_cons] at hi
    rw [Bool.eq_iff_iff]
    simp only [Bool.and_eq_true, decide_eq_true_eq, ne_eq, decide_not, Bool.not_eq_true',
      decide_eq_false_iff_not]
    tauto
  have hcancelled : ((m.requests.filter (fun e => e.1 ∉ pre.map (fun x => x.1))).filter
      (fun e => e.1 ≠ k)).filter (fun e => e.2 = r)
        = m.requests.filter (fun e => e.2 = r ∧ e.1 ∈ post.map (fun x => x.1)) := by
    rw [List.filter_filter, List.filter_filter]
    apply List.filter_congr
    intro e he
    have hi := hiff e he
    simp only [List.mem_append, List.mem_cons] at hi
    have hp := hpostpre e.1
    have hkpost := hnd3.1
    rw [Bool.eq_iff_iff]
    simp only [Bool.and_eq_true, decide_eq_true_eq, ne_eq, decide_not, Bool.not_eq_true',
      decide_eq_false_iff_not]
    have hk2 : e.1 = k → e.1 ∉ post.map (fun x => x.1) := fun h2 h4 => hkpost (h2 ▸ h4)
    tauto
  have hunknown : ∀ x ∈ post,
      requests_find (m.requests.filter (fun e => e.2 ≠ r)) x.1 = none := by
    intro x hx
    apply requests_find_none_of_not_mem
    intro hin
    obtain ⟨e, he, hek⟩ := List.mem_map.mp hin
    rw [List.mem_filter] at he
    have hi := (hiff e he.1).mpr (by
      rw [hek]
      exact List.mem_append_right _ (List.mem_cons_of_mem _ (List.mem_map.mpr ⟨x, hx, rfl⟩)))
    have := he.2
    simp [hi] at this
  have hpost := notify_binds_unknown post
    { m with
        requests := m.requests.filter (fun e => e.2 ≠ r),
        trace := m.trace ++ [Event.answer_bind r LocateStatus.LocateHere obj]
          ++ (m.requests.filter
                (fun e => e.2 = r ∧ e.1 ∈ post.map (fun x => x.1))).map
              (fun e => Event.orb_cancel e.1) } hunknown
  constructor
  · rw [notify_binds_append, hsilent]
    simp only [notify_binds]
    rw [notify_bind_here _ k r obj hfind]
    simp only [herase, hrest, hcancelled]
  · rw [notify_binds_append, hsilent]
    simp only [notify_binds]
    rw [notify_bind_here _ k r obj hfind]
    simp only [herase, hrest, hcancelled]
    rw [hpost]

theorem first_positive_split :
    ∀ (rs : List (Nat × LocateStatus × Option Nat)),
      (∀ x ∈ rs, x.2.1 ≠ LocateStatus.LocateHere) ∨
      ∃ pre k obj post, rs = pre ++ (k, LocateStatus.LocateHere, obj) :: post ∧
        ∀ x ∈ pre, x.2.1 ≠ LocateStatus.LocateHere := by
  intro rs
  induction rs with
  | nil => left; simp
  | cons x rest ih =>
    obtain ⟨k, stat, obj⟩ := x
    by_cases hs : stat = LocateStatus.LocateHere
    · right
      subst hs
      exact ⟨[], k, obj, rest, rfl, by simp⟩
    · rcases ih with h | ⟨pre, k2, obj2, post, heq, hpre⟩
      · left
        intro y hy
        rcases List.mem_cons.mp hy with h1 | h1
        · rw [h1]; exact hs
        · exact h y h1
      · right
        refine ⟨(k, stat, obj) :: pre, k2, obj2, post, by rw [heq]; rfl, ?_⟩
        intro y hy
        rcases List.mem_cons.mp hy with h1 | h1
        · rw [h1]; exact hs
        · exact hpre y h1

theorem bind_answers_append (r : Nat) (a b : List Event) :
    bind_answers r (a ++ b) = bind_answers r a ++ bind_answers r b := by
  simp [bind_answers, List.filter_append]

theorem bind_answers_cancels (r : Nat) (ks : List Nat) :
    bind_answers r (ks.map (fun k => Event.orb_cancel k)) = [] := by
  induction ks with
  | nil => simp [bind_answers]
  | cons k rest ih =>
    simp only [bind_answers, List.map_cons] at ih ⊢
    rw [List.filter_cons_of_neg (by simp), ih]

/-! ### The handle invariant -/

theorem svmap_find_insert_same (l : List (SvId × SvInf)) (k : SvId) (v : SvInf)
    (h : svmap_find l k = none) : svmap_find (svmap_insert l k v) k = some v := by
  induction l with
  | nil => simp [svmap_insert, svmap_find]
  | cons a rest ih =>
    obtain ⟨k0, v0⟩ := a
    by_cases hk : k0 = k
    · simp [svmap_find, hk] at h
    · simp only [svmap_find, hk, if_false] at h
      by_cases hlt : keyLt k k0 = true
      · simp [svmap_insert, hlt, svmap_find]
      · simp [svmap_insert, hlt, svmap_find, hk, ih h]

theorem svmap_at_index_new (l : List (SvId × SvInf)) (k : SvId)
    (h : svmap_find l k = none) : svmap_at (svmap_index l k) k = SvInf.new := by
  simp [svmap_at, svmap_index, h, svmap_find_insert_same l k SvInf.new h]

theorem extract_svid_escape (s tail : List Nat) (htail : tail = [] ∨ ∃ r, tail = slash :: r) :
    extract_svid (escape_id s ++ tail) = some s := by
  have h1 := scan_loop_escape s tail htail [] (escape_id s ++ tail).length 0 (by decide)
    (le_refl _)
  have h2 := unescape_loop_escape s tail [] (escape_id s).length [] (le_refl _)
  simp only [List.nil_append, List.length_nil, Nat.zero_add] at h1 h2
  simp only [extract_svid, h1, h2]

/-! ### Records reached through `svmap[svid]` -/

theorem svmap_find_index (l : List (SvId × SvInf)) (k : SvId) :
    svmap_find (svmap_index l k) k = some (svmap_at (svmap_index l k) k) := by
  cases h : svmap_find l k with
  | some v => simp [svmap_index, svmap_at, h]
  | none =>
    have h2 := svmap_find_insert_same l k SvInf.new h
    simp [svmap_index, svmap_at, h, h2]

theorem svmap_index_index (l : List (SvId × SvInf)) (k : SvId) :
    svmap_index (svmap_index l k) k = svmap_index l k :=
  svmap_index_of_find _ _ _ (svmap_find_index l k)

theorem svmap_find_insert_other (l : List (SvId × SvInf)) (k k2 : SvId) (v : SvInf)
    (hne : k2 ≠ k) : svmap_find (svmap_insert l k v) k2 = svmap_find l k2 := by
  have hkk : ¬ (k = k2) := fun h => hne h.symm
  induction l with
  | nil => simp [svmap_insert, svmap_find, hkk]
  | cons a rest ih =>
    obtain ⟨k0, v0⟩ := a
    by_cases hlt : keyLt k k0 = true
    · simp [svmap_insert, hlt, svmap_find, hkk]
    · by_cases hk : k0 = k2
      · subst hk
        simp [svmap_insert, hlt, svmap_find]
      · simp [svmap_insert, hlt, svmap_find, hk, ih]

theorem svmap_find_index_other (l : List (SvId × SvInf)) (k k2 : SvId) (hne : k2 ≠ k) :
    svmap_find (svmap_index l k) k2 = svmap_find l k2 := by
  unfold svmap_index
  split
  · rfl
  · exact svmap_find_insert_other l k k2 _ hne

/-! ### The waiting loop of `stop` -/

theorem stop_signal_running (m : Mediator) (svid : SvId) (inf : SvInf) (p : Nat)
    (hrec : svmap_find m.svmap svid = some inf)
    (hst : inf.pstate = PState.Started ∨ inf.pstate = PState.Active ∨
      inf.pstate = PState.Holding)
    (hp : inf.proc = some p) :
    stop_signal m svid
      = some (none, { m with svmap := (svmap_set m.svmap svid
                                { inf with pstate := PState.Stopped }),
                             trace := m.trace ++ [Event.proc_terminate p] }) := by
  have h1 := svmap_index_of_find _ _ _ hrec
  have h2 := svmap_at_of_find _ _ _ hrec
  rcases hst with h | h | h <;> simp only [stop_signal, h1, h2, h, hp, Mediator.emit]

theorem stop_wait_idle (svid : SvId) (inf : SvInf) (p : Nat) (hp : inf.proc = some p)
    (late : Nat) (rest : List (Nat × List (Env × Op))) (hlate : 5000 ≤ late) :
    ∀ (early : List Nat) (m : Mediator), svmap_find m.svmap svid = some inf →
      (∀ e ∈ early, e < 5000) →
      stop_wait svid (early.map (fun e => (e, [])) ++ (late, []) :: rest) m
        = some { m with trace := m.trace
            ++ List.replicate (early.length + 1) Event.perform_work } := by
  intro early
  induction early with
  | nil =>
    intro m hrec _
    have h1 := svmap_index_of_find _ _ _ hrec
    simp [stop_wait, run, h1, timeout_done, hlate]
  | cons e es ih =>
    intro m hrec hearly
    have h1 := svmap_index_of_find _ _ _ hrec
    have h2 := svmap_at_of_find _ _ _ hrec
    have he : ¬ (5000 ≤ e) := by
      have := hearly e (List.mem_cons_self _ _)
      omega
    have hrest : ∀ x ∈ es, x < 5000 := fun x hx => hearly x (List.mem_cons_of_mem _ hx)
    have hstep := ih { m with trace := m.trace ++ [Event.perform_work] } hrec hrest
    simp only [Mediator.mk.injEq, List.append_assoc] at hstep
    simp only [List.map_cons, List.cons_append]
    rw [stop_wait]
    simp only [run, h1, h2, hp, timeout_done, he, decide_False, Bool.false_or, reduceCtorEq,
      Bool.false_eq_true, if_false]
    rw [hstep]
    simp only [List.append_assoc, List.length_cons, List.singleton_append]
    rw [List.replicate_succ (n := es.length + 1)]

/-! ### The exit callback -/

theorem svmap_set_self (l : List (SvId × SvInf)) (k : SvId) (v : SvInf)
    (h : svmap_find l k = some v) : svmap_set l k v = l := by
  induction l with
  | nil => rfl
  | cons e rest ih =>
    obtain ⟨k0, v0⟩ := e
    by_cases hk : k0 = k
    · simp only [svmap_find, hk, if_true, Option.some.injEq] at h
      simp [svmap_set, hk, h]
    · simp only [svmap_find, hk, if_false] at h
      simp [svmap_set, hk, ih h]

theorem callback_gc_svmap_find (env : Env) (l : List (SvId × SvInf)) (k : SvId) :
    svmap_find (callback_gc env l).1 k
      = (svmap_find l k).map (fun v =>
          match v.proc with
          | some q => if env.finished q then { v with proc := none } else v
          | none => v) := by
  induction l with
  | nil => simp [callback_gc, svmap_find]
  | cons e rest ih =>
    obtain ⟨k0, v0⟩ := e
    cases hq : v0.proc with
    | none =>
      by_cases hk : k0 = k
      · simp [callback_gc, hq, svmap_find, hk]
      · simp [callback_gc, hq, svmap_find, hk, ih]
    | some q =>
      by_cases hf : env.finished q = true
      · by_cases hk : k0 = k
        · simp [callback_gc, hq, svmap_find, hk, hf]
        · simp [callback_gc, hq, svmap_find, hk, hf, ih]
      · by_cases hk : k0 = k
        · simp [callback_gc, hq, svmap_find, hk, hf]
        · simp [callback_gc, hq, svmap_find, hk, hf, ih]

theorem callback_collected_find (env : Env) (m : Mediator) (p : Nat) (svid : SvId)
    (inf : SvInf) (hkeys : (m.svmap.map Prod.fst).Nodup)
    (hfind : callback_find m.svmap p = some (svid, inf))
    (hlive : env.haveThreads = true → env.finished p = false) :
    callback_find (callback_collected env m).svmap p = some (svid, inf) ∧
    svmap_find (callback_collected env m).svmap svid = some inf := by
  by_cases ht : env.haveThreads = true
  · have h1 := callback_gc_find env m.svmap p svid inf (hlive ht) hfind
    have hk : ((callback_gc env m.svmap).1.map Prod.fst).Nodup := by
      rw [callback_gc_keys]; exact hkeys
    simp only [callback_collected, ht, if_true]
    exact ⟨h1, callback_find_key _ p svid inf hk h1⟩
  · simp only [callback_collected, ht, Bool.false_eq_true, if_false]
    exact ⟨hfind, callback_find_key _ p svid inf hkeys hfind⟩




/-! ### The loops of `shutdown_server` -/

theorem shutdown_signals_eq (l : List (SvId × SvInf)) :
    shutdown_signals l = (l.filterMap (fun e => e.2.proc)).map Event.proc_terminate := by
  induction l with
  | nil => rfl
  | cons e rest ih =>
    obtain ⟨k, v⟩ := e
    cases hq : v.proc <;> simp [shutdown_signals, hq, ih, List.filterMap_cons]

theorem shutdown_report_eq (env : Env) (l : List (SvId × SvInf)) :
    shutdown_report env l
      = (l.filter (fun e => shutdown_pending env e.2)).map
          (fun e => Event.cerr_cannot_be_stopped e.1) := by
  induction l with
  | nil => rfl
  | cons e rest ih =>
    obtain ⟨k, v⟩ := e
    by_cases hq : shutdown_pending env v = true
    · simp [shutdown_report, hq, ih, List.filter_cons]
    · simp [shutdown_report, hq, ih, List.filter_cons]

theorem shutdown_pending_iff (env : Env) (inf : SvInf) :
    shutdown_pending env inf = true
      ↔ ∃ p, inf.proc = some p ∧ (env.haveThreads = true → env.finished p = false) := by
  cases hq : inf.proc with
  | none => simp [shutdown_pending, hq]
  | some q =>
    by_cases ht : env.haveThreads = true
    · simp [shutdown_pending, hq, ht]
    · simp [shutdown_pending, hq, ht]

theorem shutdown_wait_idle (t1 : Int) (late : Env) (rest : List (Env × List (Env × Op))) :
    ∀ (early : List Env) (m : Mediator),
      (∀ e ∈ early, m.svmap.any (fun r => shutdown_pending e r.2) = true ∧ e.now - t1 < 60) →
      (m.svmap.any (fun r => shutdown_pending late r.2) = true ∧ 60 ≤ late.now - t1 →
        shutdown_wait t1 (early.map (fun e => (e, [])) ++ (late, []) :: rest) m
          = some (m.emit (List.replicate (early.length + 1) Event.perform_work))) ∧
      (m.svmap.any (fun r => shutdown_pending late r.2) = false →
        shutdown_wait t1 (early.map (fun e => (e, [])) ++ (late, []) :: rest) m
          = some (m.emit (List.replicate early.length Event.perform_work))) := by
  intro early
  induction early with
  | nil =>
    intro m _
    constructor
    · rintro ⟨hpend, hlate⟩
      have hn : ¬ (late.now - t1 < 60) := not_lt.mpr hlate
      simp [shutdown_wait, hpend, hn, run, Mediator.emit]
    · intro hpend
      simp [shutdown_wait, hpend, Mediator.emit]
  | cons e es ih =>
    intro m hearly
    have he := hearly e (List.mem_cons_self _ _)
    have hrest : ∀ x ∈ es,
        (m.emit [Event.perform_work]).svmap.any (fun r => shutdown_pending x r.2) = true ∧
          x.now - t1 < 60 :=
      fun x hx => hearly x (List.mem_cons_of_mem _ hx)
    have hstep := ih (m.emit [Event.perform_work]) hrest
    have hrep : ∀ n : Nat, (m.emit [Event.perform_work]).emit (List.replicate n Event.perform_work)
        = m.emit (List.replicate (n + 1) Event.perform_work) := by
      intro n
      simp only [Mediator.emit, List.append_assoc, List.singleton_append,
        List.replicate_succ]
    constructor
    · intro h
      have h3 := hstep.1 h
      rw [hrep] at h3
      simp only [List.map_cons, List.cons_append, List.length_cons]
      rw [shutdown_wait]
      simp only [he.1, he.2, if_true, run]
      exact h3
    · intro h
      have h3 := hstep.2 h
      rw [hrep] at h3
      simp only [List.map_cons, List.cons_append, List.length_cons]
      rw [shutdown_wait]
      simp only [he.1, he.2, if_true, run]
      exact h3


/-! ### Lock order -/

theorem held_after_append (h : List Lock) (a b : List LockEv) :
    held_after h (a ++ b) = held_after (held_after h a) b := by
  induction a generalizing h with
  | nil => rfl
  | cons e rest ih =>
    cases e with
    | acquire l => rw [List.cons_append, held_after, held_after, ih]
    | release l => rw [List.cons_append, held_after, held_after, ih]

theorem code_lock_order_append (h : List Lock) (a b : List LockEv) :
    code_lock_order h (a ++ b)
      = (code_lock_order h a && code_lock_order (held_after h a) b) := by
  induction a generalizing h with
  | nil => simp [code_lock_order, held_after]
  | cons e rest ih =>
    cases e with
    | acquire l =>
      rw [List.cons_append]
      simp only [code_lock_order, held_after, ih, Bool.and_assoc]
    | release l =>
      rw [List.cons_append]
      simp only [code_lock_order, held_after, ih]

theorem spec_lock_order_append (h : List Lock) (a b : List LockEv) :
    spec_lock_order h (a ++ b)
      = (spec_lock_order h a && spec_lock_order (held_after h a) b) := by
  induction a generalizing h with
  | nil => simp [spec_lock_order, held_after]
  | cons e rest ih =>
    cases e with
    | acquire l =>
      rw [List.cons_append]
      simp only [spec_lock_order, held_after, ih, Bool.and_assoc]
    | release l =>
      rw [List.cons_append]
      simp only [spec_lock_order, held_after, ih]

theorem record_block_order (svid : SvId) (leaves : Bool) :
    code_lock_order [] (record_block svid leaves) = true ∧
    spec_lock_order [] (record_block svid leaves) = true ∧
    (leaves = true → held_after [] (record_block svid leaves) = []) := by
  cases leaves <;>
    simp [record_block, auto_lock, code_lock_order, spec_lock_order, held_after, holds_record]

theorem create_server_locks_top (env : Env) (m : Mediator) (svid : SvId) :
    code_lock_order [] (create_server_locks env m svid) = true ∧
    spec_lock_order [] (create_server_locks env m svid) = true := by
  cases hr : (create_server env m svid).isSome <;>
    simp [create_server_locks, auto_lock, code_lock_order, spec_lock_order, held_after,
      holds_record, hr]

theorem create_server_locks_nested (env : Env) (m : Mediator) (svid k : SvId) :
    code_lock_order [Lock.record k, Lock.svmap_lock] (create_server_locks env m svid) = true ∧
    ((create_server env m svid).isSome = true →
      held_after [Lock.record k, Lock.svmap_lock] (create_server_locks env m svid)
        = [Lock.record k, Lock.svmap_lock]) := by
  cases hr : (create_server env m svid).isSome <;>
    simp [create_server_locks, auto_lock, code_lock_order, held_after, holds_record, hr]

theorem lock_order_tail (h : List Lock) (l : Lock) (b : Bool) :
    code_lock_order h (if b then [LockEv.release l] else []) = true ∧
    spec_lock_order h (if b then [LockEv.release l] else []) = true := by
  cases b <;> simp [code_lock_order, spec_lock_order]

theorem scan_locks_order (keys : List SvId) :
    code_lock_order [Lock.svmap_lock] (scan_locks keys) = true ∧
    spec_lock_order [Lock.svmap_lock] (scan_locks keys) = true ∧
    held_after [Lock.svmap_lock] (scan_locks keys) = [Lock.svmap_lock] := by
  induction keys with
  | nil => simp [scan_locks, code_lock_order, spec_lock_order, held_after]
  | cons k rest ih =>
    simp [scan_locks, code_lock_order, spec_lock_order, held_after, ih]

theorem callback_find_locks_order (l : List (SvId × SvInf)) (p : Nat) :
    code_lock_order [Lock.svmap_lock] (callback_find_locks l p) = true ∧
    spec_lock_order [Lock.svmap_lock] (callback_find_locks l p) = true ∧
    held_after [Lock.svmap_lock] (callback_find_locks l p) = [Lock.svmap_lock] := by
  induction l with
  | nil => simp [callback_find_locks, code_lock_order, spec_lock_order, held_after]
  | cons e rest ih =>
    obtain ⟨k, inf⟩ := e
    by_cases hp : inf.proc = some p
    · simp [callback_find_locks, code_lock_order, spec_lock_order, held_after, hp]
    · simp [callback_find_locks, code_lock_order, spec_lock_order, held_after, hp, ih]

theorem stop_wait_locks_order (svid : SvId) (n : Nat) :
    code_lock_order [] (stop_wait_locks svid n) = true ∧
    spec_lock_order [] (stop_wait_locks svid n) = true ∧
    held_after [] (stop_wait_locks svid n) = [] := by
  induction n with
  | zero => simp [stop_wait_locks, code_lock_order, spec_lock_order, held_after]
  | succ n ih =>
    have hb := record_block_order svid true
    simp [stop_wait_locks, code_lock_order_append, spec_lock_order_append, held_after_append,
      hb.1, hb.2.1, hb.2.2, ih]

theorem shutdown_server_locks_order (scans : List (List SvId)) :
    code_lock_order [] (shutdown_server_locks scans) = true ∧
    spec_lock_order [] (shutdown_server_locks scans) = true := by
  induction scans with
  | nil => simp [shutdown_server_locks, code_lock_order, spec_lock_order]
  | cons keys rest ih =>
    have hs := scan_locks_order keys
    simp [shutdown_server_locks, auto_lock, code_lock_order, spec_lock_order, held_after,
      code_lock_order_append, spec_lock_order_append, held_after_append, holds_record,
      hs.1, hs.2.1, hs.2.2, ih]

theorem bind_alloc_locks_order (l : List (SvId × SvInf)) :
    code_lock_order [Lock.svmap_lock] (bind_alloc_locks l) = true ∧
    held_after [Lock.svmap_lock] (bind_alloc_locks l) = [Lock.svmap_lock] := by
  induction l with
  | nil => simp [bind_alloc_locks, code_lock_order, held_after]
  | cons e rest ih =>
    obtain ⟨k, inf⟩ := e
    by_cases hst : inf.pstate = PState.Active
    · simp [bind_alloc_locks, auto_lock, code_lock_order, held_after, holds_record,
        code_lock_order_append, held_after_append, hst, ih]
    · simp [bind_alloc_locks, auto_lock, code_lock_order, held_after, holds_record,
        code_lock_order_append, held_after_append, hst, ih]

theorem bind_send_locks_order (l : List (SvId × SvInf)) :
    ∀ msgids : List Nat,
      code_lock_order [Lock.svmap_lock] (bind_send_locks l msgids) = true := by
  induction l with
  | nil => intro msgids; simp [bind_send_locks, code_lock_order]
  | cons e rest ih =>
    intro msgids
    obtain ⟨k, inf⟩ := e
    by_cases hst : inf.pstate = PState.Active
    · cases ha : inf.ior.addr with
      | none =>
        simp [bind_send_locks, auto_lock, code_lock_order, held_after, holds_record, hst, ha]
      | some a =>
        cases hm : msgids.getLast? with
        | none =>
          simp [bind_send_locks, auto_lock, code_lock_order, held_after, holds_record, hst, ha,
            hm]
        | some x =>
          simp [bind_send_locks, auto_lock, code_lock_order, held_after, holds_record,
            code_lock_order_append, held_after_append, hst, ha, hm, ih]
    · simp [bind_send_locks, auto_lock, code_lock_order, held_after, holds_record,
        code_lock_order_append, held_after_append, hst, ih]

theorem record_scope_order (k : SvId) (body rest : List LockEv)
    (hbody : code_lock_order [Lock.record k, Lock.svmap_lock] body = true)
    (hbal : held_after [Lock.record k, Lock.svmap_lock] body = [Lock.record k, Lock.svmap_lock]) :
    code_lock_order [Lock.svmap_lock] (auto_lock (Lock.record k) body true ++ rest)
      = code_lock_order [Lock.svmap_lock] rest ∧
    held_after [Lock.svmap_lock] (auto_lock (Lock.record k) body true ++ rest)
      = held_after [Lock.svmap_lock] rest := by
  have h1 : auto_lock (Lock.record k) body true ++ rest
      = [LockEv.acquire (Lock.record k)] ++ (body ++ ([LockEv.release (Lock.record k)] ++ rest)) := by
    simp [auto_lock]
  rw [h1]
  constructor
  · rw [code_lock_order_append, code_lock_order_append, code_lock_order_append]
    have e1 : held_after [Lock.svmap_lock] [LockEv.acquire (Lock.record k)]
        = [Lock.record k, Lock.svmap_lock] := rfl
    have e2 : held_after [Lock.record k, Lock.svmap_lock] [LockEv.release (Lock.record k)]
        = [Lock.svmap_lock] := by simp [held_after]
    have e3 : code_lock_order [Lock.svmap_lock] [LockEv.acquire (Lock.record k)] = true := by
      simp [code_lock_order]
    have e4 : code_lock_order [Lock.record k, Lock.svmap_lock] [LockEv.release (Lock.record k)]
        = true := by simp [code_lock_order]
    rw [e1, hbal, e2, e3, hbody, e4]
    simp
  · rw [held_after_append, held_after_append, held_after_append]
    have e1 : held_after [Lock.svmap_lock] [LockEv.acquire (Lock.record k)]
        = [Lock.record k, Lock.svmap_lock] := rfl
    have e2 : held_after [Lock.record k, Lock.svmap_lock] [LockEv.release (Lock.record k)]
        = [Lock.svmap_lock] := by simp [held_after]
    rw [e1, hbal, e2]

theorem bind_scan_locks_order (env : Env) (id : Nat) (ims : List ImplementationDef) :
    ∀ (m : Mediator) (count : Nat) (queue : Bool),
      code_lock_order [Lock.svmap_lock] (bind_scan_locks env id ims m count queue) = true ∧
      ((bind_scan env id ims m count queue).isSome = true →
        held_after [Lock.svmap_lock] (bind_scan_locks env id ims m count queue)
          = [Lock.svmap_lock]) := by
  induction ims with
  | nil => intro m count queue; simp [bind_scan_locks, code_lock_order, held_after]
  | cons im rest ih =>
    intro m count queue
    by_cases hmode : im.mode = ActivationMode.ActivatePOA
    · by_cases hst : (svmap_at (svmap_index m.svmap im.name) im.name).pstate ≠ PState.Active ∧
          (svmap_at (svmap_index m.svmap im.name) im.name).pstate ≠ PState.Stopped ∧
          (svmap_at (svmap_index m.svmap im.name) im.name).pstate ≠ PState.Holding
      · have hn := create_server_locks_nested env
          { m with svmap := svmap_index m.svmap im.name } im.name im.name
        cases hcs : create_server env { m with svmap := svmap_index m.svmap im.name } im.name with
        | none =>
          have e : bind_scan_locks env id (im :: rest) m count queue
              = [LockEv.acquire (Lock.record im.name)]
                ++ create_server_locks env { m with svmap := svmap_index m.svmap im.name }
                    im.name := by
            simp only [bind_scan_locks, hmode, hst, hcs, ne_eq, not_true_eq_false,
              if_false, and_self, if_true, not_false_eq_true, List.singleton_append]
          have e2 : bind_scan env id (im :: rest) m count queue = none := by
            simp only [bind_scan, hmode, hst, hcs, ne_eq, not_true_eq_false,
              if_false, and_self, if_true, not_false_eq_true]
          rw [e, e2, code_lock_order_append]
          have e1 : held_after [Lock.svmap_lock] [LockEv.acquire (Lock.record im.name)]
              = [Lock.record im.name, Lock.svmap_lock] := rfl
          have e3 : code_lock_order [Lock.svmap_lock] [LockEv.acquire (Lock.record im.name)]
              = true := by simp [code_lock_order]
          rw [e1, e3, hn.1]
          simp
        | some r =>
          obtain ⟨b, m2⟩ := r
          have hbal := hn.2 (by rw [hcs]; rfl)
          cases b with
          | false =>
            have e : bind_scan_locks env id (im :: rest) m count queue
                = auto_lock (Lock.record im.name)
                    (create_server_locks env { m with svmap := svmap_index m.svmap im.name }
                      im.name) true ++ [] := by
              simp only [bind_scan_locks, hmode, hst, hcs, ne_eq, not_true_eq_false,
                if_false, and_self, if_true, not_false_eq_true, List.append_nil]
            have hs := record_scope_order im.name _ [] hn.1 hbal
            rw [e, hs.1, hs.2]
            simp [code_lock_order, held_after]
          | true =>
            have h2 := ih m2 (count + 1) true
            have e : bind_scan_locks env id (im :: rest) m count queue
                = auto_lock (Lock.record im.name)
                    (create_server_locks env { m with svmap := svmap_index m.svmap im.name }
                      im.name) true ++ bind_scan_locks env id rest m2 (count + 1) true := by
              simp only [bind_scan_locks, hmode, hst, hcs, ne_eq, not_true_eq_false,
                if_false, and_self, if_true, not_false_eq_true]
            have e2 : bind_scan env id (im :: rest) m count queue
                = bind_scan env id rest m2 (count + 1) true := by
              simp only [bind_scan, hmode, hst, hcs, ne_eq, not_true_eq_false,
                if_false, and_self, if_true, not_false_eq_true]
            have hs := record_scope_order im.name _
              (bind_scan_locks env id rest m2 (count + 1) true) hn.1 hbal
            rw [e, e2, hs.1, hs.2]
            exact h2
      · have h2 := ih { m with svmap := svmap_index m.svmap im.name } (count + 1) queue
        have e : bind_scan_locks env id (im :: rest) m count queue
            = auto_lock (Lock.record im.name) [] true
              ++ bind_scan_locks env id rest { m with svmap := svmap_index m.svmap im.name }
                  (count + 1) queue := by
          simp only [bind_scan_locks, hmode, hst, ne_eq, not_true_eq_false, if_false]
        have e2 : bind_scan env id (im :: rest) m count queue
            = bind_scan env id rest { m with svmap := svmap_index m.svmap im.name }
                (count + 1) queue := by
          simp only [bind_scan, hmode, hst, ne_eq, not_true_eq_false, if_false]
        have hs := record_scope_order im.name [] (bind_scan_locks env id rest
          { m with svmap := svmap_index m.svmap im.name } (count + 1) queue) rfl rfl
        rw [e, e2, hs.1, hs.2]
        exact h2
    · have h2 := ih m count queue
      have e : bind_scan_locks env id (im :: rest) m count queue
          = bind_scan_locks env id rest m count queue := by
        simp only [bind_scan_locks, hmode, ne_eq, not_false_eq_true, if_true]
      have e2 : bind_scan env id (im :: rest) m count queue
          = bind_scan env id rest m count queue := by
        simp only [bind_scan, hmode, ne_eq, not_false_eq_true, if_true]
      rw [e, e2]
      exact h2


theorem svmap_scope_order (body : List LockEv) (leaves : Bool) :
    (code_lock_order [Lock.svmap_lock] body = true →
      code_lock_order [] (auto_lock Lock.svmap_lock body leaves) = true) ∧
    (spec_lock_order [Lock.svmap_lock] body = true →
      spec_lock_order [] (auto_lock Lock.svmap_lock body leaves) = true) := by
  have h1 : auto_lock Lock.svmap_lock body leaves
      = [LockEv.acquire Lock.svmap_lock]
        ++ (body ++ if leaves then [LockEv.release Lock.svmap_lock] else []) := by
    simp [auto_lock]
  have e1 : held_after [] [LockEv.acquire Lock.svmap_lock] = [Lock.svmap_lock] := rfl
  have e2 : code_lock_order [] [LockEv.acquire Lock.svmap_lock] = true := by
    simp [code_lock_order, holds_record]
  have e3 : spec_lock_order [] [LockEv.acquire Lock.svmap_lock] = true := by
    simp [spec_lock_order, holds_record]
  constructor
  · intro hb
    rw [h1, code_lock_order_append, code_lock_order_append, e1, e2, hb,
      (lock_order_tail _ _ _).1]
    rfl
  · intro hb
    rw [h1, spec_lock_order_append, spec_lock_order_append, e1, e3, hb,
      (lock_order_tail _ _ _).2]
    rfl

theorem record_scope_tail (k : SvId) (body : List LockEv) (leaves : Bool) :
    (code_lock_order [Lock.record k, Lock.svmap_lock] body = true →
      code_lock_order [Lock.svmap_lock] (auto_lock (Lock.record k) body leaves) = true) ∧
    (spec_lock_order [Lock.record k, Lock.svmap_lock] body = true →
      spec_lock_order [Lock.svmap_lock] (auto_lock (Lock.record k) body leaves) = true) := by
  have h1 : auto_lock (Lock.record k) body leaves
      = [LockEv.acquire (Lock.record k)]
        ++ (body ++ if leaves then [LockEv.release (Lock.record k)] else []) := by
    simp [auto_lock]
  have e1 : held_after [Lock.svmap_lock] [LockEv.acquire (Lock.record k)]
      = [Lock.record k, Lock.svmap_lock] := rfl
  have e2 : code_lock_order [Lock.svmap_lock] [LockEv.acquire (Lock.record k)] = true := by
    simp [code_lock_order]
  have e3 : spec_lock_order [Lock.svmap_lock] [LockEv.acquire (Lock.record k)] = true := by
    simp [spec_lock_order]
  constructor
  · intro hb
    rw [h1, code_lock_order_append, code_lock_order_append, e1, e2, hb,
      (lock_order_tail _ _ _).1]
    rfl
  · intro hb
    rw [h1, spec_lock_order_append, spec_lock_order_append, e1, e3, hb,
      (lock_order_tail _ _ _).2]
    rfl

theorem nested_block_order (k : SvId) (body : List LockEv) (leaves : Bool)
    (hb : code_lock_order [Lock.record k, Lock.svmap_lock] body = true) :
    code_lock_order []
      (auto_lock Lock.svmap_lock (auto_lock (Lock.record k) body leaves) leaves) = true :=
  (svmap_scope_order _ _).1 ((record_scope_tail k body leaves).1 hb)

theorem requests_scope_order (body : List LockEv) (leaves : Bool) :
    (code_lock_order [Lock.requests_lock] body = true →
      code_lock_order [] (auto_lock Lock.requests_lock body leaves) = true) ∧
    (spec_lock_order [Lock.requests_lock] body = true →
      spec_lock_order [] (auto_lock Lock.requests_lock body leaves) = true) := by
  have h1 : auto_lock Lock.requests_lock body leaves
      = [LockEv.acquire Lock.requests_lock]
        ++ (body ++ if leaves then [LockEv.release Lock.requests_lock] else []) := by
    simp [auto_lock]
  have e1 : held_after [] [LockEv.acquire Lock.requests_lock] = [Lock.requests_lock] := rfl
  have e2 : code_lock_order [] [LockEv.acquire Lock.requests_lock] = true := by
    simp [code_lock_order, holds_record]
  have e3 : spec_lock_order [] [LockEv.acquire Lock.requests_lock] = true := by
    simp [spec_lock_order, holds_record]
  constructor
  · intro hb
    rw [h1, code_lock_order_append, code_lock_order_append, e1, e2, hb,
      (lock_order_tail _ _ _).1]
    rfl
  · intro hb
    rw [h1, spec_lock_order_append, spec_lock_order_append, e1, e3, hb,
      (lock_order_tail _ _ _).2]
    rfl

theorem force_activation_locks_order (env : Env) (m : Mediator) (svid : SvId) :
    code_lock_order [] (force_activation_locks env m svid) = true := by
  unfold force_activation_locks
  apply nested_block_order
  cases (svmap_at (svmap_index m.svmap svid) svid).pstate with
  | Inactive => exact (create_server_locks_nested _ _ _ _).1
  | Started => rfl
  | Active => rfl
  | Holding => rfl
  | Failed => exact (create_server_locks_nested _ _ _ _).1
  | Stopped =>
    by_cases hp : (svmap_at (svmap_index m.svmap svid) svid).proc ≠ none
    · rw [if_pos hp]
      rfl
    · rw [if_neg hp]
      exact (create_server_locks_nested _ _ _ _).1

theorem has_object_locks_order (env : Env) (m : Mediator) (obj : Option ObjRef) :
    code_lock_order [] (has_object_locks env m obj) = true ∧
    spec_lock_order [] (has_object_locks env m obj) = true := by
  unfold has_object_locks
  repeat' split
  all_goals exact ⟨rfl, rfl⟩

theorem invoke_locks_order (env : Env) (m : Mediator) (id : Nat) (obj : ObjRef) (req pr : Nat)
    (response_exp : Bool) :
    code_lock_order [] (invoke_locks env m id obj req pr response_exp) = true := by
  unfold invoke_locks
  split
  · rfl
  · split
    · exact (svmap_scope_order [] true).1 rfl
    · next svid inf hf =>
      apply nested_block_order
      by_cases h1 : inf.pstate = PState.Stopped ∨ inf.pstate = PState.Holding
      · rw [if_pos h1]
        rfl
      · rw [if_neg h1]
        by_cases h2 : inf.pstate ≠ PState.Active
        · rw [if_pos h2]
          exact (create_server_locks_nested _ _ _ _).1
        · rw [if_neg h2]
          by_cases h3 : (response_exp && m.forward) = true
          · rw [if_pos h3]
            rfl
          · rw [if_neg h3]
            by_cases h4 : response_exp = true
            · rw [if_pos h4]
              cases (invoke env m id obj req pr response_exp).isSome <;>
                simp [auto_lock, code_lock_order, holds_record]
            · rw [if_neg h4]
              rfl

theorem bind_locks_order (env : Env) (m : Mediator) (id repoid tag : Nat)
    (addr : Option Bool) :
    code_lock_order [] (bind_locks env m id repoid tag addr) = true := by
  unfold bind_locks
  by_cases ha : addr = some false
  · rw [if_pos ha]
    rfl
  · rw [if_neg ha]
    split
    · rfl
    · next imr himr =>
      apply (svmap_scope_order _ _).1
      have hscan := bind_scan_locks_order env id (imr.find_by_repoid_tag repoid tag) m 0 false
      rw [code_lock_order_append, hscan.1, Bool.true_and]
      cases hb : bind_scan env id (imr.find_by_repoid_tag repoid tag) m 0 false with
      | none => rfl
      | some r =>
        have hbal := hscan.2 (by rw [hb]; rfl)
        rw [hbal]
        cases r with
        | answered m1 => rfl
        | done m1 count queue =>
          by_cases hc : count = 0
          · simp only [hc, if_true]
            rfl
          · by_cases hq : queue = true
            · simp only [hc, hq, if_false, if_true]
              rfl
            · simp only [hc, hq, if_false, Bool.false_eq_true]
              rw [code_lock_order_append, (bind_alloc_locks_order _).1,
                (bind_alloc_locks_order _).2, bind_send_locks_order]
              rfl

theorem notify_locks_order (m : Mediator) (id : Nat) (ev : Reply) :
    code_lock_order [] (notify_locks m id ev) = true ∧
    spec_lock_order [] (notify_locks m id ev) = true := by
  have hs : ∀ b : Bool, code_lock_order [] (auto_lock Lock.requests_lock [] b) = true ∧
      spec_lock_order [] (auto_lock Lock.requests_lock [] b) = true :=
    fun b => ⟨(requests_scope_order [] b).1 rfl, (requests_scope_order [] b).2 rfl⟩
  have hc : code_lock_order [] (auto_lock Lock.requests_lock cancel_locks true) = true ∧
      spec_lock_order [] (auto_lock Lock.requests_lock cancel_locks true) = true := by
    constructor <;> decide
  unfold notify_locks
  repeat' split
  all_goals
    first
    | exact hc
    | exact hs _

theorem callback_locks_order (env : Env) (m : Mediator) (proc : Nat) (exited : Bool) :
    code_lock_order [] (callback_locks env m proc exited) = true ∧
    spec_lock_order [] (callback_locks env m proc exited) = true := by
  unfold callback_locks
  have hgc : code_lock_order [Lock.svmap_lock]
        (if env.haveThreads then scan_locks (m.svmap.map Prod.fst) else []) = true ∧
      spec_lock_order [Lock.svmap_lock]
        (if env.haveThreads then scan_locks (m.svmap.map Prod.fst) else []) = true ∧
      held_after [Lock.svmap_lock]
        (if env.haveThreads then scan_locks (m.svmap.map Prod.fst) else [])
          = [Lock.svmap_lock] := by
    by_cases ht : env.haveThreads = true
    · rw [if_pos ht]
      exact scan_locks_order _
    · rw [if_neg ht]
      exact ⟨rfl, rfl, rfl⟩
  have hfl := callback_find_locks_order (callback_collected env m).svmap proc
  have hfound : code_lock_order [Lock.svmap_lock]
        (match callback_find (callback_collected env m).svmap proc with
          | none => []
          | some (k, _) => auto_lock (Lock.record k) [] (callback env m proc exited).isSome)
          = true ∧
      spec_lock_order [Lock.svmap_lock]
        (match callback_find (callback_collected env m).svmap proc with
          | none => []
          | some (k, _) => auto_lock (Lock.record k) [] (callback env m proc exited).isSome)
          = true := by
    split
    · exact ⟨rfl, rfl⟩
    · exact ⟨(record_scope_tail _ [] _).1 rfl, (record_scope_tail _ [] _).2 rfl⟩
  constructor
  · apply (svmap_scope_order _ _).1
    rw [code_lock_order_append, code_lock_order_append, held_after_append, hgc.1, hgc.2.2,
      hfl.1, hfl.2.2, hfound.1]
    rfl
  · apply (svmap_scope_order _ _).2
    rw [spec_lock_order_append, spec_lock_order_append, held_after_append, hgc.2.1, hgc.2.2,
      hfl.2.1, hfl.2.2, hfound.2]
    rfl

theorem stop_locks_order (m : Mediator) (svid : SvId) (n : Nat) :
    code_lock_order [] (stop_locks m svid n) = true ∧
    spec_lock_order [] (stop_locks m svid n) = true := by
  have hb := record_block_order svid (stop_signal m svid).isSome
  have hb2 := record_block_order svid true
  have hw := stop_wait_locks_order svid n
  unfold stop_locks
  split
  · next m1 hs =>
    have hl : (stop_signal m svid).isSome = true := by rw [hs]; rfl
    have hbal := hb.2.2 hl
    simp only [stop_signal_locks]
    rw [code_lock_order_append, code_lock_order_append, spec_lock_order_append,
      spec_lock_order_append, held_after_append, hbal, hw.2.2, hb.1, hb.2.1, hw.1, hw.2.1,
      hb2.1, hb2.2.1]
    exact ⟨rfl, rfl⟩
  · exact ⟨(record_block_order svid _).1, (record_block_order svid _).2.1⟩


/-! ### The assertion of `create_server` -/

theorem create_server_none_iff (env : Env) (m : Mediator) (svid : SvId) :
    create_server env m svid = none
      ↔ ((svmap_at (svmap_index m.svmap svid) svid).pstate = PState.Stopped ∨
          (svmap_at (svmap_index m.svmap svid) svid).pstate = PState.Holding) := by
  cases hst : (svmap_at (svmap_index m.svmap svid) svid).pstate
  case Stopped => simp [create_server, hst]
  case Holding => simp [create_server, hst]
  case Started => simp [create_server, hst]
  case Active => simp [create_server, hst]
  case Inactive =>
    cases h1 : env.imr with
    | none => simp [create_server, hst, h1]
    | some imr =>
      cases h2 : imr.find_by_name svid with
      | nil => simp [create_server, hst, h1, h2]
      | cons idv tl =>
        by_cases hc : idv.command.length = 0
        · simp [create_server, hst, h1, h2, hc]
        · simp [create_server, hst, h1, h2, hc]
  case Failed =>
    by_cases hb : env.now - (svmap_at (svmap_index m.svmap svid) svid).failed < 30
    · simp [create_server, hst, hb]
    · cases h1 : env.imr with
      | none => simp [create_server, hst, hb, h1]
      | some imr =>
        cases h2 : imr.find_by_name svid with
        | nil => simp [create_server, hst, hb, h1, h2]
        | cons idv tl =>
          by_cases hc : idv.command.length = 0
          · simp [create_server, hst, hb, h1, h2, hc]
          · simp [create_server, hst, hb, h1, h2, hc]

theorem force_activation_isSome (env : Env) (m : Mediator) (svid : SvId) :
    (force_activation env m svid).isSome = true := by
  have hidx := svmap_find_index m.svmap svid
  have hcs : ∀ m0 : Mediator,
      (svmap_at (svmap_index m0.svmap svid) svid).pstate = PState.Inactive →
      (create_server env m0 svid).isSome = true := by
    intro m0 h0
    cases hc : create_server env m0 svid with
    | some r => rfl
    | none =>
      have := (create_server_none_iff env m0 svid).mp hc
      rw [h0] at this
      simp at this
  have hset : ∀ v : SvInf, v.pstate = PState.Inactive →
      (svmap_at (svmap_index (svmap_set (svmap_index m.svmap svid) svid v) svid) svid).pstate
        = PState.Inactive := by
    intro v hv
    have h1 := svmap_find_set_same _ svid _ v hidx
    rw [svmap_index_of_find _ _ _ h1, svmap_at_of_find _ _ _ h1, hv]
  cases hst : (svmap_at (svmap_index m.svmap svid) svid).pstate
  case Inactive =>
    simp only [force_activation, hst]
    apply hcs
    simp only [svmap_index_index, hst]
  case Started => simp [force_activation, hst]
  case Active => simp [force_activation, hst]
  case Holding => simp [force_activation, hst]
  case Failed =>
    simp only [force_activation, hst]
    apply hcs
    exact hset _ rfl
  case Stopped =>
    by_cases hp : (svmap_at (svmap_index m.svmap svid) svid).proc = none
    · simp only [force_activation, hst, hp, ne_eq, not_true_eq_false, if_false]
      apply hcs
      exact hset _ rfl
    · simp [force_activation, hst, hp]

theorem bind_scan_isSome (env : Env) (id : Nat) (ims : List ImplementationDef) :
    ∀ (m : Mediator) (count : Nat) (queue : Bool),
      (bind_scan env id ims m count queue).isSome = true := by
  induction ims with
  | nil => intro m count queue; rfl
  | cons im rest ih =>
    intro m count queue
    by_cases hmode : im.mode = ActivationMode.ActivatePOA
    · by_cases hst : (svmap_at (svmap_index m.svmap im.name) im.name).pstate ≠ PState.Active ∧
          (svmap_at (svmap_index m.svmap im.name) im.name).pstate ≠ PState.Stopped ∧
          (svmap_at (svmap_index m.svmap im.name) im.name).pstate ≠ PState.Holding
      · cases hcs : create_server env { m with svmap := svmap_index m.svmap im.name } im.name with
        | none =>
          have h := (create_server_none_iff env _ im.name).mp hcs
          simp only [svmap_index_index] at h
          rcases h with h | h
          · exact absurd h hst.2.1
          · exact absurd h hst.2.2
        | some r =>
          obtain ⟨b, m2⟩ := r
          cases b with
          | false =>
            simp only [bind_scan, hmode, hst, hcs, ne_eq, not_true_eq_false, if_false,
              and_self, if_true, not_false_eq_true]
            rfl
          | true =>
            simp only [bind_scan, hmode, hst, hcs, ne_eq, not_true_eq_false, if_false,
              and_self, if_true, not_false_eq_true]
            exact ih m2 (count + 1) true
      · simp only [bind_scan, hmode, hst, ne_eq, not_true_eq_false, if_false]
        exact ih _ (count + 1) queue
    · simp only [bind_scan, hmode, ne_eq, not_false_eq_true, if_true]
      exact ih m count queue

/-! ### `bind` without an `Active` record -/

theorem bind_alloc_no_active (id : Nat) :
    ∀ (l : List (SvId × SvInf)) (m : Mediator) (ms : List Nat),
      (∀ e ∈ l, e.2.pstate ≠ PState.Active) → bind_alloc id l m ms = (m, ms) := by
  intro l
  induction l with
  | nil => intro m ms _; rfl
  | cons e rest ih =>
    intro m ms h
    obtain ⟨k, inf⟩ := e
    have h1 : inf.pstate ≠ PState.Active := h (k, inf) (List.mem_cons_self _ _)
    have h2 := ih m ms (fun e he => h e (List.mem_cons_of_mem _ he))
    simp only [bind_alloc, h1, ne_eq, not_false_eq_true, if_true, h2]

theorem bind_send_no_active (repoid tag : Nat) :
    ∀ (l : List (SvId × SvInf)) (m : Mediator) (ms : List Nat),
      (∀ e ∈ l, e.2.pstate ≠ PState.Active) → bind_send repoid tag l m ms = some m := by
  intro l
  induction l with
  | nil => intro m ms _; rfl
  | cons e rest ih =>
    intro m ms h
    obtain ⟨k, inf⟩ := e
    have h1 : inf.pstate ≠ PState.Active := h (k, inf) (List.mem_cons_self _ _)
    have h2 := ih m ms (fun e he => h e (List.mem_cons_of_mem _ he))
    simp only [bind_send, h1, ne_eq, not_false_eq_true, if_true, h2]

/-! ### The exit callback after `_cxx_continue` -/

theorem callback_find_set (l : List (SvId × SvInf)) (p : Nat) (k : SvId) (inf w : SvInf)
    (hkeys : (l.map Prod.fst).Nodup)
    (h : callback_find l p = some (k, inf)) (hw : w.proc = some p) :
    callback_find (svmap_set l k w) p = some (k, w) := by
  induction l with
  | nil => simp [callback_find] at h
  | cons e rest ih =>
    obtain ⟨k0, v0⟩ := e
    simp only [List.map_cons, List.nodup_cons] at hkeys
    by_cases hp : v0.proc = some p
    · simp only [callback_find, hp, if_true, Option.some.injEq, Prod.mk.injEq] at h
      simp [svmap_set, h.1, callback_find, hw]
    · simp only [callback_find, hp, if_false] at h
      have hk : k0 ≠ k := by
        intro hkk
        have hmem := svmap_find_mem_keys rest k inf (callback_find_key rest p k inf hkeys.2 h)
        rw [← hkk] at hmem
        exact hkeys.1 hmem
      simp only [svmap_set, hk, if_false, callback_find, hp]
      exact ih hkeys.2 h


/-! ### Keys that end in an unpaired backslash -/

theorem escape_id_length (s : List Nat) : s.length ≤ (escape_id s).length := by
  induction s with
  | nil => simp [escape_id]
  | cons c s ih =>
    by_cases h : c = backslash ∨ c = slash
    · simp only [escape_id, h, if_true, List.length_cons]; omega
    · simp only [escape_id, h, if_false, List.length_cons]; omega

theorem scan_loop_prefix (s tail : List Nat) :
    ∀ (pre : List Nat) (n j : Nat), j % 2 = 0 →
      ∃ j2, j2 % 2 = 0 ∧
        scan_loop (pre ++ (escape_id s ++ tail)) ((escape_id s).length + n) pre.length j
          = scan_loop (pre ++ (escape_id s ++ tail)) n (pre.length + (escape_id s).length) j2 := by
  induction s with
  | nil =>
    intro pre n j hj
    exact ⟨j, hj, by simp [escape_id]⟩
  | cons c s ih =>
    intro pre n j hj
    by_cases hb : c = backslash
    · subst hb
      have he : escape_id (backslash :: s) = backslash :: backslash :: escape_id s := by
        simp [escape_id]
      rw [he]
      obtain ⟨j2, hj2, h1⟩ := ih (pre ++ [backslash, backslash]) n (j + 1 + 1) (by omega)
      simp only [List.append_assoc, List.cons_append, List.nil_append, List.length_append,
        List.length_cons, List.length_nil] at h1
      have g1 : (pre ++ backslash :: backslash :: (escape_id s ++ tail))[pre.length]?
          = some backslash := getElem?_at_length _ _ _
      have g2 : (pre ++ backslash :: backslash :: (escape_id s ++ tail))[pre.length + 1]?
          = some backslash := by
        have := getElem?_at_length (pre ++ [backslash]) backslash (escape_id s ++ tail)
        simpa using this
      refine ⟨j2, hj2, ?_⟩
      rw [show (backslash :: backslash :: escape_id s).length + n
        = ((escape_id s).length + n) + 1 + 1 by simp; omega]
      simp only [List.cons_append, scan_loop, g1, g2, if_true, List.length_cons]
      rw [h1]
      congr 1
      omega
    · by_cases hs : c = slash
      · subst hs
        have he : escape_id (slash :: s) = backslash :: slash :: escape_id s := by
          simp [escape_id]
        rw [he]
        obtain ⟨j2, hj2, h1⟩ := ih (pre ++ [backslash, slash]) n 0 (by omega)
        simp only [List.append_assoc, List.cons_append, List.nil_append, List.length_append,
          List.length_cons, List.length_nil] at h1
        have g1 : (pre ++ backslash :: slash :: (escape_id s ++ tail))[pre.length]?
            = some backslash := getElem?_at_length _ _ _
        have g2 : (pre ++ backslash :: slash :: (escape_id s ++ tail))[pre.length + 1]?
            = some slash := by
          have := getElem?_at_length (pre ++ [backslash]) slash (escape_id s ++ tail)
          simpa using this
        have hodd : ¬ ((j + 1) % 2 = 0) := by omega
        have hne : ¬ (slash = backslash) := by decide
        refine ⟨j2, hj2, ?_⟩
        rw [show (backslash :: slash :: escape_id s).length + n
          = ((escape_id s).length + n) + 1 + 1 by simp; omega]
        simp only [List.cons_append, scan_loop, g1, g2, if_true, List.length_cons, hne,
          if_false, hodd, and_false]
        rw [h1]
        congr 1
        omega
      · have he : escape_id (c :: s) = c :: escape_id s := by
          simp [escape_id, hb, hs]
        rw [he]
        obtain ⟨j2, hj2, h1⟩ := ih (pre ++ [c]) n 0 (by omega)
        simp only [List.append_assoc, List.cons_append, List.nil_append, List.length_append,
          List.length_cons, List.length_nil] at h1
        have g1 : (pre ++ c :: (escape_id s ++ tail))[pre.length]? = some c :=
          getElem?_at_length _ _ _
        refine ⟨j2, hj2, ?_⟩
        rw [show (c :: escape_id s).length + n = ((escape_id s).length + n) + 1 by simp; omega]
        simp only [List.cons_append, scan_loop, g1, hb, hs, if_false, false_and,
          List.length_cons]
        rw [h1]
        congr 1
        omega

theorem unescape_loop_prefix (s tail : List Nat) :
    ∀ (pre : List Nat) (n i : Nat) (svid : List Nat),
      pre.length + (escape_id s).length ≤ i →
      unescape_loop (pre ++ (escape_id s ++ tail)) i (s.length + n) pre.length svid
        = unescape_loop (pre ++ (escape_id s ++ tail)) i n
            (pre.length + (escape_id s).length) (svid ++ s) := by
  induction s with
  | nil =>
    intro pre n i svid _
    simp [escape_id]
  | cons c s ih =>
    intro pre n i svid hi
    by_cases hb : c = backslash
    · subst hb
      have he : escape_id (backslash :: s) = backslash :: backslash :: escape_id s := by
        simp [escape_id]
      rw [he] at hi ⊢
      have h1 := ih (pre ++ [backslash, backslash]) n i (svid ++ [backslash])
        (by simp at hi ⊢; omega)
      simp only [List.append_assoc, List.cons_append, List.nil_append, List.length_append,
        List.length_cons, List.length_nil] at h1
      have g1 : (pre ++ backslash :: backslash :: (escape_id s ++ tail))[pre.length]?
          = some backslash := getElem?_at_length _ _ _
      have g2 : (pre ++ backslash :: backslash :: (escape_id s ++ tail))[pre.length + 1]?
          = some backslash := by
        have := getElem?_at_length (pre ++ [backslash]) backslash (escape_id s ++ tail)
        simpa using this
      have hlt : pre.length < i := by simp at hi; omega
      rw [show (backslash :: s).length + n = (s.length + n) + 1 by simp; omega]
      simp only [List.cons_append, unescape_loop, hlt, if_true, g1, g2, List.length_cons]
      rw [show pre.length + 1 + 1 = pre.length + (0 + 1 + 1) by omega, h1]
      congr 1
      omega
    · by_cases hs : c = slash
      · subst hs
        have he : escape_id (slash :: s) = backslash :: slash :: escape_id s := by
          simp [escape_id]
        rw [he] at hi ⊢
        have h1 := ih (pre ++ [backslash, slash]) n i (svid ++ [slash])
          (by simp at hi ⊢; omega)
        simp only [List.append_assoc, List.cons_append, List.nil_append, List.length_append,
          List.length_cons, List.length_nil] at h1
        have g1 : (pre ++ backslash :: slash :: (escape_id s ++ tail))[pre.length]?
            = some backslash := getElem?_at_length _ _ _
        have g2 : (pre ++ backslash :: slash :: (escape_id s ++ tail))[pre.length + 1]?
            = some slash := by
          have := getElem?_at_length (pre ++ [backslash]) slash (escape_id s ++ tail)
          simpa using this
        have hlt : pre.length < i := by simp at hi; omega
        rw [show (slash :: s).length + n = (s.length + n) + 1 by simp; omega]
        simp only [List.cons_append, unescape_loop, hlt, if_true, g1, g2, List.length_cons]
        rw [show pre.length + 1 + 1 = pre.length + (0 + 1 + 1) by omega, h1]
        congr 1
        omega
      · have he : escape_id (c :: s) = c :: escape_id s := by
          simp [escape_id, hb, hs]
        rw [he] at hi ⊢
        have h1 := ih (pre ++ [c]) n i (svid ++ [c]) (by simp at hi ⊢; omega)
        simp only [List.append_assoc, List.cons_append, List.nil_append, List.length_append,
          List.length_cons, List.length_nil] at h1
        have g1 : (pre ++ c :: (escape_id s ++ tail))[pre.length]? = some c :=
          getElem?_at_length _ _ _
        have hlt : pre.length < i := by simp at hi; omega
        rw [show (c :: s).length + n = (s.length + n) + 1 by simp; omega]
        simp only [List.cons_append, unescape_loop, hlt, if_true, g1, hb, if_false,
          List.length_cons]
        rw [h1]
        congr 1
        omega

theorem scan_loop_trailing_backslash (s : List Nat) :
    scan_loop (escape_id s ++ [backslash]) (escape_id s ++ [backslash]).length 0 0
      = (escape_id s ++ [backslash]).length := by
  obtain ⟨j2, _, h⟩ := scan_loop_prefix s [backslash] [] 1 0 (by decide)
  simp only [List.nil_append, List.length_nil, Nat.zero_add] at h
  have g : (escape_id s ++ [backslash])[(escape_id s).length]? = some backslash :=
    getElem?_at_length (escape_id s) backslash []
  rw [show (escape_id s ++ [backslash]).length = (escape_id s).length + 1 by simp, h]
  simp only [scan_loop, g, if_true]

theorem unescape_loop_trailing_backslash (s : List Nat) :
    unescape_loop (escape_id s ++ [backslash]) ((escape_id s).length + 1)
      ((escape_id s).length + 1) 0 [] = none := by
  have hlen := escape_id_length s
  obtain ⟨n, hn⟩ : ∃ n, (escape_id s).length + 1 = s.length + (n + 1) :=
    ⟨(escape_id s).length - s.length, by omega⟩
  have h := unescape_loop_prefix s [backslash] [] (n + 1) ((escape_id s).length + 1) []
    (by simp)
  simp only [List.nil_append, List.length_nil, Nat.zero_add] at h
  have g : (escape_id s ++ [backslash])[(escape_id s).length]? = some backslash :=
    getElem?_at_length (escape_id s) backslash []
  have g2 : (escape_id s ++ [backslash])[(escape_id s).length + 1]? = none := by
    apply List.getElem?_eq_none
    simp
  have hfuel : unescape_loop (escape_id s ++ [backslash]) ((escape_id s).length + 1)
      ((escape_id s).length + 1) 0 []
      = unescape_loop (escape_id s ++ [backslash]) ((escape_id s).length + 1)
          (s.length + (n + 1)) 0 [] := by
    rw [hn]
  rw [hfuel, h]
  simp only [unescape_loop, Nat.lt_succ_self, if_true, g, g2]

theorem extract_svid_trailing_backslash (s : List Nat) :
    extract_svid (escape_id s ++ [backslash]) = none := by
  have h1 := scan_loop_trailing_backslash s
  have h2 := unescape_loop_trailing_backslash s
  simp only [extract_svid, h1]
  rw [show (escape_id s ++ [backslash]).length = (escape_id s).length + 1 by simp]
  exact h2


/-! ## The properties -/

/-- C1: an invocation whose server record is `Stopped` or `Holding` is appended to
the tail of the request queue and `invoke` returns; nothing else of the mediator
changes: no record (state and process handle included), no new process object,
no call in the trace (so no answer and no spawn). -/
theorem C1_invoke_stopped_or_holding_is_queued (env : Env) (m : Mediator) (id : Nat)
    (obj : ObjRef) (req pr : Nat) (response_exp : Bool) (svid : SvId) (inf : SvInf)
    (hkey : extract_svid obj.key = some svid)
    (hrec : svmap_find m.svmap svid = some inf)
    (hst : inf.pstate = PState.Stopped ∨ inf.pstate = PState.Holding) :
    invoke env m id obj req pr response_exp
      = some (true, { m with invqueue :=
          m.invqueue ++ [ReqQueueRec.invoke id req obj pr response_exp] }) := by
  simp only [invoke, hkey, hrec, hst, if_true, invqueue_add]

/-- C2: an invocation whose server id has no record in `svmap` is answered once, with
`InvokeSysEx` carrying `OBJECT_NOT_EXIST`; the maps, the queue and the process
counter are left as they were. -/
theorem C2_invoke_unknown_server_not_exist (env : Env) (m : Mediator) (id : Nat)
    (obj : ObjRef) (req pr : Nat) (response_exp : Bool) (svid : SvId)
    (hkey : extract_svid obj.key = some svid)
    (hrec : svmap_find m.svmap svid = none) :
    invoke env m id obj req pr response_exp
      = some (true, { m with trace := m.trace ++
          [Event.set_out_args req SysEx.OBJECT_NOT_EXIST,
           Event.answer_invoke id InvokeStatus.InvokeSysEx none req] }) := by
  simp only [invoke, hkey, hrec, Mediator.emit, answer_not_exist]

/-- C1, at the key `a/x` with the record `a` in state `Holding`. -/
theorem C1_invoke_stopped_or_holding_is_queued_witness :
    invoke (sample_env false 0) (sample_mediator PState.Holding (some 0)) 7 sample_obj 3 4 true
      = some (true, { sample_mediator PState.Holding (some 0) with invqueue :=
          (sample_mediator PState.Holding (some 0)).invqueue
            ++ [ReqQueueRec.invoke 7 3 sample_obj 4 true] }) :=
  C1_invoke_stopped_or_holding_is_queued (sample_env false 0)
    (sample_mediator PState.Holding (some 0)) 7 sample_obj 3 4 true [97]
    { pstate := PState.Holding, proc := some 0, ior := { addr := some 5 }, failed := 0 }
    (by decide) (by decide) (by decide)

/-- C2, at the key `a/x` with an empty `svmap`. -/
theorem C2_invoke_unknown_server_not_exist_witness :
    invoke (sample_env false 0) (Mediator.init false) 7 sample_obj 3 4 true
      = some (true, { Mediator.init false with trace := (Mediator.init false).trace ++
          [Event.set_out_args 3 SysEx.OBJECT_NOT_EXIST,
           Event.answer_invoke 7 InvokeStatus.InvokeSysEx none 3] }) :=
  C2_invoke_unknown_server_not_exist (sample_env false 0) (Mediator.init false) 7 sample_obj
    3 4 true [97] (by decide) (by decide)

/-- C3: let the exit of process `p` be reported at time `env0.now` for a record in
state `Started`.  The record becomes `Failed`.  A later `create_server` at time
`env1.now` returns `FALSE` and changes nothing when fewer than 30 seconds have
passed; from 30 seconds on (the repository having an entry with a command) it
creates and runs a new process and leaves the record `Started` with the new handle. -/
theorem C3_failed_backoff_thirty_seconds (env0 env1 : Env) (m : Mediator) (p : Nat)
    (svid : SvId) (inf : SvInf)
    (hkeys : (m.svmap.map Prod.fst).Nodup)
    (hfind : callback_find m.svmap p = some (svid, inf))
    (hst : inf.pstate = PState.Started)
    (hlive : env0.haveThreads = true → env0.finished p = false) :
    ∃ m1, callback env0 m p true = some m1 ∧
      svmap_find m1.svmap svid
        = some { inf with pstate := PState.Failed, failed := env0.now } ∧
      (env1.now - env0.now < 30 → create_server env1 m1 svid = some (false, m1)) ∧
      (30 ≤ env1.now - env0.now →
        ∀ (imr : ImplRepository) (idv : ImplementationDef) (rest : List ImplementationDef),
          env1.imr = some imr → imr.find_by_name svid = idv :: rest → idv.command ≠ [] →
          ∃ m2, create_server env1 m1 svid = some (env1.run m1.next_proc, m2) ∧
            svmap_find m2.svmap svid
              = some { inf with pstate := PState.Started, proc := some m1.next_proc,
                                failed := env0.now } ∧
            m2.next_proc = m1.next_proc + 1 ∧
            m2.trace = m1.trace ++ (if env1.finished p then [Event.proc_delete p] else [])
              ++ [Event.proc_new m1.next_proc svid idv.command,
                  Event.proc_run m1.next_proc]) := by
  -- the map searched by `callback`, after the collection pass of the threaded build
  obtain ⟨l0, tr0, hm0, hkeys0, hfind0⟩ :
      ∃ l0 tr0, (if env0.haveThreads then
          { m with svmap := (callback_gc env0 m.svmap).1,
                   trace := m.trace ++ (callback_gc env0 m.svmap).2 }
          else m) = { m with svmap := l0, trace := tr0 } ∧
        (l0.map Prod.fst).Nodup ∧ callback_find l0 p = some (svid, inf) := by
    by_cases ht : env0.haveThreads = true
    · refine ⟨(callback_gc env0 m.svmap).1, m.trace ++ (callback_gc env0 m.svmap).2, ?_, ?_, ?_⟩
      · simp [ht]
      · rw [callback_gc_keys]; exact hkeys
      · exact callback_gc_find env0 m.svmap p svid inf (hlive ht) hfind
    · exact ⟨m.svmap, m.trace, by simp [ht], hkeys, hfind⟩
  have hproc := callback_find_proc l0 p svid inf hfind0
  have hrec := callback_find_key l0 p svid inf hkeys0 hfind0
  have hset := svmap_find_set_same l0 svid inf
    { inf with pstate := PState.Failed, failed := env0.now } hrec
  refine ⟨{ m with svmap := (svmap_set l0 svid
                              { inf with pstate := PState.Failed, failed := env0.now }),
                   trace := tr0 ++ [Event.exec_later] }, ?_, hset, ?_, ?_⟩
  · simp only [callback, hm0, hfind0, hst]
    simp
  · intro hlt
    simp only [create_server, svmap_index_of_find _ _ _ hset, svmap_at_of_find _ _ _ hset]
    simp [hlt]
  · intro hge imr idv rest himr hfn hcmd
    have hnlt : ¬ (env1.now - env0.now < 30) := not_lt.mpr hge
    have hlen : ¬ (idv.command.length = 0) := by
      intro h0; exact hcmd (List.length_eq_zero.mp h0)
    simp only [create_server, svmap_index_of_find _ _ _ hset, svmap_at_of_find _ _ _ hset,
      himr, hfn]
    simp only [hnlt, hlen, and_false, if_false, if_true, reduceCtorEq, or_self, ne_eq,
      not_true_eq_false]
    refine ⟨_, rfl, ?_, ?_, ?_⟩
    · simp [svmap_set_set, svmap_find_set_same l0 svid inf _ hrec]
    · simp
    · simp [hproc]

/-- C3, for the record `a` in state `Started` with process `0`, whose exit is
reported at time 100. -/
theorem C3_failed_backoff_thirty_seconds_witness :
    ((sample_mediator PState.Started (some 0)).svmap.map Prod.fst).Nodup ∧
    ∃ m1, callback (sample_env false 100) (sample_mediator PState.Started (some 0)) 0 true
        = some m1 ∧
      svmap_find m1.svmap [97]
        = some { pstate := PState.Failed, proc := some 0, ior := { addr := some 5 },
                 failed := 100 } ∧
      ((sample_env false 129).now - (sample_env false 100).now < 30 →
        create_server (sample_env false 129) m1 [97] = some (false, m1)) ∧
      (30 ≤ (sample_env false 129).now - (sample_env false 100).now →
        ∀ (imr : ImplRepository) (idv : ImplementationDef) (rest : List ImplementationDef),
          (sample_env false 129).imr = some imr → imr.find_by_name [97] = idv :: rest →
          idv.command ≠ [] →
          ∃ m2, create_server (sample_env false 129) m1 [97]
              = some ((sample_env false 129).run m1.next_proc, m2) ∧
            svmap_find m2.svmap [97]
              = some { pstate := PState.Started, proc := some m1.next_proc,
                       ior := { addr := some 5 }, failed := 100 } ∧
            m2.next_proc = m1.next_proc + 1 ∧
            m2.trace = m1.trace
              ++ (if (sample_env false 129).finished 0 then [Event.proc_delete 0] else [])
              ++ [Event.proc_new m1.next_proc [97] idv.command,
                  Event.proc_run m1.next_proc]) :=
  ⟨by decide,
   C3_failed_backoff_thirty_seconds (sample_env false 100) (sample_env false 129)
    (sample_mediator PState.Started (some 0)) 0 [97]
    { pstate := PState.Started, proc := some 0, ior := { addr := some 5 }, failed := 0 }
    (by decide) (by decide) (by decide) (by decide)⟩

/-- C4 as stated fails: with the `Active` records `a` and `b`, of which only `a` is a
candidate of the bind, `bind` enters two ids in `requests` and issues two
`bind_async` calls, while one candidate is `Active`. -/
theorem C4_counterexample_active_record_outside_candidates :
    active_candidates sample_two_active.svmap (sample_imr.find_by_repoid_tag 1 2) = 1 ∧
    bind (sample_env false 0) sample_two_active 7 1 2 none
      = some (true,
          { sample_two_active with
              next_msgid := 2, requests := [(0, 7), (1, 7)],
              trace := [Event.requests_set 0 7, Event.requests_set 1 7,
                        Event.bind_async 1 2 5 1, Event.bind_async 1 2 6 0] }) := by
  constructor <;> decide

/-- C4, as the code has it: when the address constraint is absent or local, the
candidate list is not empty, every candidate has a record in state `Active`,
`Stopped` or `Holding`, every `Active` record has an address and the ids in
`requests` are older than the next fresh one, `bind` returns `TRUE` after
issuing one `bind_async` and adding one entry that maps to `id` for every
`Active` record of `svmap`, candidate or not. -/
theorem C4_bind_one_leg_per_active_record (env : Env) (m : Mediator) (id repoid tag : Nat)
    (addr : Option Bool) (imr : ImplRepository)
    (haddr : addr ≠ some false)
    (himr : env.imr = some imr)
    (hcand : bind_candidates (imr.find_by_repoid_tag repoid tag) ≠ [])
    (hready : ∀ im ∈ imr.find_by_repoid_tag repoid tag,
      im.mode = ActivationMode.ActivatePOA →
        ∃ inf, svmap_find m.svmap im.name = some inf ∧
          (inf.pstate = PState.Active ∨ inf.pstate = PState.Stopped ∨
            inf.pstate = PState.Holding))
    (haddrs : ∀ e ∈ m.svmap, e.2.pstate = PState.Active → e.2.ior.addr ≠ none)
    (hfresh : ∀ e ∈ m.requests, e.1 < m.next_msgid) :
    ∃ m1 new, bind env m id repoid tag addr = some (true, m1) ∧
      m1.svmap = m.svmap ∧ m1.invqueue = m.invqueue ∧
      m1.trace = m.trace ++ new ∧
      bind_leg_ids new = (List.range' m.next_msgid (active_records m.svmap)).reverse ∧
      (bind_leg_ids new).length = active_records m.svmap ∧
      m1.requests.length = m.requests.length + active_records m.svmap ∧
      (∀ k, requests_find m1.requests k
          = if m.next_msgid ≤ k ∧ k < m.next_msgid + active_records m.svmap then some id
            else requests_find m.requests k) := by
  have hscan := bind_scan_ready env id m (imr.find_by_repoid_tag repoid tag) 0 false hready
  have hcount : ¬ (0 + (bind_candidates (imr.find_by_repoid_tag repoid tag)).length = 0) := by
    intro h0
    apply hcand
    apply List.length_eq_zero.mp
    omega
  obtain ⟨reqs, ha1, ha2, ha3, _⟩ := bind_alloc_spec id m.svmap m [] hfresh
  have hlen : active_records m.svmap ≤ (bind_alloc id m.svmap m []).2.length := by
    rw [ha1]; simp
  obtain ⟨new2, hs1, hs2, hs3⟩ := bind_send_spec repoid tag m.svmap
    (bind_alloc id m.svmap m []).1 (bind_alloc id m.svmap m []).2 hlen haddrs
  have hids : bind_leg_ids new2
      = (List.range' m.next_msgid (active_records m.svmap)).reverse := by
    rw [hs2, ha1]
    simp only [List.nil_append]
    apply List.take_of_length_le
    simp
  refine ⟨{ (bind_alloc id m.svmap m []).1 with
              trace := (bind_alloc id m.svmap m []).1.trace ++ new2 },
    (List.range' m.next_msgid (active_records m.svmap)).map
      (fun k => Event.requests_set k id) ++ new2, ?_, ?_, ?_, ?_, ?_, ?_, ?_, ?_⟩
  · simp only [bind, haddr, if_false, himr, hscan, hcount, Bool.false_eq_true, hs1]
  · rw [ha1]
  · rw [ha1]
  · rw [ha1]; simp
  · rw [bind_leg_ids_append, hids]
    have : bind_leg_ids ((List.range' m.next_msgid (active_records m.svmap)).map
        (fun k => Event.requests_set k id)) = [] := by
      simp [bind_leg_ids, List.filterMap_map]
    rw [this]; simp
  · rw [bind_leg_ids_append, hids]
    have : bind_leg_ids ((List.range' m.next_msgid (active_records m.svmap)).map
        (fun k => Event.requests_set k id)) = [] := by
      simp [bind_leg_ids, List.filterMap_map]
    rw [this]; simp
  · rw [ha1]; exact ha2
  · rw [ha1]; exact ha3

/-- C4, for the two `Active` records `a` and `b` and the candidate `a`. -/
theorem C4_bind_one_leg_per_active_record_witness :
    ∃ m1 new, bind (sample_env false 0) sample_two_active 7 1 2 none = some (true, m1) ∧
      m1.svmap = sample_two_active.svmap ∧ m1.invqueue = sample_two_active.invqueue ∧
      m1.trace = sample_two_active.trace ++ new ∧
      bind_leg_ids new = (List.range' sample_two_active.next_msgid
        (active_records sample_two_active.svmap)).reverse ∧
      (bind_leg_ids new).length = active_records sample_two_active.svmap ∧
      m1.requests.length
        = sample_two_active.requests.length + active_records sample_two_active.svmap ∧
      (∀ k, requests_find m1.requests k
          = if sample_two_active.next_msgid ≤ k ∧
                k < sample_two_active.next_msgid + active_records sample_two_active.svmap
            then some 7
            else requests_find sample_two_active.requests k) :=
  C4_bind_one_leg_per_active_record (sample_env false 0) sample_two_active 7 1 2 none
    sample_imr (by decide) rfl (by decide) (by decide) (by decide) (by decide)

/-- C5: let the replies to the legs of request `r` (the keys of `requests` mapped to
`r`) reach `notify` in any order.  (1) In every order at most one `answer_bind`
is made for `r`.  (2) When the first `LocateHere` comes after the replies `pre`:
up to it nothing has been called; with it `r` is answered `LocateHere`, every
entry still mapped to `r` is erased and cancelled at the ORB; each later reply
`post` only causes `orb->cancel` of its own id.  (3) When no reply is
`LocateHere`: nothing is called before the last reply, and the last reply
answers `r` with its own status. -/
theorem C5_bind_replies_answer_once (m : Mediator) (r : Nat)
    (hkeys : (m.requests.map Prod.fst).Nodup) :
    (∀ replies : List (Nat × LocateStatus × Option Nat),
      (replies.map (fun x => x.1)).Perm (pending_legs m.requests r) →
      ∃ m1 new, notify_binds m replies = some m1 ∧ m1.trace = m.trace ++ new ∧
        (bind_answers r new).length ≤ 1) ∧
    (∀ (pre : List (Nat × LocateStatus × Option Nat)) (k : Nat) (obj : Option Nat)
        (post : List (Nat × LocateStatus × Option Nat)),
      ((pre ++ (k, LocateStatus.LocateHere, obj) :: post).map (fun x => x.1)).Perm
        (pending_legs m.requests r) →
      (∀ x ∈ pre, x.2.1 ≠ LocateStatus.LocateHere) →
      notify_binds m pre
        = some { m with requests :=
            m.requests.filter (fun e => e.1 ∉ pre.map (fun x => x.1)) } ∧
      notify_binds m (pre ++ [(k, LocateStatus.LocateHere, obj)])
        = some { m with
            requests := m.requests.filter (fun e => e.2 ≠ r),
            trace := m.trace ++ [Event.answer_bind r LocateStatus.LocateHere obj]
              ++ (m.requests.filter
                    (fun e => e.2 = r ∧ e.1 ∈ post.map (fun x => x.1))).map
                  (fun e => Event.orb_cancel e.1) } ∧
      notify_binds m (pre ++ (k, LocateStatus.LocateHere, obj) :: post)
        = some { m with
            requests := m.requests.filter (fun e => e.2 ≠ r),
            trace := m.trace ++ [Event.answer_bind r LocateStatus.LocateHere obj]
              ++ (m.requests.filter
                    (fun e => e.2 = r ∧ e.1 ∈ post.map (fun x => x.1))).map
                  (fun e => Event.orb_cancel e.1)
              ++ post.map (fun x => Event.orb_cancel x.1) }) ∧
    (∀ (pre : List (Nat × LocateStatus × Option Nat)) (k : Nat) (stat : LocateStatus)
        (obj : Option Nat),
      ((pre ++ [(k, stat, obj)]).map (fun x => x.1)).Perm (pending_legs m.requests r) →
      (∀ x ∈ pre ++ [(k, stat, obj)], x.2.1 ≠ LocateStatus.LocateHere) →
      notify_binds m pre
        = some { m with requests :=
            m.requests.filter (fun e => e.1 ∉ pre.map (fun x => x.1)) } ∧
      notify_binds m (pre ++ [(k, stat, obj)])
        = some { m with requests := m.requests.filter (fun e => e.2 ≠ r),
                        trace := m.trace ++ [Event.answer_bind r stat obj] }) := by
  refine ⟨?_, ?_, ?_⟩
  · intro replies hperm
    rcases first_positive_split replies with hneg | ⟨pre, k, obj, post, heq, hpre⟩
    · rcases List.eq_nil_or_concat replies with hnil | ⟨pre, x, hcat⟩
      · subst hnil
        exact ⟨m, [], by simp [notify_binds], by simp, by simp [bind_answers]⟩
      · rw [List.concat_eq_append] at hcat
        subst hcat
        obtain ⟨k, stat, obj⟩ := x
        have h := (notify_binds_all_negative m r pre k stat obj hkeys hperm hneg).2
        exact ⟨_, [Event.answer_bind r stat obj], h, rfl, by simp [bind_answers]⟩
    · subst heq
      have h := (notify_binds_first_positive m r pre k obj post hkeys hperm hpre).2
      refine ⟨_, [Event.answer_bind r LocateStatus.LocateHere obj]
          ++ (m.requests.filter
                (fun e => e.2 = r ∧ e.1 ∈ post.map (fun x => x.1))).map
              (fun e => Event.orb_cancel e.1)
          ++ post.map (fun x => Event.orb_cancel x.1), h,
        by simp only [List.append_assoc], ?_⟩
      rw [bind_answers_append, bind_answers_append]
      have h1 : bind_answers r ((m.requests.filter
          (fun e => e.2 = r ∧ e.1 ∈ post.map (fun x => x.1))).map
            (fun e => Event.orb_cancel e.1)) = [] := by
        have := bind_answers_cancels r ((m.requests.filter
          (fun e => e.2 = r ∧ e.1 ∈ post.map (fun x => x.1))).map Prod.fst)
        simpa [List.map_map] using this
      have h2 : bind_answers r (post.map (fun x => Event.orb_cancel x.1)) = [] := by
        have := bind_answers_cancels r (post.map (fun x => x.1))
        simpa [List.map_map] using this
      rw [h1, h2]
      simp [bind_answers]
  · intro pre k obj post hperm hpre
    have h := notify_binds_first_positive m r pre k obj post hkeys hperm hpre
    obtain ⟨hnd, hmem, _⟩ := legs_facts m.requests r _ hkeys hperm
    simp only [List.map_append, List.map_cons] at hnd hmem
    have hnd2 := List.nodup_append.mp hnd
    have hsilent := notify_binds_silent r pre m hkeys hpre
      (fun x hx => hmem x.1 (List.mem_append_left _ (List.mem_map.mpr ⟨x, hx, rfl⟩)))
      hnd2.1
      ⟨k, hmem k (List.mem_append_right _ (List.mem_cons_self k _)),
        fun hin => hnd2.2.2 hin (List.mem_cons_self k _)⟩
    exact ⟨hsilent, h.1, h.2⟩
  · intro pre k stat obj hperm hneg
    exact notify_binds_all_negative m r pre k stat obj hkeys hperm hneg

/-- C5, for the legs 1, 3 and 4 of request 7: leg 3 answers `LocateUnknown`, then
leg 1 answers `LocateHere`, then leg 4 answers `LocateUnknown`. -/
theorem C5_bind_replies_answer_once_witness :
    notify_binds sample_requests
        [(3, LocateStatus.LocateUnknown, none), (1, LocateStatus.LocateHere, some 50),
         (4, LocateStatus.LocateUnknown, none)]
      = some { sample_requests with
          requests := [(2, 8)],
          trace := [Event.answer_bind 7 LocateStatus.LocateHere (some 50),
                    Event.orb_cancel 4, Event.orb_cancel 4] } :=
  ((C5_bind_replies_answer_once sample_requests 7 (by decide)).2.1
    [(3, LocateStatus.LocateUnknown, none)] 1 (some 50)
    [(4, LocateStatus.LocateUnknown, none)] (by decide) (by decide)).2.2

/-- C6: `cancel (id)` returns, leaves in `requests` exactly the entries whose value is
not `id`, and calls `orb->cancel` once for each key that was mapped to `id` and for
no other key. -/
theorem C6_cancel_removes_every_entry (m : Mediator) (id : Nat)
    (hkeys : (m.requests.map Prod.fst).Nodup) :
    cancel m id
      = some { m with requests := m.requests.filter (fun e => e.2 ≠ id),
                      trace := m.trace ++
                        (m.requests.filter (fun e => e.2 = id)).map
                          (fun e => Event.orb_cancel e.1) } ∧
    ∀ k : Nat,
      ((m.requests.filter (fun e => e.2 = id)).map (fun e => Event.orb_cancel e.1)).count
          (Event.orb_cancel k)
        = if (k, id) ∈ m.requests then 1 else 0 := by
  refine ⟨cancel_spec m id, ?_⟩
  intro k
  have hsub : ((m.requests.filter (fun e => e.2 = id)).map Prod.fst).Nodup :=
    List.Nodup.sublist (List.Sublist.map _ (List.filter_sublist _)) hkeys
  have hinj : Function.Injective (fun n : Nat => Event.orb_cancel n) := by
    intro a b hab
    injection hab
  have hnd : ((m.requests.filter (fun e => e.2 = id)).map
      (fun e => Event.orb_cancel e.1)).Nodup := by
    have := List.Nodup.map hinj hsub
    simpa [List.map_map] using this
  rw [List.count_eq_of_nodup hnd]
  have hmem : Event.orb_cancel k ∈ (m.requests.filter (fun e => e.2 = id)).map
      (fun e => Event.orb_cancel e.1) ↔ (k, id) ∈ m.requests := by
    simp only [List.mem_map, List.mem_filter, decide_eq_true_eq]
    constructor
    · rintro ⟨⟨a, b⟩, ⟨hin, hb⟩, hk⟩
      simp only [Event.orb_cancel.injEq] at hk
      simp only at hb
      subst hk
      subst hb
      exact hin
    · intro hin
      exact ⟨(k, id), ⟨hin, rfl⟩, rfl⟩
  simp only [hmem]

/-- C6, for a map with three entries of request 7 and one of request 8. -/
theorem C6_cancel_removes_every_entry_witness :
    cancel sample_requests 7
      = some { sample_requests with
                 requests := sample_requests.requests.filter (fun e => e.2 ≠ 7),
                 trace := sample_requests.trace ++
                   (sample_requests.requests.filter (fun e => e.2 = 7)).map
                     (fun e => Event.orb_cancel e.1) } ∧
    ∀ k : Nat,
      ((sample_requests.requests.filter (fun e => e.2 = 7)).map
          (fun e => Event.orb_cancel e.1)).count (Event.orb_cancel k)
        = if (k, 7) ∈ sample_requests.requests then 1 else 0 :=
  C6_cancel_removes_every_entry sample_requests 7 (by decide)

/-- C7, as the code has it: on an `Active` server, a redirect is answered when a reply
is expected and `forward` is set, and then nothing is recorded or issued; when a
reply is expected and `forward` is not set, `requests[orbid] = id` is recorded
for the fresh `orbid` before `invoke_async`; when no reply is expected,
`invoke_async` is issued and nothing is recorded. -/
theorem C7_invoke_active_records_before_call (env : Env) (m : Mediator) (id : Nat)
    (obj : ObjRef) (req pr : Nat) (response_exp : Bool) (svid : SvId) (inf : SvInf)
    (hkey : extract_svid obj.key = some svid)
    (hrec : svmap_find m.svmap svid = some inf)
    (hst : inf.pstate = PState.Active)
    (hfresh : requests_find m.requests m.next_msgid = none) :
    invoke env m id obj req pr response_exp
      = some (true,
          if response_exp && m.forward then
            { m with trace := m.trace ++
                [Event.answer_invoke id InvokeStatus.InvokeForward
                  (some { ior := inf.ior, key := obj.key, objid := obj.objid }) req] }
          else if response_exp then
            { m with next_msgid := m.next_msgid + 1,
                     requests := requests_assign m.requests m.next_msgid id,
                     trace := m.trace ++
                       [Event.requests_set m.next_msgid id,
                        Event.invoke_async { ior := inf.ior, key := obj.key, objid := obj.objid }
                          req pr response_exp m.next_msgid] }
          else
            { m with next_msgid := m.next_msgid + 1,
                     trace := m.trace ++
                       [Event.invoke_async { ior := inf.ior, key := obj.key, objid := obj.objid }
                          req pr response_exp m.next_msgid] }) ∧
    requests_find (requests_assign m.requests m.next_msgid id) m.next_msgid = some id := by
  refine ⟨?_, requests_find_assign_same _ _ _⟩
  simp only [invoke, hkey, hrec, hst, reduceCtorEq, or_self, if_false, ne_eq,
    not_true_eq_false, Mediator.emit, hfresh, Option.isSome_none, Bool.false_eq_true]
  cases response_exp <;> cases hfw : m.forward <;> simp

/-- C7, at the key `a/x` with the record `a` in state `Active`, a reply expected
and `forward` not set. -/
theorem C7_invoke_active_records_before_call_witness :
    invoke (sample_env false 0) (sample_mediator PState.Active (some 0)) 7 sample_obj 3 4 true
      = some (true,
          { sample_mediator PState.Active (some 0) with
              next_msgid := 1, requests := [(0, 7)],
              trace := [Event.requests_set 0 7,
                        Event.invoke_async { ior := { addr := some 5 }, key := [97, 47, 120],
                                             objid := 9 } 3 4 true 0] }) :=
  (C7_invoke_active_records_before_call (sample_env false 0)
    (sample_mediator PState.Active (some 0)) 7 sample_obj 3 4 true [97]
    { pstate := PState.Active, proc := some 0, ior := { addr := some 5 }, failed := 0 }
    (by decide) (by decide) (by decide) (by decide)).1

/-- C7 as stated fails: on an `Active` server, an invocation for which no reply is
expected is not answered with a redirect, and `invoke` issues `invoke_async`
without any entry in `requests`. -/
theorem C7_counterexample_no_reply_expected :
    invoke (sample_env false 0) (sample_mediator PState.Active (some 0)) 7 sample_obj 3 4 false
      = some (true,
          { sample_mediator PState.Active (some 0) with
              next_msgid := 1, requests := [],
              trace := [Event.invoke_async { ior := { addr := some 5 }, key := [97, 47, 120],
                                             objid := 9 } 3 4 false 0] }) := by
  decide

/-- C8: round trip of the server id: from the key `escape_id s ++ "/" ++ r`, and from
the key `escape_id s` without separator, `invoke` and `has_object` extract `s`. -/
theorem C8_extract_svid_round_trip (s r : List Nat) :
    extract_svid (escape_id s ++ slash :: r) = some s ∧
    extract_svid (escape_id s) = some s := by
  constructor
  · exact extract_svid_escape s (slash :: r) (Or.inr ⟨r, rfl⟩)
  · have h := extract_svid_escape s [] (Or.inl rfl)
    simpa using h

/-- C10 fails on the code: after `force_activation a`, `activate_impl a`, `hold a` and
`_cxx_continue a` the record `a` is `Inactive` and still holds the handle 0 of
its running process.  The `create_server` that `invoke` then calls stores the new
handle 1 over it: handle 0 is not deleted and no exit was reported for it.  The
exit callback of process 0 afterwards finds no record and stops on its assertion. -/
theorem C10_running_handle_overwritten :
    (run (Mediator.init false)
      [(sample_env false 0, Op.force_activation [97]),
       (sample_env false 1, Op.activate_impl [97]),
       (sample_env false 2, Op.hold [97]),
       (sample_env false 3, Op.cxx_continue [97])]).map (fun m => svmap_find m.svmap [97])
      = some (some { pstate := PState.Inactive, proc := some 0, ior := { addr := none },
                     failed := 0 }) ∧
    (run (Mediator.init false)
      [(sample_env false 0, Op.force_activation [97]),
       (sample_env false 1, Op.activate_impl [97]),
       (sample_env false 2, Op.hold [97]),
       (sample_env false 3, Op.cxx_continue [97]),
       (sample_env false 4, Op.invoke 7 sample_obj 3 4 true)]).map
        (fun m => (svmap_find m.svmap [97], m.trace))
      = some (some { pstate := PState.Started, proc := some 1, ior := { addr := none },
                     failed := 0 },
              [Event.proc_new 0 [97] [120], Event.proc_run 0, Event.exec_later,
               Event.exec_later, Event.proc_new 1 [97] [120], Event.proc_run 1]) ∧
    run (Mediator.init false)
      [(sample_env false 0, Op.force_activation [97]),
       (sample_env false 1, Op.activate_impl [97]),
       (sample_env false 2, Op.hold [97]),
       (sample_env false 3, Op.cxx_continue [97]),
       (sample_env false 4, Op.invoke 7 sample_obj 3 4 true),
       (sample_env false 5, Op.callback 0)] = none := by
  refine ⟨?_, ?_, ?_⟩ <;> decide

/-- C14: `activate_impl` on the record of `svid` (built by `SvInf ()` when absent):
in `Stopped` and `Holding` the record stays as it is and nothing is called;
otherwise its state becomes `Active` and `exec_later` is called once, whatever
the queue holds.  Handle, address template and failure time are kept, no other
record changes, and `requests` and the queue are untouched. -/
theorem C14_activate_impl_announce (m : Mediator) (svid : SvId) :
    svmap_find (activate_impl m svid).svmap svid
      = some { svmap_at (svmap_index m.svmap svid) svid with
          pstate :=
            if (svmap_at (svmap_index m.svmap svid) svid).pstate = PState.Stopped ∨
                (svmap_at (svmap_index m.svmap svid) svid).pstate = PState.Holding
            then (svmap_at (svmap_index m.svmap svid) svid).pstate
            else PState.Active } ∧
    (activate_impl m svid).trace
      = (if (svmap_at (svmap_index m.svmap svid) svid).pstate = PState.Stopped ∨
            (svmap_at (svmap_index m.svmap svid) svid).pstate = PState.Holding
         then m.trace else m.trace ++ [Event.exec_later]) ∧
    (∀ k, k ≠ svid →
      svmap_find (activate_impl m svid).svmap k = svmap_find m.svmap k) ∧
    (activate_impl m svid).requests = m.requests ∧
    (activate_impl m svid).invqueue = m.invqueue ∧
    (svmap_at (svmap_index m.svmap svid) svid
      = match svmap_find m.svmap svid with
        | some inf => inf
        | none => SvInf.new) := by
  have hidx := svmap_find_index m.svmap svid
  by_cases hst : (svmap_at (svmap_index m.svmap svid) svid).pstate = PState.Stopped ∨
      (svmap_at (svmap_index m.svmap svid) svid).pstate = PState.Holding
  · refine ⟨?_, ?_, ?_, ?_, ?_, ?_⟩
    · simp only [activate_impl, hst, if_true, hidx]
    · simp only [activate_impl, hst, if_true]
    · intro k hk
      simp only [activate_impl, hst, if_true]
      exact svmap_find_index_other _ _ _ hk
    · simp only [activate_impl, hst, if_true]
    · simp only [activate_impl, hst, if_true]
    · cases h : svmap_find m.svmap svid with
      | some v => simp [svmap_index, svmap_at, h]
      | none => simp [svmap_at_index_new m.svmap svid h]
  · refine ⟨?_, ?_, ?_, ?_, ?_, ?_⟩
    · simp only [activate_impl, hst, if_false]
      exact svmap_find_set_same _ _ _ _ hidx
    · simp only [activate_impl, hst, if_false]
    · intro k hk
      simp only [activate_impl, hst, if_false]
      rw [svmap_find_set_other _ _ _ _ hk]
      exact svmap_find_index_other _ _ _ hk
    · simp only [activate_impl, hst, if_false]
    · simp only [activate_impl, hst, if_false]
    · cases h : svmap_find m.svmap svid with
      | some v => simp [svmap_index, svmap_at, h]
      | none => simp [svmap_at_index_new m.svmap svid h]

/-- C16: `_cxx_continue` returns `TRUE`.  For a record in `Inactive`, `Started` or
`Active` the mediator is left as it was; for a record in `Failed`, `Stopped` or
`Holding` the state becomes `Inactive` and `exec_later` is called: no process
object is made and nothing else changes. -/
theorem C16_cxx_continue_resume (m : Mediator) (svid : SvId) (inf : SvInf)
    (hrec : svmap_find m.svmap svid = some inf) :
    ((inf.pstate = PState.Inactive ∨ inf.pstate = PState.Started ∨
        inf.pstate = PState.Active) → cxx_continue m svid = (true, m)) ∧
    ((inf.pstate = PState.Failed ∨ inf.pstate = PState.Stopped ∨
        inf.pstate = PState.Holding) →
      cxx_continue m svid
        = (true, { m with svmap := svmap_set m.svmap svid { inf with pstate := PState.Inactive },
                          trace := m.trace ++ [Event.exec_later] })) := by
  have h1 := svmap_index_of_find _ _ _ hrec
  have h2 := svmap_at_of_find _ _ _ hrec
  constructor
  · intro hst
    rcases hst with h | h | h <;> simp only [cxx_continue, h1, h2, h]
  · intro hst
    rcases hst with h | h | h <;> simp only [cxx_continue, h1, h2, h]

/-- C16, for the record `a` in state `Holding` with the process 0. -/
theorem C16_cxx_continue_resume_witness :
    cxx_continue (sample_mediator PState.Holding (some 0)) [97]
      = (true, { sample_mediator PState.Holding (some 0) with
          svmap := [([97], { pstate := PState.Inactive, proc := some 0,
                             ior := { addr := some 5 }, failed := 0 })],
          trace := [Event.exec_later] }) :=
  (C16_cxx_continue_resume (sample_mediator PState.Holding (some 0)) [97]
    { pstate := PState.Holding, proc := some 0, ior := { addr := some 5 }, failed := 0 }
    (by decide)).2 (Or.inr (Or.inr rfl))

/-- C18: `hold` is idempotent: a second `hold` returns the same result and the same
mediator as the first.  It returns `TRUE`; the record (built by `SvInf ()` when
absent) ends `Stopped` when it was `Stopped` and `Holding` otherwise, with its
handle, address template and failure time as before. -/
theorem C18_hold_idempotent (m : Mediator) (svid : SvId) :
    hold (hold m svid).2 svid = hold m svid ∧
    (hold m svid).1 = true ∧
    svmap_find (hold m svid).2.svmap svid
      = some { svmap_at (svmap_index m.svmap svid) svid with
          pstate :=
            if (svmap_at (svmap_index m.svmap svid) svid).pstate = PState.Stopped
            then PState.Stopped else PState.Holding } ∧
    (hold m svid).2.trace = m.trace := by
  have hidx := svmap_find_index m.svmap svid
  have hii := svmap_index_index m.svmap svid
  have key : ∀ st : PState, (svmap_at (svmap_index m.svmap svid) svid).pstate = st →
      st ≠ PState.Stopped →
      hold m svid = (true, { m with svmap := (svmap_set (svmap_index m.svmap svid) svid
        { svmap_at (svmap_index m.svmap svid) svid with pstate := PState.Holding }) }) := by
    intro st hst hne
    cases st <;> simp_all [hold]
  by_cases hst : (svmap_at (svmap_index m.svmap svid) svid).pstate = PState.Stopped
  · have h1 : hold m svid = (true, { m with svmap := svmap_index m.svmap svid }) := by
      simp only [hold, hst]
    refine ⟨?_, ?_, ?_, ?_⟩
    · rw [h1]
      simp only [hold, hii, hst]
    · rw [h1]
    · rw [h1]
      simp only [hst, if_true, hidx]
      congr 1
      cases hx : svmap_at (svmap_index m.svmap svid) svid
      rw [hx] at hst
      simp only at hst
      simp [hst]
    · rw [h1]
  · have h1 := key _ rfl hst
    have hset := svmap_find_set_same _ svid _
      { svmap_at (svmap_index m.svmap svid) svid with pstate := PState.Holding } hidx
    refine ⟨?_, ?_, ?_, ?_⟩
    · rw [h1]
      simp only [hold, svmap_index_of_find _ _ _ hset, svmap_at_of_find _ _ _ hset,
        svmap_set_set]
    · rw [h1]
    · rw [h1]
      simp only [hst, if_false, hset]
    · rw [h1]

/-- C11 fails.  For the record `inf` of `svid`: in `Inactive`, `Failed` or `Stopped`, with
or without process handle, `stop` returns `TRUE` from its first block with the
state set to `Stopped`, and nothing is called (no `terminate`, no `perform_work`);
in `Started`, `Active` or `Holding` without process handle, `stop` stops on
`assert (inf.proc)` in its first block, whatever the surroundings would do
during a wait. -/
theorem C11_stop_without_handle (m : Mediator) (svid : SvId) (inf : SvInf)
    (rounds : List (Nat × List (Env × Op)))
    (hrec : svmap_find m.svmap svid = some inf) :
    (inf.pstate = PState.Inactive ∨ inf.pstate = PState.Failed ∨
        inf.pstate = PState.Stopped →
      stop m svid rounds
        = some (true, { m with svmap := svmap_set m.svmap svid
                                  { inf with pstate := PState.Stopped } })) ∧
    (inf.pstate = PState.Started ∨ inf.pstate = PState.Active ∨
        inf.pstate = PState.Holding →
      inf.proc = none → stop m svid rounds = none) := by
  have h1 := svmap_index_of_find _ _ _ hrec
  have h2 := svmap_at_of_find _ _ _ hrec
  constructor
  · intro hst
    rcases hst with h | h | h <;> simp only [stop, stop_signal, h1, h2, h]
  · intro hst hp
    rcases hst with h | h | h <;> simp only [stop, stop_signal, h1, h2, h, hp]

/-- C11, on records made without process handle from the empty mediator: `hold` leaves
the record `a` in `Holding`, `activate_impl` leaves it `Active`, and `stop` on either
stops on the assertion. -/
theorem C11_stop_without_handle_witness :
    svmap_find (hold (Mediator.init false) [97]).2.svmap [97]
      = some { pstate := PState.Holding, proc := none, ior := { addr := none }, failed := 0 } ∧
    stop (hold (Mediator.init false) [97]).2 [97] [(0, []), (5000, [])] = none ∧
    svmap_find (activate_impl (Mediator.init false) [97]).svmap [97]
      = some { pstate := PState.Active, proc := none, ior := { addr := none }, failed := 0 } ∧
    stop (activate_impl (Mediator.init false) [97]) [97] [(0, []), (5000, [])] = none :=
  ⟨by decide,
   (C11_stop_without_handle (hold (Mediator.init false) [97]).2 [97]
      { pstate := PState.Holding, proc := none, ior := { addr := none }, failed := 0 }
      [(0, []), (5000, [])] (by decide)).2 (Or.inr (Or.inr rfl)) rfl,
   by decide,
   (C11_stop_without_handle (activate_impl (Mediator.init false) [97]) [97]
      { pstate := PState.Active, proc := none, ior := { addr := none }, failed := 0 }
      [(0, []), (5000, [])] (by decide)).2 (Or.inr (Or.inl rfl)) rfl⟩

/-- C12: for a record in `Started`, `Active` or `Holding` with the process handle `p`:
(1) the first block of `stop` sets the state to `Stopped` and calls `terminate`
once, then `stop` waits; (2) whenever `stop` returns, it returns `TRUE` exactly
when the record holds no handle at that moment; (3) when nothing is delivered
during the wait and the timeout of 5000 ms is seen in the round after `early`,
`stop` returns `FALSE`, the record is `Stopped` and still holds `p`, and `stop`
has called `terminate` once and `perform_work` once per round; (4) when, in the
build without threads, the exit of `p` is delivered by the first `perform_work`,
before the timeout, `stop` returns `TRUE` after the next round, the record
`Stopped` with the handle deleted and cleared. -/
theorem C12_stop_signal_and_wait (m : Mediator) (svid : SvId) (inf : SvInf) (p : Nat)
    (hrec : svmap_find m.svmap svid = some inf)
    (hst : inf.pstate = PState.Started ∨ inf.pstate = PState.Active ∨
      inf.pstate = PState.Holding)
    (hp : inf.proc = some p) :
    stop_signal m svid
      = some (none, { m with svmap := (svmap_set m.svmap svid
                                { inf with pstate := PState.Stopped }),
                             trace := m.trace ++ [Event.proc_terminate p] }) ∧
    (∀ (rounds : List (Nat × List (Env × Op))) (b : Bool) (m1 : Mediator),
      stop m svid rounds = some (b, m1) →
        (b = true ↔ (svmap_at m1.svmap svid).proc = none)) ∧
    (∀ (early : List Nat) (late : Nat) (rest : List (Nat × List (Env × Op))),
      (∀ e ∈ early, e < 5000) → 5000 ≤ late →
      stop m svid (early.map (fun e => (e, [])) ++ (late, []) :: rest)
        = some (false,
            { m with svmap := (svmap_set m.svmap svid { inf with pstate := PState.Stopped }),
                     trace := m.trace ++ [Event.proc_terminate p]
                       ++ List.replicate (early.length + 1) Event.perform_work
                       ++ [Event.cerr_cannot_be_stopped svid] })) ∧
    (∀ (e0 e1 : Nat) (env : Env) (rest : List (Nat × List (Env × Op))),
      e0 < 5000 → env.haveThreads = false →
      (m.svmap.map Prod.fst).Nodup → callback_find m.svmap p = some (svid, inf) →
      stop m svid ((e0, [(env, Op.callback p)]) :: (e1, []) :: rest)
        = some (true,
            { m with svmap := (svmap_set m.svmap svid
                                { inf with pstate := PState.Stopped, proc := none }),
                     trace := m.trace ++ [Event.proc_terminate p, Event.perform_work,
                       Event.proc_delete p, Event.perform_work] })) := by
  have hsig := stop_signal_running m svid inf p hrec hst hp
  refine ⟨hsig, ?_, ?_, ?_⟩
  · intro rounds b m1 h
    simp only [stop, hsig] at h
    split at h
    · cases h
    · next m2 _ =>
      split_ifs at h with hproc
      · cases h
        simp only [Bool.false_eq_true, false_iff]
        exact hproc
      · cases h
        simp only [true_iff]
        simpa using hproc
  · intro early late rest hearly hlate
    have hset := svmap_find_set_same m.svmap svid inf { inf with pstate := PState.Stopped } hrec
    have hwait := stop_wait_idle svid { inf with pstate := PState.Stopped } p hp late rest hlate
      early
      { m with svmap := (svmap_set m.svmap svid { inf with pstate := PState.Stopped }),
               trace := m.trace ++ [Event.proc_terminate p] } hset hearly
    dsimp only at hwait
    simp only [stop, hsig]
    rw [hwait]
    simp only [svmap_index_of_find _ _ _ hset, svmap_at_of_find _ _ _ hset]
    simp only [hp, ne_eq, reduceCtorEq, not_false_eq_true, if_true]
  · intro e0 e1 env rest he0 ht hkeys hfind
    have hset := svmap_find_set_same m.svmap svid inf { inf with pstate := PState.Stopped } hrec
    have hf2 := callback_find_set m.svmap p svid inf { inf with pstate := PState.Stopped }
      hkeys hfind hp
    have hset2 := svmap_find_set_same m.svmap svid inf
      { inf with pstate := PState.Stopped, proc := none } hrec
    have hne : ¬ (5000 ≤ e0) := by omega
    have hcb : callback env
        { m with svmap := (svmap_set m.svmap svid { inf with pstate := PState.Stopped }),
                 trace := m.trace ++ [Event.proc_terminate p] ++ [Event.perform_work] } p true
        = some { m with
            svmap := (svmap_set m.svmap svid
              { inf with pstate := PState.Stopped, proc := none }),
            trace := m.trace ++ [Event.proc_terminate p] ++ [Event.perform_work]
              ++ [Event.proc_delete p] } := by
      simp only [callback, ht, Bool.false_eq_true, if_false, hf2, not_true_eq_false,
        svmap_set_set]
    simp only [stop, hsig]
    rw [stop_wait]
    simp only [svmap_index_of_find _ _ _ hset, svmap_at_of_find _ _ _ hset]
    simp only [hp] at hcb
    simp only [hp, timeout_done, hne, decide_False, reduceCtorEq, Bool.or_self, run, step, hcb,
      Bool.false_eq_true, if_false]
    rw [stop_wait]
    simp only [svmap_index_of_find _ _ _ hset2, svmap_at_of_find _ _ _ hset2]
    simp only [decide_True, Bool.or_true, run, if_true, ne_eq, not_true_eq_false, if_false,
      List.append_assoc, List.cons_append, List.nil_append]
    simp only [svmap_index_of_find _ _ _ hset2, svmap_at_of_find _ _ _ hset2,
      not_true_eq_false, if_false]

/-- C12, for the record `a` in state `Active` with process 0: the timeout is seen in
the third round and nothing is delivered meanwhile. -/
theorem C12_stop_signal_and_wait_witness :
    stop (sample_mediator PState.Active (some 0)) [97] [(0, []), (2500, []), (5000, [])]
      = some (false,
          { sample_mediator PState.Active (some 0) with
              svmap := [([97], { pstate := PState.Stopped, proc := some 0,
                                 ior := { addr := some 5 }, failed := 0 })],
              trace := [Event.proc_terminate 0, Event.perform_work, Event.perform_work,
                        Event.perform_work, Event.cerr_cannot_be_stopped [97]] }) :=
  (C12_stop_signal_and_wait (sample_mediator PState.Active (some 0)) [97]
    { pstate := PState.Active, proc := some 0, ior := { addr := some 5 }, failed := 0 } 0
    (by decide) (Or.inr (Or.inl rfl)) rfl).2.2.1 [0, 2500] 5000 [] (by decide) (by decide)

/-- C13 as stated fails: in the threaded build, with the `Active` records `a` (process
0) and `b` (process 1, which has finished), the exit callback of process 0 leaves
the handle of `a` in its record, and it changes the record of `b`, whose handle
is deleted and cleared by the collection pass. -/
theorem C13_counterexample_threads_keep_handle :
    callback { sample_env true 0 with finished := fun q => decide (q = 1) }
        sample_two_active 0 true
      = some { sample_two_active with
          svmap := [([97], { pstate := PState.Inactive, proc := some 0,
                             ior := { addr := some 5 }, failed := 0 }),
                    ([98], { pstate := PState.Active, proc := none,
                             ior := { addr := some 6 }, failed := 0 })],
          trace := [Event.proc_delete 1] } := by
  decide

/-- C13, as the code has it.  Let the exit of process `p` be reported, `svid` with
record `inf` being the record found for `p`, and let `c` be the mediator the
callback searches (`callback_collected`: the mediator itself without threads;
with threads, the mediator after the handles of finished processes have been
deleted and cleared in every record).  Then, with `p` still in the record of
`svid` in `c`:
`Active` becomes `Inactive` and no replay is triggered; `Started` becomes `Failed`
with `failed` set to the current time, the handle stays and a replay is
triggered; `Stopped` keeps its state; `Holding` becomes `Stopped`.  In `Active`,
`Stopped` and `Holding` the handle is deleted and cleared in the build without
threads and stays in the record in the build with threads.  No record other
than that of `svid` differs from `c`. -/
theorem C13_callback_exit (env : Env) (m : Mediator) (p : Nat) (svid : SvId) (inf : SvInf)
    (hkeys : (m.svmap.map Prod.fst).Nodup)
    (hfind : callback_find m.svmap p = some (svid, inf))
    (hlive : env.haveThreads = true → env.finished p = false) :
    (env.haveThreads = false → callback_collected env m = m) ∧
    (∀ k, svmap_find (callback_collected env m).svmap k
      = (svmap_find m.svmap k).map (fun v =>
          match v.proc with
          | some q => if env.haveThreads && env.finished q then { v with proc := none } else v
          | none => v)) ∧
    svmap_find (callback_collected env m).svmap svid = some inf ∧
    (inf.pstate = PState.Active →
      callback env m p true = some { callback_collected env m with
        svmap := svmap_set (callback_collected env m).svmap svid
          { inf with pstate := PState.Inactive,
                     proc := if env.haveThreads then some p else none },
        trace := (callback_collected env m).trace
          ++ (if env.haveThreads then [] else [Event.proc_delete p]) }) ∧
    (inf.pstate = PState.Started →
      callback env m p true = some { callback_collected env m with
        svmap := svmap_set (callback_collected env m).svmap svid
          { inf with pstate := PState.Failed, failed := env.now },
        trace := (callback_collected env m).trace ++ [Event.exec_later] }) ∧
    (inf.pstate = PState.Stopped →
      callback env m p true = some { callback_collected env m with
        svmap := svmap_set (callback_collected env m).svmap svid
          { inf with proc := if env.haveThreads then some p else none },
        trace := (callback_collected env m).trace
          ++ (if env.haveThreads then [] else [Event.proc_delete p]) }) ∧
    (inf.pstate = PState.Holding →
      callback env m p true = some { callback_collected env m with
        svmap := svmap_set (callback_collected env m).svmap svid
          { inf with pstate := PState.Stopped,
                     proc := if env.haveThreads then some p else none },
        trace := (callback_collected env m).trace
          ++ (if env.haveThreads then [] else [Event.proc_delete p]) }) ∧
    (∀ m1, callback env m p true = some m1 → ∀ k, k ≠ svid →
      svmap_find m1.svmap k = svmap_find (callback_collected env m).svmap k) := by
  obtain ⟨hf, hrec⟩ := callback_collected_find env m p svid inf hkeys hfind hlive
  have hp := callback_find_proc _ p svid inf hfind
  have hcb : callback env m p true
      = match callback_find (callback_collected env m).svmap p with
        | none => none
        | some (k, inf) =>
          match inf.pstate with
          | PState.Active =>
            if env.haveThreads then
              some { callback_collected env m with
                svmap := svmap_set (callback_collected env m).svmap k
                  { inf with pstate := PState.Inactive } }
            else
              some { callback_collected env m with
                svmap := svmap_set (callback_collected env m).svmap k
                  { inf with pstate := PState.Inactive, proc := none },
                trace := (callback_collected env m).trace ++ [Event.proc_delete p] }
          | PState.Started =>
            some { callback_collected env m with
              svmap := svmap_set (callback_collected env m).svmap k
                { inf with pstate := PState.Failed, failed := env.now },
              trace := (callback_collected env m).trace ++ [Event.exec_later] }
          | PState.Stopped =>
            if env.haveThreads then
              some (callback_collected env m)
            else
              some { callback_collected env m with
                svmap := svmap_set (callback_collected env m).svmap k { inf with proc := none },
                trace := (callback_collected env m).trace ++ [Event.proc_delete p] }
          | PState.Holding =>
            if env.haveThreads then
              some { callback_collected env m with
                svmap := svmap_set (callback_collected env m).svmap k
                  { inf with pstate := PState.Stopped } }
            else
              some { callback_collected env m with
                svmap := svmap_set (callback_collected env m).svmap k
                  { inf with pstate := PState.Stopped, proc := none },
                trace := (callback_collected env m).trace ++ [Event.proc_delete p] }
          | PState.Inactive => none
          | PState.Failed => none := by
    simp only [callback, callback_collected, not_true_eq_false, if_false]
  rw [hf] at hcb
  dsimp only at hcb
  have heta : ∀ s : PState, ({ inf with pstate := s, proc := some p } : SvInf)
      = { inf with pstate := s } := by
    intro s; rw [← hp]
  refine ⟨?_, ?_, hrec, ?_, ?_, ?_, ?_, ?_⟩
  · intro ht
    simp only [callback_collected, ht, Bool.false_eq_true, if_false]
  · intro k
    by_cases ht : env.haveThreads = true
    · simp only [callback_collected, ht, if_true, Bool.true_and]
      exact callback_gc_svmap_find env m.svmap k
    · simp only [callback_collected, ht, Bool.false_eq_true, if_false, Bool.false_and]
      cases svmap_find m.svmap k with
      | none => rfl
      | some v => cases hq : v.proc <;> simp [hq]
  · intro hst
    rw [hcb]
    by_cases ht : env.haveThreads = true
    · simp only [hst, ht, if_true, heta, List.append_nil]
    · simp only [hst, ht, Bool.false_eq_true, if_false]
  · intro hst
    rw [hcb]
    simp only [hst]
  · intro hst
    rw [hcb]
    by_cases ht : env.haveThreads = true
    · have heta3 : ({ inf with pstate := PState.Stopped, proc := some p } : SvInf) = inf := by
        rw [← hp, ← hst]
      simp only [hst, ht, if_true, heta3, List.append_nil, svmap_set_self _ _ _ hrec]
    · simp only [hst, ht, Bool.false_eq_true, if_false]
  · intro hst
    rw [hcb]
    by_cases ht : env.haveThreads = true
    · simp only [hst, ht, if_true, heta, List.append_nil]
    · simp only [hst, ht, Bool.false_eq_true, if_false]
  · intro m1 h k hk
    rw [hcb] at h
    by_cases ht : env.haveThreads = true <;> cases hst : inf.pstate <;>
      simp only [hst, ht, Bool.false_eq_true, if_false, if_true, Option.some.injEq,
        reduceCtorEq] at h <;>
      first
      | (rw [← h]; exact svmap_find_set_other _ _ _ _ hk)
      | (rw [← h])

/-- C13, for the record `a` in state `Holding` with process 0, in the build without
threads. -/
theorem C13_callback_exit_witness :
    callback (sample_env false 0) (sample_mediator PState.Holding (some 0)) 0 true
      = some { sample_mediator PState.Holding (some 0) with
          svmap := [([97], { pstate := PState.Stopped, proc := none,
                             ior := { addr := some 5 }, failed := 0 })],
          trace := [Event.proc_delete 0] } :=
  (C13_callback_exit (sample_env false 0) (sample_mediator PState.Holding (some 0)) 0 [97]
    { pstate := PState.Holding, proc := some 0, ior := { addr := some 5 }, failed := 0 }
    (by decide) (by decide) (by decide)).2.2.2.2.2.2.1 rfl


/-- C15 as stated fails: the server `a` is started by `force_activation` (process 0),
the exit of process 0 is reported while the record is `Started`, and `stop` then
moves the record from `Failed` to `Stopped`.  The process of the record has
exited, yet `force_activation` refuses: it returns `FALSE` and changes nothing,
because the record still holds the handle. -/
theorem C15_counterexample_refuses_after_exit :
    run (Mediator.init false)
        [(sample_env false 0, Op.force_activation [97]),
         (sample_env false 1, Op.callback 0),
         (sample_env false 2, Op.stop [97])]
      = some { forward := false,
               svmap := [([97], { pstate := PState.Stopped, proc := some 0,
                                  ior := { addr := none }, failed := 1 })],
               requests := [], invqueue := [], next_msgid := 0, next_proc := 1,
               trace := [Event.proc_new 0 [97] [120], Event.proc_run 0, Event.exec_later] } ∧
    force_activation (sample_env false 3)
        { forward := false,
          svmap := [([97], { pstate := PState.Stopped, proc := some 0,
                             ior := { addr := none }, failed := 1 })],
          requests := [], invqueue := [], next_msgid := 0, next_proc := 1,
          trace := [Event.proc_new 0 [97] [120], Event.proc_run 0, Event.exec_later] } [97]
      = some (false,
          { forward := false,
            svmap := [([97], { pstate := PState.Stopped, proc := some 0,
                               ior := { addr := none }, failed := 1 })],
            requests := [], invqueue := [], next_msgid := 0, next_proc := 1,
            trace := [Event.proc_new 0 [97] [120], Event.proc_run 0, Event.exec_later] }) := by
  constructor <;> decide

/-- C15, as the code has it, for the record `inf` of `svid`.  In `Inactive`,
`force_activation` is `create_server`; in `Failed`, and in `Stopped` without
process handle, it sets the state to `Inactive` and is `create_server` from there;
in `Started` and `Active` it returns `TRUE` and changes nothing; in `Holding` it
sets the state to `Active` and returns `TRUE`, calling nothing; in `Stopped` with a
process handle (of a live process or of one that has exited) it returns `FALSE`
and changes nothing.  Where it attempts a start and the repository has an entry
with a command for `svid`, a new process is created and run and the record is
`Started` with the new handle, whatever the clock and the time of failure say. -/
theorem C15_force_activation_by_state (env : Env) (m : Mediator) (svid : SvId) (inf : SvInf)
    (hrec : svmap_find m.svmap svid = some inf) :
    (inf.pstate = PState.Inactive → force_activation env m svid = create_server env m svid) ∧
    (inf.pstate = PState.Failed ∨ (inf.pstate = PState.Stopped ∧ inf.proc = none) →
      force_activation env m svid
        = create_server env
            { m with svmap := svmap_set m.svmap svid { inf with pstate := PState.Inactive } }
            svid) ∧
    (inf.pstate = PState.Started ∨ inf.pstate = PState.Active →
      force_activation env m svid = some (true, m)) ∧
    (inf.pstate = PState.Holding →
      force_activation env m svid
        = some (true, { m with svmap := svmap_set m.svmap svid
                                 { inf with pstate := PState.Active } })) ∧
    (inf.pstate = PState.Stopped → inf.proc ≠ none →
      force_activation env m svid = some (false, m)) ∧
    (inf.pstate = PState.Inactive ∨ inf.pstate = PState.Failed ∨
        (inf.pstate = PState.Stopped ∧ inf.proc = none) →
      ∀ (imr : ImplRepository) (idv : ImplementationDef) (rest : List ImplementationDef),
        env.imr = some imr → imr.find_by_name svid = idv :: rest → idv.command ≠ [] →
        force_activation env m svid
          = some (env.run m.next_proc,
              { m with
                  svmap := svmap_set m.svmap svid
                    { inf with pstate := PState.Started, proc := some m.next_proc },
                  next_proc := m.next_proc + 1,
                  trace := m.trace
                    ++ (match inf.proc with
                        | some old => if env.finished old then [Event.proc_delete old] else []
                        | none => [])
                    ++ [Event.proc_new m.next_proc svid idv.command,
                        Event.proc_run m.next_proc] })) := by
  have h1 := svmap_index_of_find _ _ _ hrec
  have h2 := svmap_at_of_find _ _ _ hrec
  have hset := svmap_find_set_same m.svmap svid inf { inf with pstate := PState.Inactive } hrec
  have hspawn : ∀ (m0 : Mediator) (inf0 : SvInf), svmap_find m0.svmap svid = some inf0 →
      inf0.pstate = PState.Inactive →
      ∀ (imr : ImplRepository) (idv : ImplementationDef) (rest : List ImplementationDef),
        env.imr = some imr → imr.find_by_name svid = idv :: rest → idv.command ≠ [] →
        create_server env m0 svid
          = some (env.run m0.next_proc,
              { m0 with
                  svmap := svmap_set m0.svmap svid
                    { inf0 with pstate := PState.Started, proc := some m0.next_proc },
                  next_proc := m0.next_proc + 1,
                  trace := m0.trace
                    ++ (match inf0.proc with
                        | some old => if env.finished old then [Event.proc_delete old] else []
                        | none => [])
                    ++ [Event.proc_new m0.next_proc svid idv.command,
                        Event.proc_run m0.next_proc] }) := by
    intro m0 inf0 hrec0 hst0 imr idv rest himr hfn hcmd
    have hlen : ¬ (idv.command.length = 0) := by
      intro h0; exact hcmd (List.length_eq_zero.mp h0)
    simp only [create_server, svmap_index_of_find _ _ _ hrec0, svmap_at_of_find _ _ _ hrec0,
      himr, hfn, hst0]
    simp only [hlen, hst0, reduceCtorEq, or_self, false_and, if_false, ne_eq,
      not_true_eq_false, svmap_set_set]
  have hA : inf.pstate = PState.Inactive →
      force_activation env m svid = create_server env m svid := by
    intro hst
    simp only [force_activation, h1, h2, hst]
  have hB : inf.pstate = PState.Failed ∨ (inf.pstate = PState.Stopped ∧ inf.proc = none) →
      force_activation env m svid
        = create_server env
            { m with svmap := svmap_set m.svmap svid { inf with pstate := PState.Inactive } }
            svid := by
    intro hst
    rcases hst with hst | ⟨hst, hp⟩
    · simp only [force_activation, h1, h2, hst]
    · simp only [force_activation, h1, h2, hst, hp, ne_eq, not_true_eq_false, if_false]
  refine ⟨hA, hB, ?_, ?_, ?_, ?_⟩
  · intro hst
    rcases hst with hst | hst <;> simp only [force_activation, h1, h2, hst]
  · intro hst
    simp only [force_activation, h1, h2, hst]
  · intro hst hp
    simp only [force_activation, h1, h2, hst, hp, ne_eq, not_false_eq_true, if_true]
  · intro hst imr idv rest himr hfn hcmd
    rcases hst with hst | hst
    · rw [hA hst]
      have h3 := hspawn m inf hrec hst imr idv rest himr hfn hcmd
      rw [h3]
    · rw [hB hst]
      have h3 := hspawn
        { m with svmap := svmap_set m.svmap svid { inf with pstate := PState.Inactive } }
        { inf with pstate := PState.Inactive } hset rfl imr idv rest himr hfn hcmd
      rw [h3]
      simp only [svmap_set_set]

/-- C15, for the record `a` in state `Failed` since time 0, with the handle of the
process 0 that has not finished: at time 1 a new process is created and run. -/
theorem C15_force_activation_by_state_witness :
    force_activation (sample_env false 1) (sample_mediator PState.Failed (some 0)) [97]
      = some (true,
          { sample_mediator PState.Failed (some 0) with
              svmap := [([97], { pstate := PState.Started, proc := some 1,
                                 ior := { addr := some 5 }, failed := 0 })],
              next_proc := 2,
              trace := [Event.proc_new 1 [97] [120], Event.proc_run 1] }) :=
  (C15_force_activation_by_state (sample_env false 1) (sample_mediator PState.Failed (some 0))
    [97] { pstate := PState.Failed, proc := some 0, ior := { addr := some 5 }, failed := 0 }
    (by decide)).2.2.2.2.2 (Or.inr (Or.inl rfl)) sample_imr
    { name := [97], command := [120], mode := ActivationMode.ActivatePOA } [] rfl rfl
    (by decide)


/-- C17 as stated fails: in the build with threads, `deactivate_impl` on the `Active`
record `a` with process 0 detaches the process and leaves the record `Inactive`
with the handle still in it: the process object is not deleted. -/
theorem C17_counterexample_threads_keep_handle :
    deactivate_impl (sample_env true 0) (sample_mediator PState.Active (some 0)) [97]
      = some { sample_mediator PState.Active (some 0) with
          svmap := [([97], { pstate := PState.Inactive, proc := some 0,
                             ior := { addr := some 5 }, failed := 0 })],
          trace := [Event.proc_detach 0] } := by
  decide

/-- C17, as the code has it, for the record `inf` of `svid`.  With a process handle
`p`, in `Active`, `Holding` or `Stopped`, `deactivate_impl` completes with the state
`Inactive` (from `Active`) or `Stopped` (from `Holding`, `Stopped`) and detaches `p`;
without threads it also deletes `p` and clears the handle, with threads the
handle stays in the record.  In `Stopped` without a process handle it completes,
changing nothing and calling nothing. -/
theorem C17_deactivate_impl_by_state (env : Env) (m : Mediator) (svid : SvId) (inf : SvInf)
    (hrec : svmap_find m.svmap svid = some inf) :
    (∀ p, inf.proc = some p →
      inf.pstate = PState.Active ∨ inf.pstate = PState.Holding ∨ inf.pstate = PState.Stopped →
      deactivate_impl env m svid
        = some { m with
            svmap := svmap_set m.svmap svid
              { inf with
                  pstate := if inf.pstate = PState.Active then PState.Inactive
                            else PState.Stopped,
                  proc := if env.haveThreads then some p else none },
            trace := m.trace ++ (if env.haveThreads then [Event.proc_detach p]
                                 else [Event.proc_detach p, Event.proc_delete p]) }) ∧
    (inf.proc = none → inf.pstate = PState.Stopped → deactivate_impl env m svid = some m) := by
  have h1 := svmap_index_of_find _ _ _ hrec
  have h2 := svmap_at_of_find _ _ _ hrec
  refine ⟨?_, ?_⟩
  · intro p hp hst
    by_cases ht : env.haveThreads = true
    · rcases hst with hst | hst | hst <;>
        simp [deactivate_impl, h1, h2, hst, hp, ht]
    · rcases hst with hst | hst | hst <;>
        simp [deactivate_impl, h1, h2, hst, hp, ht]
  · intro hp hst
    have heta : ({ inf with pstate := PState.Stopped, proc := none } : SvInf) = inf := by
      rw [← hst, ← hp]
    simp only [deactivate_impl, h1, h2, hst, hp, ne_eq, not_true_eq_false, or_false,
      not_true_eq_false, if_false, heta, svmap_set_self _ _ _ hrec]

/-- C17, for the record `a` in state `Holding` with process 0, in the build without
threads. -/
theorem C17_deactivate_impl_by_state_witness :
    deactivate_impl (sample_env false 0) (sample_mediator PState.Holding (some 0)) [97]
      = some { sample_mediator PState.Holding (some 0) with
          svmap := [([97], { pstate := PState.Stopped, proc := none,
                             ior := { addr := some 5 }, failed := 0 })],
          trace := [Event.proc_detach 0, Event.proc_delete 0] } :=
  (C17_deactivate_impl_by_state (sample_env false 0) (sample_mediator PState.Holding (some 0))
    [97] { pstate := PState.Holding, proc := some 0, ior := { addr := some 5 }, failed := 0 }
    (by decide)).1 0 rfl (Or.inr (Or.inl rfl))

/-- C19 as stated fails: in the build without threads, the server `a` is started
(process 0) and the exit of process 0 is reported while the record is `Started`,
so that the record is `Failed` and keeps the handle of a process that has
finished.  No record holds an unfinished handle, yet `shutdown_server` calls
`perform_work` until the 60 seconds are over and reports `a`. -/
theorem C19_counterexample_finished_handle_waited_for :
    run (Mediator.init false)
        [(sample_env false 0, Op.force_activation [97]),
         (sample_env false 1, Op.callback 0)]
      = some { forward := false,
               svmap := [([97], { pstate := PState.Failed, proc := some 0,
                                  ior := { addr := none }, failed := 1 })],
               requests := [], invqueue := [], next_msgid := 0, next_proc := 1,
               trace := [Event.proc_new 0 [97] [120], Event.proc_run 0, Event.exec_later] } ∧
    shutdown_server { sample_env false 2 with finished := fun _ => true }
        { forward := false,
          svmap := [([97], { pstate := PState.Failed, proc := some 0,
                             ior := { addr := none }, failed := 1 })],
          requests := [], invqueue := [], next_msgid := 0, next_proc := 1,
          trace := [] }
        [({ sample_env false 30 with finished := fun _ => true }, []),
         ({ sample_env false 62 with finished := fun _ => true }, [])]
        { sample_env false 62 with finished := fun _ => true }
      = some { forward := false,
               svmap := [([97], { pstate := PState.Failed, proc := some 0,
                                  ior := { addr := none }, failed := 1 })],
               requests := [], invqueue := [], next_msgid := 0, next_proc := 1,
               trace := [Event.proc_terminate 0, Event.perform_work, Event.perform_work,
                         Event.cerr_cannot_be_stopped [97]] } := by
  constructor <;> decide

/-- C19, as the code has it.  A record is pending when it holds a process handle
and, in the build with threads, the process has not finished; without threads
every handle counts, finished or not.
(1) `terminate` is called once for each record with a handle, in map order, and
for no other.  (2) The report names the pending records, in map order.
(3) When no record is pending at the first scan, `shutdown_server` returns
without calling `perform_work`; (4) with no handle in the map it calls nothing
at all and changes nothing.  (5) While records stay pending and nothing is
delivered, `perform_work` is called once per round, until the clock read after
a call shows 60 seconds or more, or (6) until no record is pending; the map is
unchanged.  (7) When the work of the first round leaves no record pending,
`shutdown_server` returns after that round with the map as the work left it. -/
theorem C19_shutdown_server_signals_waits_reports (env : Env) (m : Mediator) :
    shutdown_signals m.svmap
      = (m.svmap.filterMap (fun e => e.2.proc)).map Event.proc_terminate ∧
    (∀ (last : Env), shutdown_report last m.svmap
      = (m.svmap.filter (fun e => shutdown_pending last e.2)).map
          (fun e => Event.cerr_cannot_be_stopped e.1)) ∧
    (∀ (e : Env) (inf : SvInf), shutdown_pending e inf = true
      ↔ ∃ p, inf.proc = some p ∧ (e.haveThreads = true → e.finished p = false)) ∧
    (∀ (r : Env × List (Env × Op)) (rest : List (Env × List (Env × Op))) (last : Env),
      m.svmap.any (fun e => shutdown_pending r.1 e.2) = false →
      shutdown_server env m (r :: rest) last
        = some (m.emit (shutdown_signals m.svmap ++ shutdown_report last m.svmap))) ∧
    (∀ (r : Env × List (Env × Op)) (rest : List (Env × List (Env × Op))) (last : Env),
      (∀ e ∈ m.svmap, e.2.proc = none) →
      shutdown_server env m (r :: rest) last = some m) ∧
    (∀ (early : List Env) (late : Env) (rest : List (Env × List (Env × Op))) (last : Env),
      (∀ e ∈ early, m.svmap.any (fun r => shutdown_pending e r.2) = true ∧
        e.now - env.now < 60) →
      m.svmap.any (fun r => shutdown_pending late r.2) = true → 60 ≤ late.now - env.now →
      shutdown_server env m (early.map (fun e => (e, [])) ++ (late, []) :: rest) last
        = some (m.emit (shutdown_signals m.svmap
            ++ List.replicate (early.length + 1) Event.perform_work
            ++ shutdown_report last m.svmap))) ∧
    (∀ (early : List Env) (late : Env) (rest : List (Env × List (Env × Op))) (last : Env),
      (∀ e ∈ early, m.svmap.any (fun r => shutdown_pending e r.2) = true ∧
        e.now - env.now < 60) →
      m.svmap.any (fun r => shutdown_pending late r.2) = false →
      shutdown_server env m (early.map (fun e => (e, [])) ++ (late, []) :: rest) last
        = some (m.emit (shutdown_signals m.svmap
            ++ List.replicate early.length Event.perform_work
            ++ shutdown_report last m.svmap))) ∧
    (∀ (e1 e2 : Env) (work w2 : List (Env × Op)) (rest : List (Env × List (Env × Op)))
        (last : Env) (m1 : Mediator),
      m.svmap.any (fun r => shutdown_pending e1 r.2) = true → e1.now - env.now < 60 →
      run (m.emit (shutdown_signals m.svmap ++ [Event.perform_work])) work = some m1 →
      m1.svmap.any (fun r => shutdown_pending e2 r.2) = false →
      shutdown_server env m ((e1, work) :: (e2, w2) :: rest) last
        = some (m1.emit (shutdown_report last m1.svmap))) := by
  have hemit : ∀ (a b : List Event), (m.emit a).emit b = m.emit (a ++ b) := by
    intro a b
    simp only [Mediator.emit, List.append_assoc]
  have hnone : ∀ (c : Env) (l : List (SvId × SvInf)), (∀ e ∈ l, e.2.proc = none) →
      shutdown_signals l = [] ∧ shutdown_report c l = [] ∧
        l.any (fun e => shutdown_pending c e.2) = false := by
    intro c l
    induction l with
    | nil => intro _; exact ⟨rfl, rfl, rfl⟩
    | cons a tl ih =>
      intro h
      obtain ⟨k, v⟩ := a
      have hv : v.proc = none := h (k, v) (List.mem_cons_self _ _)
      have h2 := ih (fun e he => h e (List.mem_cons_of_mem _ he))
      refine ⟨?_, ?_, ?_⟩
      · simp [shutdown_signals, hv, h2.1]
      · simp [shutdown_report, shutdown_pending, hv, h2.2.1]
      · have hpv : shutdown_pending c v = false := by simp [shutdown_pending, hv]
        rw [List.any_cons, h2.2.2]
        simp only [hpv, Bool.or_self]
  have hfirst : ∀ (r : Env × List (Env × Op)) (rest : List (Env × List (Env × Op)))
      (last : Env), m.svmap.any (fun e => shutdown_pending r.1 e.2) = false →
      shutdown_server env m (r :: rest) last
        = some (m.emit (shutdown_signals m.svmap ++ shutdown_report last m.svmap)) := by
    intro r rest last hpend
    obtain ⟨e, work⟩ := r
    have hp2 : (m.emit (shutdown_signals m.svmap)).svmap.any
        (fun r => shutdown_pending e r.2) = false := hpend
    simp only [shutdown_server, shutdown_wait, hp2, Bool.false_eq_true, if_false]
    rw [hemit]
    rfl
  refine ⟨shutdown_signals_eq _, fun last => shutdown_report_eq last _,
    shutdown_pending_iff, hfirst, ?_, ?_, ?_, ?_⟩
  · intro r rest last h
    have h2 := hnone r.1 m.svmap h
    have h3 := hnone last m.svmap h
    rw [hfirst r rest last h2.2.2, h2.1, h3.2.1]
    simp [Mediator.emit]
  · intro early late rest last hearly hpend hlate
    have h := (shutdown_wait_idle env.now late rest early (m.emit (shutdown_signals m.svmap))
      hearly).1 ⟨hpend, hlate⟩
    simp only [shutdown_server, h]
    rw [hemit, hemit]
    rfl
  · intro early late rest last hearly hpend
    have h := (shutdown_wait_idle env.now late rest early (m.emit (shutdown_signals m.svmap))
      hearly).2 hpend
    simp only [shutdown_server, h]
    rw [hemit, hemit]
    rfl
  · intro e1 e2 work w2 rest last m1 hpend hnow hrun hdone
    have hp2 : (m.emit (shutdown_signals m.svmap)).svmap.any
        (fun r => shutdown_pending e1 r.2) = true := hpend
    rw [← hemit] at hrun
    simp only [shutdown_server, shutdown_wait, hp2, if_true, hrun, hnow, hdone,
      Bool.false_eq_true, if_false]

/-- C19, for the record `a` in state `Active` with process 0, in the build without
threads: the exit of process 0 is delivered during the first call of
`perform_work`, the handle is released, and nothing is reported. -/
theorem C19_shutdown_server_signals_waits_reports_witness :
    shutdown_server (sample_env false 0) (sample_mediator PState.Active (some 0))
        [(sample_env false 1, [(sample_env false 1, Op.callback 0)]), (sample_env false 1, [])]
        (sample_env false 1)
      = some ({ sample_mediator PState.Active (some 0) with
          svmap := [([97], { pstate := PState.Inactive, proc := none,
                             ior := { addr := some 5 }, failed := 0 })],
          trace := [Event.proc_terminate 0, Event.perform_work, Event.proc_delete 0] }) :=
  (C19_shutdown_server_signals_waits_reports (sample_env false 0)
    (sample_mediator PState.Active (some 0))).2.2.2.2.2.2.2
    (sample_env false 1) (sample_env false 1) [(sample_env false 1, Op.callback 0)] [] []
    (sample_env false 1)
    { sample_mediator PState.Active (some 0) with
        svmap := [([97], { pstate := PState.Inactive, proc := none,
                           ior := { addr := some 5 }, failed := 0 })],
        trace := [Event.proc_terminate 0, Event.perform_work, Event.proc_delete 0] }
    (by decide) (by decide) (by decide) (by decide)



/-- C20 as stated fails.  `invoke` on the `Active` record `a`, with a reply expected and
no forwarding, acquires `requests_lock_` while it holds the lock of the record;
`force_activation` on the `Inactive` record `a` calls `create_server`, which
acquires `svmap_lock_` while the lock of the record is held. -/
theorem C20_counterexample_nested_acquisitions :
    invoke_locks (sample_env false 0) (sample_mediator PState.Active (some 0)) 7 sample_obj 3 4
        true
      = [LockEv.acquire Lock.svmap_lock, LockEv.acquire (Lock.record [97]),
         LockEv.acquire Lock.requests_lock, LockEv.release Lock.requests_lock,
         LockEv.release (Lock.record [97]), LockEv.release Lock.svmap_lock] ∧
    spec_lock_order []
        (invoke_locks (sample_env false 0) (sample_mediator PState.Active (some 0)) 7 sample_obj
          3 4 true) = false ∧
    force_activation_locks (sample_env false 0) (sample_mediator PState.Inactive none) [97]
      = [LockEv.acquire Lock.svmap_lock, LockEv.acquire (Lock.record [97]),
         LockEv.acquire Lock.svmap_lock, LockEv.release Lock.svmap_lock,
         LockEv.acquire (Lock.record [97]), LockEv.release (Lock.record [97]),
         LockEv.release (Lock.record [97]), LockEv.release Lock.svmap_lock] ∧
    spec_lock_order []
        (force_activation_locks (sample_env false 0) (sample_mediator PState.Inactive none)
          [97]) = false := by
  refine ⟨?_, ?_, ?_, ?_⟩ <;> decide

/-- C20, as the code has it, over the lock events of each single operation.
(1) Every operation keeps this order: while `requests_lock_` is held no other lock
is acquired (so no record lock is acquired under it), and `svmap_lock_` and
`requests_lock_` are acquired while a record lock is held only when `svmap_lock_`
is held already.  (2) Every operation other than `invoke`, `bind` and
`force_activation` keeps the order as the specification words it.  (3) So do
`stop`, whatever the number of iterations of its waiting loop, and
`shutdown_server`, whatever the keys of the map during its loops. -/
theorem C20_lock_order_of_the_operations (env : Env) (m : Mediator) :
    (∀ op, code_lock_order [] (step_locks env m op) = true) ∧
    (∀ op,
      (match op with
        | Op.invoke _ _ _ _ _ => False
        | Op.bind _ _ _ _ => False
        | Op.force_activation _ => False
        | _ => True) →
      spec_lock_order [] (step_locks env m op) = true) ∧
    (∀ svid n, code_lock_order [] (stop_locks m svid n) = true ∧
      spec_lock_order [] (stop_locks m svid n) = true) ∧
    (∀ scans, code_lock_order [] (shutdown_server_locks scans) = true ∧
      spec_lock_order [] (shutdown_server_locks scans) = true) := by
  have hcreate : ∀ svid, code_lock_order [] (create_impl_locks env svid) = true ∧
      spec_lock_order [] (create_impl_locks env svid) = true := by
    intro svid
    unfold create_impl_locks
    split
    · exact ⟨rfl, rfl⟩
    · exact ⟨(record_block_order _ true).1, (record_block_order _ true).2.1⟩
  have hcancel : code_lock_order [] cancel_locks = true ∧
      spec_lock_order [] cancel_locks = true := by
    constructor <;> decide
  refine ⟨?_, ?_, stop_locks_order m, shutdown_server_locks_order⟩
  · intro op
    cases op with
    | create_impl svid ior => exact (hcreate svid).1
    | activate_impl svid => exact (record_block_order svid true).1
    | deactivate_impl svid => exact (record_block_order svid _).1
    | force_activation svid => exact force_activation_locks_order env m svid
    | hold svid => exact (record_block_order svid true).1
    | stop svid => exact (record_block_order svid _).1
    | cxx_continue svid => exact (record_block_order svid true).1
    | create_server svid => exact (create_server_locks_top env m svid).1
    | has_object obj => exact (has_object_locks_order env m obj).1
    | invoke id obj req pr response_exp => exact invoke_locks_order env m id obj req pr _
    | bind id repoid tag addr => exact bind_locks_order env m id repoid tag addr
    | cancel id => exact hcancel.1
    | notify id ev => exact (notify_locks_order m id ev).1
    | callback proc => exact (callback_locks_order env m proc true).1
  · intro op hop
    cases op with
    | create_impl svid ior => exact (hcreate svid).2
    | activate_impl svid => exact (record_block_order svid true).2.1
    | deactivate_impl svid => exact (record_block_order svid _).2.1
    | force_activation svid => exact hop.elim
    | hold svid => exact (record_block_order svid true).2.1
    | stop svid => exact (record_block_order svid _).2.1
    | cxx_continue svid => exact (record_block_order svid true).2.1
    | create_server svid => exact (create_server_locks_top env m svid).2
    | has_object obj => exact (has_object_locks_order env m obj).2
    | invoke id obj req pr response_exp => exact hop.elim
    | bind id repoid tag addr => exact hop.elim
    | cancel id => exact hcancel.2
    | notify id ev => exact (notify_locks_order m id ev).2
    | callback proc => exact (callback_locks_order env m proc true).2

/-- C20, for the exit callback of process 0 in the build with threads, the record `a`
being `Active` with process 0: the lock of `a` is taken three times inside
`svmap_lock_` (collection pass, search, and the scope of the switch), and the
order of the specification is kept. -/
theorem C20_lock_order_of_the_operations_witness :
    step_locks (sample_env true 0) (sample_mediator PState.Active (some 0)) (Op.callback 0)
      = [LockEv.acquire Lock.svmap_lock,
         LockEv.acquire (Lock.record [97]), LockEv.release (Lock.record [97]),
         LockEv.acquire (Lock.record [97]), LockEv.release (Lock.record [97]),
         LockEv.acquire (Lock.record [97]), LockEv.release (Lock.record [97]),
         LockEv.release Lock.svmap_lock] ∧
    spec_lock_order []
      (step_locks (sample_env true 0) (sample_mediator PState.Active (some 0)) (Op.callback 0))
      = true :=
  ⟨by decide,
   (C20_lock_order_of_the_operations (sample_env true 0)
      (sample_mediator PState.Active (some 0))).2.1 (Op.callback 0) trivial⟩


/-- C21 fails for `invoke`.  (1) `create_server` stops on `assert (inf.pstate == Inactive)`
exactly when the record it looks at is `Stopped` or `Holding`.  (2) `force_activation`
never stops on an assertion, and (3) neither does the first loop of `bind`, the
one that calls `create_server`.  (4) `invoke` on a record that is not `Active` does
not stop on it either when the server id taken from the key holds no NUL.
(5) `invoke` tests the record of the server id taken from the key, but passes
`svid.c_str ()` to `create_server`, which ends at the first NUL: with the record
`a` in `Holding` and the record of the id `a\0b` entered by `has_object` as
`Inactive`, `invoke` on the key `a\0b/x` passes the test and `create_server` stops
on the assertion, looking at the record `a`. -/
theorem C21_invoke_reaches_assertion_through_c_str :
    (∀ (env : Env) (m : Mediator) (svid : SvId),
      create_server env m svid = none
        ↔ ((svmap_at (svmap_index m.svmap svid) svid).pstate = PState.Stopped ∨
            (svmap_at (svmap_index m.svmap svid) svid).pstate = PState.Holding)) ∧
    (∀ (env : Env) (m : Mediator) (svid : SvId),
      (force_activation env m svid).isSome = true) ∧
    (∀ (env : Env) (id : Nat) (ims : List ImplementationDef) (m : Mediator) (count : Nat)
        (queue : Bool), (bind_scan env id ims m count queue).isSome = true) ∧
    (∀ (env : Env) (m : Mediator) (id : Nat) (obj : ObjRef) (req pr : Nat)
        (response_exp : Bool) (svid : SvId) (inf : SvInf),
      extract_svid obj.key = some svid → svmap_find m.svmap svid = some inf →
      inf.pstate ≠ PState.Active → c_str svid = svid →
      (invoke env m id obj req pr response_exp).isSome = true) ∧
    run (Mediator.init false)
        [(sample_env false 0, Op.hold [97]),
         (sample_env false 1, Op.has_object (some { key := [97, 0, 98, 47, 120], objid := 9 }))]
      = some { forward := false,
               svmap := [([97], { pstate := PState.Holding, proc := none,
                                  ior := { addr := none }, failed := 0 }),
                         ([97, 0, 98], { pstate := PState.Inactive, proc := none,
                                         ior := { addr := none }, failed := 0 })],
               requests := [], invqueue := [], next_msgid := 0, next_proc := 0, trace := [] } ∧
    extract_svid [97, 0, 98, 47, 120] = some [97, 0, 98] ∧
    c_str [97, 0, 98] = [97] ∧
    invoke (sample_env false 2)
        { forward := false,
          svmap := [([97], { pstate := PState.Holding, proc := none,
                             ior := { addr := none }, failed := 0 }),
                    ([97, 0, 98], { pstate := PState.Inactive, proc := none,
                                    ior := { addr := none }, failed := 0 })],
          requests := [], invqueue := [], next_msgid := 0, next_proc := 0, trace := [] }
        7 { key := [97, 0, 98, 47, 120], objid := 9 } 3 4 true
      = none := by
  refine ⟨create_server_none_iff, force_activation_isSome, bind_scan_isSome, ?_,
    by decide, by decide, by decide, by decide⟩
  intro env m id obj req pr response_exp svid inf hex hrec hact hc
  by_cases h1 : inf.pstate = PState.Stopped ∨ inf.pstate = PState.Holding
  · simp only [invoke, hex, hrec, h1, if_true]
    rfl
  · cases hcs : create_server env m svid with
    | none =>
      have h := (create_server_none_iff env m svid).mp hcs
      rw [svmap_index_of_find _ _ _ hrec, svmap_at_of_find _ _ _ hrec] at h
      exact absurd h h1
    | some r =>
      obtain ⟨b, m1⟩ := r
      cases b <;>
        simp only [invoke, hex, hrec, h1, if_false, hact, ne_eq, not_false_eq_true, if_true,
          hc, hcs] <;> rfl

/-- C22 fails.  Let the record `inf` of `svid` be `Stopped` or `Holding` and hold the
handle of process `p`, which is the record found for `p`.  After `_cxx_continue`
the record is `Inactive` with the handle still in it, and the exit callback of
`p` finds it in that state and stops on `assert (0)`. -/
theorem C22_exit_callback_after_continue (env : Env) (m : Mediator) (p : Nat) (svid : SvId)
    (inf : SvInf)
    (hkeys : (m.svmap.map Prod.fst).Nodup)
    (hfind : callback_find m.svmap p = some (svid, inf))
    (hst : inf.pstate = PState.Stopped ∨ inf.pstate = PState.Holding)
    (hlive : env.haveThreads = true → env.finished p = false) :
    svmap_find (cxx_continue m svid).2.svmap svid
      = some { inf with pstate := PState.Inactive } ∧
    inf.proc = some p ∧
    callback env (cxx_continue m svid).2 p true = none := by
  have hp := callback_find_proc _ p svid inf hfind
  have hrec := callback_find_key _ p svid inf hkeys hfind
  have h1 := svmap_index_of_find _ _ _ hrec
  have h2 := svmap_at_of_find _ _ _ hrec
  have hcont : (cxx_continue m svid).2
      = { m with svmap := svmap_set m.svmap svid { inf with pstate := PState.Inactive },
                 trace := m.trace ++ [Event.exec_later] } := by
    rcases hst with h | h <;> simp only [cxx_continue, h1, h2, h]
  have hset := svmap_find_set_same m.svmap svid inf { inf with pstate := PState.Inactive } hrec
  have hf2 := callback_find_set m.svmap p svid inf { inf with pstate := PState.Inactive }
    hkeys hfind hp
  refine ⟨by rw [hcont]; exact hset, hp, ?_⟩
  rw [hcont]
  by_cases ht : env.haveThreads = true
  · have hf3 := callback_gc_find env _ p svid { inf with pstate := PState.Inactive }
      (hlive ht) hf2
    simp only [callback, ht, if_true, hf3, not_true_eq_false, if_false]
  · simp only [callback, ht, Bool.false_eq_true, if_false, hf2, not_true_eq_false]

/-- C22, on a run from the empty mediator: the server `a` is started (process 0) and
announces itself; `stop` signals it, waits until the timeout with nothing
delivered and returns `FALSE`, the record `Stopped` with the handle; then
`_cxx_continue`, and the exit callback of process 0 stops on the assertion. -/
theorem C22_exit_callback_after_continue_witness :
    run (Mediator.init false)
        [(sample_env false 0, Op.force_activation [97]),
         (sample_env false 1, Op.activate_impl [97])]
      = some { forward := false,
               svmap := [([97], { pstate := PState.Active, proc := some 0,
                                  ior := { addr := none }, failed := 0 })],
               requests := [], invqueue := [], next_msgid := 0, next_proc := 1,
               trace := [Event.proc_new 0 [97] [120], Event.proc_run 0, Event.exec_later] } ∧
    stop { forward := false,
           svmap := [([97], { pstate := PState.Active, proc := some 0,
                              ior := { addr := none }, failed := 0 })],
           requests := [], invqueue := [], next_msgid := 0, next_proc := 1, trace := [] }
        [97] [(0, []), (5000, [])]
      = some (false,
          { forward := false,
            svmap := [([97], { pstate := PState.Stopped, proc := some 0,
                               ior := { addr := none }, failed := 0 })],
            requests := [], invqueue := [], next_msgid := 0, next_proc := 1,
            trace := [Event.proc_terminate 0, Event.perform_work, Event.perform_work,
                      Event.cerr_cannot_be_stopped [97]] }) ∧
    (svmap_find
        (cxx_continue
          { forward := false,
            svmap := [([97], { pstate := PState.Stopped, proc := some 0,
                               ior := { addr := none }, failed := 0 })],
            requests := [], invqueue := [], next_msgid := 0, next_proc := 1, trace := [] }
          [97]).2.svmap [97]
      = some { pstate := PState.Inactive, proc := some 0, ior := { addr := none },
               failed := 0 } ∧
     some 0 = some 0 ∧
     callback (sample_env false 10)
        (cxx_continue
          { forward := false,
            svmap := [([97], { pstate := PState.Stopped, proc := some 0,
                               ior := { addr := none }, failed := 0 })],
            requests := [], invqueue := [], next_msgid := 0, next_proc := 1, trace := [] }
          [97]).2 0 true = none) :=
  ⟨by decide, by decide,
   C22_exit_callback_after_continue (sample_env false 10)
    { forward := false,
      svmap := [([97], { pstate := PState.Stopped, proc := some 0,
                         ior := { addr := none }, failed := 0 })],
      requests := [], invqueue := [], next_msgid := 0, next_proc := 1, trace := [] }
    0 [97] { pstate := PState.Stopped, proc := some 0, ior := { addr := none }, failed := 0 }
    (by decide) (by decide) (Or.inl rfl) (by decide)⟩

/-- C23 fails.  Let the address constraint be absent or local, the candidate list not
empty, every candidate's record `Stopped` or `Holding`, and no record of the map
`Active`.  Then `bind` returns `TRUE` and the mediator is as before: nothing was
called, so the request is not answered, the queue has not grown and `requests`
has no new entry. -/
theorem C23_bind_drops_request_without_active_record (env : Env) (m : Mediator)
    (id repoid tag : Nat) (addr : Option Bool) (imr : ImplRepository)
    (haddr : addr ≠ some false)
    (himr : env.imr = some imr)
    (hcand : bind_candidates (imr.find_by_repoid_tag repoid tag) ≠ [])
    (hheld : ∀ im ∈ imr.find_by_repoid_tag repoid tag,
      im.mode = ActivationMode.ActivatePOA →
        ∃ inf, svmap_find m.svmap im.name = some inf ∧
          (inf.pstate = PState.Stopped ∨ inf.pstate = PState.Holding))
    (hnone : ∀ e ∈ m.svmap, e.2.pstate ≠ PState.Active) :
    bind env m id repoid tag addr = some (true, m) := by
  have hready : ∀ im ∈ imr.find_by_repoid_tag repoid tag,
      im.mode = ActivationMode.ActivatePOA →
        ∃ inf, svmap_find m.svmap im.name = some inf ∧
          (inf.pstate = PState.Active ∨ inf.pstate = PState.Stopped ∨
            inf.pstate = PState.Holding) := by
    intro im him hmode
    obtain ⟨inf, h1, h2⟩ := hheld im him hmode
    exact ⟨inf, h1, Or.inr h2⟩
  have hscan := bind_scan_ready env id m (imr.find_by_repoid_tag repoid tag) 0 false hready
  have hcount : ¬ (0 + (bind_candidates (imr.find_by_repoid_tag repoid tag)).length = 0) := by
    intro h0
    apply hcand
    apply List.length_eq_zero.mp
    omega
  have ha := bind_alloc_no_active id m.svmap m [] hnone
  have hs := bind_send_no_active repoid tag m.svmap m [] hnone
  simp only [bind, haddr, if_false, himr, hscan, hcount, Bool.false_eq_true, ha, hs]

/-- C23, for the mediator whose single record `a` is `Holding` (after `hold` on the
empty mediator), `a` being the only candidate; `invoke` on the same record
queues its request. -/
theorem C23_bind_drops_request_without_active_record_witness :
    (hold (Mediator.init false) [97]).2
      = { forward := false,
          svmap := [([97], { pstate := PState.Holding, proc := none,
                             ior := { addr := none }, failed := 0 })],
          requests := [], invqueue := [], next_msgid := 0, next_proc := 0, trace := [] } ∧
    bind (sample_env false 0) (hold (Mediator.init false) [97]).2 7 1 2 none
      = some (true, (hold (Mediator.init false) [97]).2) ∧
    invoke (sample_env false 0) (hold (Mediator.init false) [97]).2 7 sample_obj 3 4 true
      = some (true, { (hold (Mediator.init false) [97]).2 with
          invqueue := [ReqQueueRec.invoke 7 3 sample_obj 4 true] }) :=
  ⟨by decide,
   C23_bind_drops_request_without_active_record (sample_env false 0)
    (hold (Mediator.init false) [97]).2 7 1 2 none sample_imr (by decide) rfl (by decide)
    (by
      intro im him _
      have h1 : im = { name := [97], command := [120], mode := ActivationMode.ActivatePOA } := by
        simpa [sample_imr] using him
      subst h1
      exact ⟨{ pstate := PState.Holding, proc := none, ior := { addr := none }, failed := 0 },
        by decide, Or.inr rfl⟩)
    (by decide),
   by decide⟩

/-- C24 fails.  Take any key made of an escaped server id followed by one more
backslash: it has no separator and ends in an odd number of backslashes (`a\`,
and `\` alone, are such keys).  The first loop ends at `i = length`; the second
loop, on the backslash in the last position, steps to `j = length` and reads
`key[length]`, so that the extraction has no result and `invoke` and `has_object`
do not get past it. -/
theorem C24_unescape_reads_past_the_end (s : List Nat) :
    scan_loop (escape_id s ++ [backslash]) (escape_id s ++ [backslash]).length 0 0
      = (escape_id s ++ [backslash]).length ∧
    unescape_loop (escape_id s ++ [backslash]) (escape_id s ++ [backslash]).length
      (escape_id s ++ [backslash]).length 0 [] = none ∧
    extract_svid (escape_id s ++ [backslash]) = none ∧
    (∀ (env : Env) (m : Mediator) (id objid req pr : Nat) (response_exp : Bool),
      invoke env m id { key := escape_id s ++ [backslash], objid := objid } req pr response_exp
        = none) ∧
    (∀ (env : Env) (m : Mediator) (objid : Nat),
      has_object env m (some { key := escape_id s ++ [backslash], objid := objid }) = none) := by
  have h1 := scan_loop_trailing_backslash s
  have h2 := unescape_loop_trailing_backslash s
  have h3 := extract_svid_trailing_backslash s
  have hl : (escape_id s ++ [backslash]).length = (escape_id s).length + 1 := by simp
  refine ⟨h1, ?_, h3, ?_, ?_⟩
  · rw [hl]
    exact h2
  · intro env m id objid req pr response_exp
    simp only [invoke, h3]
  · intro env m objid
    simp only [has_object, h3]

/-- C24, for the keys `a\` and `\`. -/
theorem C24_unescape_reads_past_the_end_witness :
    extract_svid [97, 92] = none ∧
    extract_svid [92] = none ∧
    invoke (sample_env false 0) (Mediator.init false) 7 { key := [97, 92], objid := 9 } 3 4 true
      = none ∧
    has_object (sample_env false 0) (Mediator.init false) (some { key := [97, 92], objid := 9 })
      = none :=
  ⟨(C24_unescape_reads_past_the_end [97]).2.2.1,
   (C24_unescape_reads_past_the_end []).2.2.1,
   (C24_unescape_reads_past_the_end [97]).2.2.2.1 (sample_env false 0) (Mediator.init false)
     7 9 3 4 true,
   (C24_unescape_reads_past_the_end [97]).2.2.2.2 (sample_env false 0) (Mediator.init false) 9⟩

end POAMediator
